import Mathlib

/-!
# libTAS: the emulated ALSA playback device (`src/library/audio/alsa/pcm.cpp`)

A shallow embedding of the emulated branch of every `snd_pcm_*` hook (the branch taken
when `GlobalState::isNative()` is false; the native branch only forwards to the real
library).

Conventions of the embedding.

* The file-level statics `sourceAlsa`, `buffer_size`, `periods` and the globals the hooks
  touch (`audiocontext`, `is_exiting`, `game_info`, `detTimer`) are the fields of `Pcm`;
  a hook is a function from the state before the call to the state after it and the values
  it returns or writes through its pointer arguments.
* The values the hooks receive and store in `int` variables are mathematical integers
  within the range of `int`. Arithmetic the source performs in `unsigned int` is reduced
  modulo `2 ^ 32`; the product `buffer_size * 1000000`, which the source computes in `int`
  and which leaves the range of `int` for ordinary capacities, is checked with `fitsInt`.
* A result `none` stands for undefined behaviour of the C++ (dereferencing the null
  `sourceAlsa`, indexing an empty `buffer_queue`, dividing by zero, signed overflow).
* The two polling hooks take the list of the `Sleep`s they go through: what the other
  threads do during each `nanosleep`. When the list runs out while the loop is still
  running the call has not returned, which is reported as `none` in place of the return
  value.
* `AudioBuffer`, `AudioSource`, `AudioContext` are declared outside `pcm.cpp`; what the
  hooks need of them is modelled from the specification and marked so.
-/

namespace libtas

/-! ## Constants of the ALSA headers -/

/-- Value of `SND_PCM_STREAM_PLAYBACK` in `<alsa/pcm.h>`. -/
def SND_PCM_STREAM_PLAYBACK : Int := 0

/-- Value of `SND_PCM_STREAM_CAPTURE` in `<alsa/pcm.h>`. -/
def SND_PCM_STREAM_CAPTURE : Int := 1

/-- Value of `SND_PCM_FORMAT_U8` in `<alsa/pcm.h>`. -/
def SND_PCM_FORMAT_U8 : Int := 1

/-- Value of `SND_PCM_FORMAT_S16_LE` in `<alsa/pcm.h>`. -/
def SND_PCM_FORMAT_S16_LE : Int := 2

/-- Value of `SND_PCM_FORMAT_S32_LE` in `<alsa/pcm.h>`. -/
def SND_PCM_FORMAT_S32_LE : Int := 10

/-- Value of `SND_PCM_FORMAT_FLOAT_LE` in `<alsa/pcm.h>`. -/
def SND_PCM_FORMAT_FLOAT_LE : Int := 14

/-- Value of `SND_PCM_ACCESS_MMAP_INTERLEAVED` in `<alsa/pcm.h>`. -/
def SND_PCM_ACCESS_MMAP_INTERLEAVED : Int := 0

/-- Value of `SND_PCM_ACCESS_RW_INTERLEAVED` in `<alsa/pcm.h>`. -/
def SND_PCM_ACCESS_RW_INTERLEAVED : Int := 3

/-- Value of `SND_CHMAP_FL` in `<alsa/pcm.h>`. -/
def SND_CHMAP_FL : Int := 3

/-- Value of `SND_CHMAP_FR` in `<alsa/pcm.h>`. -/
def SND_CHMAP_FR : Int := 4

/-! ## Data model -/

/-- Modelled from the spec: the sample formats of `AudioBuffer` (`AudioBuffer.h` is not
among the sources); these are the four the hooks assign. -/
inductive SampleFormat where
  | SAMPLE_FMT_U8
  | SAMPLE_FMT_S16
  | SAMPLE_FMT_S32
  | SAMPLE_FMT_FLT
  deriving DecidableEq

/-- Modelled from the spec: bytes per sample of a format (§3, `align_size`). -/
def SampleFormat.bytesPerSample : SampleFormat → Int
  | .SAMPLE_FMT_U8 => 1
  | .SAMPLE_FMT_S16 => 2
  | .SAMPLE_FMT_S32 => 4
  | .SAMPLE_FMT_FLT => 4

/-- Modelled from the spec: the fields of `AudioBuffer` the hooks read and write
(`AudioBuffer.h` is not among the sources). `sampleSize` is the frame count, `size` the
byte size, `samples` the byte storage, `id` the id under which the registry owns it. -/
structure AudioBuffer where
  id : Nat
  format : SampleFormat
  nbChannels : Int
  frequency : Int
  bitDepth : Int
  alignSize : Int
  sampleSize : Int
  size : Int
  samples : List Nat
  deriving DecidableEq

/-- Modelled from the spec: `AudioBuffer::update()` is not among the sources; it derives
the bits per sample from the format and `align_size = bytes-per-sample × channels`. -/
def AudioBuffer.update (ab : AudioBuffer) : AudioBuffer :=
  { ab with
    bitDepth := 8 * ab.format.bytesPerSample
    alignSize := ab.format.bytesPerSample * ab.nbChannels }

/-- Modelled from the spec: the play states of a source (§4.2). -/
inductive SourceState where
  | SOURCE_STOPPED
  | SOURCE_PLAYING
  deriving DecidableEq

/-- Modelled from the spec: the kinds of source (§3, only streaming is modelled). -/
inductive SourceType where
  | SOURCE_STREAMING
  deriving DecidableEq

/-- Modelled from the spec: the fields of `AudioSource` the hooks read and write
(`AudioSource.h` is not among the sources). A buffer is referenced by at most one slot of
one queue (it enters a queue when it has just been created or just been erased from
index 0), so the queue holds the buffer records themselves. -/
structure AudioSource where
  id : Nat
  buffer_queue : List AudioBuffer
  queue_index : Int
  source : SourceType
  state : SourceState
  deriving DecidableEq

/-- Modelled from the spec: `AudioSource::queueSize()` is not among the sources;
`queued_frames` is the sum of the frame counts of all buffers in the queue (§3). -/
def AudioSource.queueSize (src : AudioSource) : Int :=
  (src.buffer_queue.map AudioBuffer.sampleSize).sum

/-- Modelled from the spec: `AudioSource::getPosition()` is not among the sources;
`position` is the sum of the frame counts of the buffers at indices below the cursor
(§3). -/
def AudioSource.getPosition (src : AudioSource) : Int :=
  ((src.buffer_queue.take src.queue_index.toNat).map AudioBuffer.sampleSize).sum

/-- Modelled from the spec: `AudioSource::nbQueueProcessed()` is not among the sources;
the processed buffers are those at indices below the cursor (§3), so their number is
the cursor. -/
def AudioSource.nbQueueProcessed (src : AudioSource) : Int :=
  src.queue_index

/-- Modelled from the spec: the registry `audiocontext` (`AudioContext.h` is not among the
sources) owns every buffer and source under a numeric id. The records of the objects
reachable from `pcm.cpp` live in `sourceAlsa`; the registry keeps the ids it owns. -/
structure AudioContext where
  buffers : List Nat
  sources : List Nat
  deriving DecidableEq

/-- Modelled from the spec: `AudioContext::createBuffer()` registers a new buffer under an
id not in use and returns the id. -/
def AudioContext.createBuffer (ctx : AudioContext) : AudioContext × Nat :=
  let id := ctx.buffers.foldl max 0 + 1
  ({ ctx with buffers := ctx.buffers ++ [id] }, id)

/-- Modelled from the spec: `AudioContext::getBuffer(id)` for an id just created: the
buffer is created empty (§3). -/
def AudioContext.getBuffer (_ctx : AudioContext) (id : Nat) : AudioBuffer :=
  { id := id
    format := .SAMPLE_FMT_U8
    nbChannels := 0
    frequency := 0
    bitDepth := 0
    alignSize := 0
    sampleSize := 0
    size := 0
    samples := [] }

/-- Modelled from the spec: `AudioContext::createSource()` registers a new source under an
id not in use and returns the id. -/
def AudioContext.createSource (ctx : AudioContext) : AudioContext × Nat :=
  let id := ctx.sources.foldl max 0 + 1
  ({ ctx with sources := ctx.sources ++ [id] }, id)

/-- Modelled from the spec: `AudioContext::getSource(id)` for an id just created: an empty
queue, cursor 0, state Stopped (§3, §4.2). -/
def AudioContext.getSource (_ctx : AudioContext) (id : Nat) : AudioSource :=
  { id := id
    buffer_queue := []
    queue_index := 0
    source := .SOURCE_STREAMING
    state := .SOURCE_STOPPED }

/-- The two fields of the global `game_info` that `snd_pcm_open` writes: whether the
`GameInfo::ALSA` bit of `audio` is set, and `tosend`. -/
structure GameInfo where
  audio_ALSA : Bool
  tosend : Bool
  deriving DecidableEq

/-- The state the hooks of `pcm.cpp` work on. `detTimer` is the value of
`detTimer.getTicks()` in nanoseconds. -/
structure Pcm where
  audiocontext : AudioContext
  sourceAlsa : Option AudioSource
  buffer_size : Int
  periods : Int
  is_exiting : Bool
  game_info : GameInfo
  detTimer : Nat
  deriving DecidableEq

/-- The state at program start: `sourceAlsa` null, `buffer_size = 4096`, `periods = 2`. -/
def Pcm.init : Pcm :=
  { audiocontext := { buffers := [], sources := [] }
    sourceAlsa := none
    buffer_size := 4096
    periods := 2
    is_exiting := false
    game_info := { audio_ALSA := false, tosend := false }
    detTimer := 0 }

/-- What the other threads do while a hook sleeps one millisecond: the mixing stage moves
the cursor forward by `advance` buffers, the shutdown signal may be raised, the
deterministic clock moves by `ticks` nanoseconds. -/
structure Sleep where
  advance : Nat
  exiting : Bool
  ticks : Nat
  deriving DecidableEq

/-- A sleep during which nothing happens. -/
def Sleep.idle : Sleep :=
  { advance := 0, exiting := false, ticks := 0 }

/-- Modelled from the spec: the mixing stage (not among the sources) is the only writer of
the cursor and only moves it forward, never beyond the end of the queue (§3, §5). -/
def AudioSource.consume (src : AudioSource) (k : Nat) : AudioSource :=
  { src with queue_index := min (src.queue_index + k) src.buffer_queue.length }

/-- The effect of `NATIVECALL(nanosleep(&mssleep, NULL))`: the calling thread does nothing,
the other threads do what the `Sleep` says. -/
def nanosleep (e : Sleep) (s : Pcm) : Pcm :=
  { s with
    sourceAlsa := s.sourceAlsa.map (fun src => src.consume e.advance)
    is_exiting := s.is_exiting || e.exiting
    detTimer := s.detTimer + e.ticks }

/-- Whether a value is within the range of `int` (32 bits). -/
def fitsInt (x : Int) : Prop :=
  -2147483648 ≤ x ∧ x ≤ 2147483647

instance fitsInt.decidable (x : Int) : Decidable (fitsInt x) := by
  unfold fitsInt
  infer_instance

/-! ## The hooks, in the order of `pcm.cpp` -/

/-- The emulated branch of `snd_pcm_open`; `stream` is the requested direction. Returns the
state after the call and the return value. -/
def snd_pcm_open (s : Pcm) (stream : Int) : Pcm × Int :=
  if stream ≠ SND_PCM_STREAM_PLAYBACK then
    (s, -1)
  else
    let game_info : GameInfo := { audio_ALSA := true, tosend := true }
    let (ctx1, bufferId) := s.audiocontext.createBuffer
    let buffer := ctx1.getBuffer bufferId
    let (ctx2, sourceId) := ctx1.createSource
    let src := ctx2.getSource sourceId
    let src := { src with buffer_queue := src.buffer_queue ++ [buffer] }
    let src := { src with source := SourceType.SOURCE_STREAMING }
    ({ s with game_info := game_info, audiocontext := ctx2, sourceAlsa := some src }, 0)

/-- The emulated branch of `snd_pcm_close`. -/
def snd_pcm_close (s : Pcm) : Pcm × Int :=
  (s, 0)

/-- The emulated branch of `snd_pcm_nonblock`. -/
def snd_pcm_nonblock (s : Pcm) (_nonblock : Int) : Pcm × Int :=
  (s, 0)

/-- The emulated branch of `snd_pcm_start`. -/
def snd_pcm_start (s : Pcm) : Option (Pcm × Int) :=
  match s.sourceAlsa with
  | none => none
  | some src =>
    some ({ s with sourceAlsa := some { src with state := SourceState.SOURCE_PLAYING } }, 0)

/-- The emulated branch of `snd_pcm_resume`. -/
def snd_pcm_resume (s : Pcm) : Option (Pcm × Int) :=
  match s.sourceAlsa with
  | none => none
  | some src =>
    some ({ s with sourceAlsa := some { src with state := SourceState.SOURCE_PLAYING } }, 0)

/-- The static helper `get_latency`. -/
def get_latency (s : Pcm) : Option Int :=
  match s.sourceAlsa with
  | none => none
  | some src => some (src.queueSize - src.getPosition)

/-- The `do ... while` loop of `snd_pcm_wait`: one iteration per listed sleep; `initial_time`
is the clock value read before the loop. Returns the state and `delta_ms` when the loop is
left, `none` in their place when the sleeps run out first. -/
def snd_pcm_wait_loop (initial_time : Nat) (timeout : Int) :
    List Sleep → Pcm → Option (Pcm × Option Int)
  | [], s => some (s, none)
  | e :: es, s =>
    let s1 := nanosleep e s
    let delta_ms : Int := ((s1.detTimer - initial_time) / 1000000 : Nat)
    if s1.is_exiting then
      some (s1, some delta_ms)
    else
      match get_latency s1 with
      | none => none
      | some l =>
        if l ≥ s1.buffer_size ∧ (timeout < 0 ∨ delta_ms < timeout) then
          snd_pcm_wait_loop initial_time timeout es s1
        else
          some (s1, some delta_ms)

/-- The emulated branch of `snd_pcm_wait`. -/
def snd_pcm_wait (sleeps : List Sleep) (s : Pcm) (timeout : Int) : Option (Pcm × Option Int) :=
  match get_latency s with
  | none => none
  | some l0 =>
    let after : Option (Pcm × Option Int) :=
      if s.buffer_size - l0 ≤ 0 then
        snd_pcm_wait_loop s.detTimer timeout sleeps s
      else
        some (s, some (-1))
    match after with
    | none => none
    | some (s1, none) => some (s1, none)
    | some (s1, some _) =>
      match get_latency s1 with
      | none => none
      | some l => if s1.buffer_size - l > 0 then some (s1, some 1) else some (s1, some 0)

/-- The emulated branch of `snd_pcm_delay`: the state, the return value and the value written
to `*delayp`. -/
def snd_pcm_delay (s : Pcm) : Option (Pcm × Int × Int) :=
  match get_latency s with
  | none => none
  | some l => some (s, 0, l)

/-- The emulated branch of `snd_pcm_avail_update`. -/
def snd_pcm_avail_update (s : Pcm) : Option (Pcm × Int) :=
  match get_latency s with
  | none => none
  | some l =>
    let avail := s.buffer_size - l
    let avail := if avail < 0 then 0 else avail
    some (s, avail)

/-- The emulated branch of `snd_pcm_hw_params`. -/
def snd_pcm_hw_params (s : Pcm) : Option (Pcm × Int) :=
  match s.sourceAlsa with
  | none => none
  | some src =>
    match src.buffer_queue with
    | [] => none
    | buffer :: rest =>
      let buffer := { buffer with size := 0 }
      let buffer := buffer.update
      some ({ s with sourceAlsa := some { src with
                buffer_queue := buffer :: rest
                state := SourceState.SOURCE_PLAYING } }, 0)

/-- The emulated branch of `snd_pcm_sw_params_current`. -/
def snd_pcm_sw_params_current (s : Pcm) : Pcm × Int :=
  (s, 0)

/-- The emulated branch of `snd_pcm_sw_params`. -/
def snd_pcm_sw_params (s : Pcm) : Option (Pcm × Int) :=
  match s.sourceAlsa with
  | none => none
  | some src =>
    match src.buffer_queue with
    | [] => none
    | buffer :: rest =>
      let buffer := { buffer with size := 0 }
      let buffer := buffer.update
      some ({ s with sourceAlsa := some { src with
                buffer_queue := buffer :: rest
                state := SourceState.SOURCE_PLAYING } }, 0)

/-- The emulated branch of `snd_pcm_prepare`. -/
def snd_pcm_prepare (s : Pcm) : Pcm × Int :=
  (s, 0)

/-- The `do ... while (!is_exiting && (get_latency() > buffer_size))` loop of
`snd_pcm_writei`: one iteration per listed sleep. Returns the state and whether the loop
has been left. -/
def snd_pcm_writei_loop : List Sleep → Pcm → Option (Pcm × Bool)
  | [], s => some (s, false)
  | e :: es, s =>
    let s1 := nanosleep e s
    if s1.is_exiting then
      some (s1, true)
    else
      match get_latency s1 with
      | none => none
      | some l => if l > s1.buffer_size then snd_pcm_writei_loop es s1 else some (s1, true)

/-- The emulated branch of `snd_pcm_writei`; `buffer i` is the byte at offset `i` of the
caller's data, `size` the frame count. The return value is `none` while the call is still
in its wait loop. -/
def snd_pcm_writei (sleeps : List Sleep) (s : Pcm) (buffer : Nat → Nat) (size : Nat) :
    Option (Pcm × Option Int) :=
  match snd_pcm_writei_loop sleeps s with
  | none => none
  | some (s1, false) => some (s1, none)
  | some (s1, true) =>
    if s1.is_exiting then
      some (s1, some 0)
    else
      match s1.sourceAlsa with
      | none => none
      | some src =>
        if src.nbQueueProcessed > 0 then
          match src.buffer_queue with
          | [] => none
          | ab :: rest =>
            let src := { src with buffer_queue := rest }
            let src := { src with queue_index := src.queue_index - 1 }
            let ab := ab.update
            let ab := { ab with sampleSize := size }
            let ab := { ab with size := size * ab.alignSize }
            let ab := { ab with samples := (List.range ab.size.toNat).map buffer }
            let src := { src with buffer_queue := src.buffer_queue ++ [ab] }
            some ({ s1 with sourceAlsa := some src }, some size)
        else
          let (ctx, bufferId) := s1.audiocontext.createBuffer
          let ab := ctx.getBuffer bufferId
          match src.buffer_queue with
          | [] => some ({ s1 with audiocontext := ctx }, some (-1))
          | ref :: _ =>
            let ab := { ab with format := ref.format }
            let ab := { ab with nbChannels := ref.nbChannels }
            let ab := { ab with frequency := ref.frequency }
            let ab := ab.update
            let ab := { ab with sampleSize := size }
            let ab := { ab with size := size * ab.alignSize }
            let ab := { ab with samples := (List.range ab.size.toNat).map buffer }
            let src := { src with buffer_queue := src.buffer_queue ++ [ab] }
            some ({ s1 with audiocontext := ctx, sourceAlsa := some src }, some size)

/-- The emulated branch of `snd_pcm_readi`. -/
def snd_pcm_readi (s : Pcm) (size : Nat) : Pcm × Int :=
  (s, size)

/-- One entry of `snd_pcm_channel_area_t`; `addr` is the id of the buffer whose storage
the area points to, `first` and `step` are in bits. -/
structure snd_pcm_channel_area_t where
  addr : Nat
  first : Int
  step : Int
  deriving DecidableEq

/-- What `snd_pcm_mmap_begin` hands back: its return value, the value of `*frames` after the
call, and `*areas` and `*offset` when it wrote them. -/
structure MmapBegin where
  ret : Int
  frames : Nat
  areas : Option (List snd_pcm_channel_area_t)
  offset : Option Nat
  deriving DecidableEq

/-- The effect of `std::vector<uint8_t>::resize(n)`: cut to `n` bytes or pad with zeros. -/
def resize (samples : List Nat) (n : Nat) : List Nat :=
  samples.take n ++ List.replicate (n - samples.length) 0

/-- The emulated branch of `snd_pcm_mmap_begin`; `frames` is the value of `*frames` on
entry. -/
def snd_pcm_mmap_begin (s : Pcm) (frames : Nat) : Option (Pcm × MmapBegin) :=
  match get_latency s with
  | none => none
  | some l =>
    let avail := s.buffer_size - l
    let avail := if avail < 0 then 0 else avail
    let frames : Nat := if (frames : Int) > avail then avail.toNat else frames
    match s.sourceAlsa with
    | none => none
    | some src =>
      if src.nbQueueProcessed > 0 then
        match src.buffer_queue with
        | [] => none
        | ab :: rest =>
          let src := { src with buffer_queue := rest }
          let src := { src with queue_index := src.queue_index - 1 }
          let ab := ab.update
          let ab := { ab with sampleSize := frames }
          let ab := { ab with size := frames * ab.alignSize }
          let ab := { ab with samples := resize ab.samples ab.size.toNat }
          let src := { src with buffer_queue := src.buffer_queue ++ [ab] }
          let my_areas : List snd_pcm_channel_area_t :=
            [ { addr := ab.id, first := 0, step := ab.alignSize * 8 },
              { addr := ab.id, first := ab.bitDepth, step := ab.alignSize * 8 } ]
          some ({ s with sourceAlsa := some src },
            { ret := 0, frames := frames, areas := some my_areas, offset := some 0 })
      else
        let (ctx, bufferId) := s.audiocontext.createBuffer
        let ab := ctx.getBuffer bufferId
        match src.buffer_queue with
        | [] =>
          some ({ s with audiocontext := ctx },
            { ret := -1, frames := frames, areas := none, offset := none })
        | ref :: _ =>
          let ab := { ab with format := ref.format }
          let ab := { ab with nbChannels := ref.nbChannels }
          let ab := { ab with frequency := ref.frequency }
          let ab := ab.update
          let ab := { ab with sampleSize := frames }
          let ab := { ab with size := frames * ab.alignSize }
          let ab := { ab with samples := resize ab.samples ab.size.toNat }
          let src := { src with buffer_queue := src.buffer_queue ++ [ab] }
          let my_areas : List snd_pcm_channel_area_t :=
            [ { addr := ab.id, first := 0, step := ab.alignSize * 8 },
              { addr := ab.id, first := ab.bitDepth, step := ab.alignSize * 8 } ]
          some ({ s with audiocontext := ctx, sourceAlsa := some src },
            { ret := 0, frames := frames, areas := some my_areas, offset := some 0 })

/-- The emulated branch of `snd_pcm_mmap_commit`. -/
def snd_pcm_mmap_commit (s : Pcm) (_offset : Nat) (frames : Nat) : Pcm × Int :=
  (s, frames)

/-- The emulated branch of `snd_pcm_hw_params_any`. -/
def snd_pcm_hw_params_any (s : Pcm) : Pcm × Int :=
  (s, 0)

/-- The emulated branch of `snd_pcm_hw_params_sizeof`. -/
def snd_pcm_hw_params_sizeof (s : Pcm) : Pcm × Nat :=
  (s, 8)

/-- The emulated branch of `snd_pcm_hw_params_malloc`: the state, the return value and the
non-null value written to `*ptr`. -/
def snd_pcm_hw_params_malloc (s : Pcm) : Pcm × Int × Nat :=
  (s, 0, 1)

/-- The emulated branch of `snd_pcm_hw_params_free`. -/
def snd_pcm_hw_params_free (s : Pcm) : Pcm :=
  s

/-- The emulated branch of `snd_pcm_hw_params_copy`. -/
def snd_pcm_hw_params_copy (s : Pcm) : Pcm :=
  s

/-- The emulated branch of `snd_pcm_hw_params_set_access`. -/
def snd_pcm_hw_params_set_access (s : Pcm) (_access : Int) : Pcm × Int :=
  (s, 0)

/-- The emulated branch of `snd_pcm_hw_params_set_format`. -/
def snd_pcm_hw_params_set_format (s : Pcm) (val : Int) : Option (Pcm × Int) :=
  match s.sourceAlsa with
  | none => none
  | some src =>
    match src.buffer_queue with
    | [] => none
    | buffer :: rest =>
      if val = SND_PCM_FORMAT_U8 then
        some ({ s with sourceAlsa := some { src with
          buffer_queue := { buffer with format := SampleFormat.SAMPLE_FMT_U8 } :: rest } }, 0)
      else if val = SND_PCM_FORMAT_S16_LE then
        some ({ s with sourceAlsa := some { src with
          buffer_queue := { buffer with format := SampleFormat.SAMPLE_FMT_S16 } :: rest } }, 0)
      else if val = SND_PCM_FORMAT_S32_LE then
        some ({ s with sourceAlsa := some { src with
          buffer_queue := { buffer with format := SampleFormat.SAMPLE_FMT_S32 } :: rest } }, 0)
      else if val = SND_PCM_FORMAT_FLOAT_LE then
        some ({ s with sourceAlsa := some { src with
          buffer_queue := { buffer with format := SampleFormat.SAMPLE_FMT_FLT } :: rest } }, 0)
      else
        some (s, -1)

/-- The emulated branch of `snd_pcm_hw_params_get_channels`: the state, the return value and
the value written to `*val`. -/
def snd_pcm_hw_params_get_channels (s : Pcm) : Option (Pcm × Int × Int) :=
  match s.sourceAlsa with
  | none => none
  | some src =>
    match src.buffer_queue with
    | [] => none
    | buffer :: _ => some (s, 0, buffer.nbChannels)

/-- The emulated branch of `snd_pcm_hw_params_get_channels_max`. -/
def snd_pcm_hw_params_get_channels_max (s : Pcm) : Pcm × Int × Int :=
  (s, 0, 2)

/-- The emulated branch of `snd_pcm_hw_params_set_channels`. -/
def snd_pcm_hw_params_set_channels (s : Pcm) (val : Nat) : Option (Pcm × Int) :=
  match s.sourceAlsa with
  | none => none
  | some src =>
    match src.buffer_queue with
    | [] => none
    | buffer :: rest =>
      some ({ s with sourceAlsa := some { src with
        buffer_queue := { buffer with nbChannels := val } :: rest } }, 0)

/-- The emulated branch of `snd_pcm_hw_params_set_rate`. -/
def snd_pcm_hw_params_set_rate (s : Pcm) (val : Nat) (_dir : Int) : Option (Pcm × Int) :=
  match s.sourceAlsa with
  | none => none
  | some src =>
    match src.buffer_queue with
    | [] => none
    | buffer :: rest =>
      some ({ s with sourceAlsa := some { src with
        buffer_queue := { buffer with frequency := val } :: rest } }, 0)

/-- The emulated branch of `snd_pcm_hw_params_set_rate_near`; `val` is the value of `*val`,
which the hook leaves as it is. -/
def snd_pcm_hw_params_set_rate_near (s : Pcm) (val : Nat) : Option (Pcm × Int) :=
  match s.sourceAlsa with
  | none => none
  | some src =>
    match src.buffer_queue with
    | [] => none
    | buffer :: rest =>
      some ({ s with sourceAlsa := some { src with
        buffer_queue := { buffer with frequency := val } :: rest } }, 0)

/-- The emulated branch of `snd_pcm_hw_params_set_rate_resample`. -/
def snd_pcm_hw_params_set_rate_resample (s : Pcm) (_val : Nat) : Pcm × Int :=
  (s, 0)

/-- The emulated branch of `snd_pcm_hw_params_get_period_size`: the state, the return value
and the value written to `*frames`. -/
def snd_pcm_hw_params_get_period_size (s : Pcm) : Option (Pcm × Int × Int) :=
  if s.periods = 0 then none else some (s, 0, Int.tdiv s.buffer_size s.periods)

/-- The emulated branch of `snd_pcm_hw_params_get_period_time_min`: the state, the return
value and the value written to `*val`. -/
def snd_pcm_hw_params_get_period_time_min (s : Pcm) : Pcm × Int × Int :=
  (s, 0, 0)

/-- The emulated branch of `snd_pcm_hw_params_set_period_size_near`. -/
def snd_pcm_hw_params_set_period_size_near (s : Pcm) (_val : Nat) : Pcm × Int :=
  (s, 0)

/-- The emulated branch of `snd_pcm_hw_params_set_periods_near`; `val` is the value of
`*val`. -/
def snd_pcm_hw_params_set_periods_near (s : Pcm) (val : Nat) : Pcm × Int :=
  ({ s with periods := val }, 0)

/-- The emulated branch of `snd_pcm_hw_params_get_buffer_size`: the state, the return value
and the value written to `*val`. -/
def snd_pcm_hw_params_get_buffer_size (s : Pcm) : Pcm × Int × Int :=
  (s, 0, s.buffer_size)

/-- The emulated branch of `snd_pcm_hw_params_get_buffer_time_max`: the state, the return
value and the value written to `*val`. -/
def snd_pcm_hw_params_get_buffer_time_max (s : Pcm) : Option (Pcm × Int × Int) :=
  match s.sourceAlsa with
  | none => none
  | some src =>
    match src.buffer_queue with
    | [] => none
    | buffer :: _ =>
      if buffer.frequency = 0 then none
      else if ¬ fitsInt (s.buffer_size * 1000000) then none
      else some (s, 0, Int.tdiv (s.buffer_size * 1000000) buffer.frequency)

/-- The emulated branch of `snd_pcm_hw_params_set_buffer_size_near`; `val` is the value of
`*val`. -/
def snd_pcm_hw_params_set_buffer_size_near (s : Pcm) (val : Nat) : Pcm × Int :=
  ({ s with buffer_size := val }, 0)

/-- The emulated branch of `snd_pcm_hw_params_set_buffer_time_near`: the state, the return
value and the value of `*val` after the call; `val` is the value of `*val` on entry, an
`unsigned int`, and the product with the `int` field `frequency` is computed in
`unsigned int`. -/
def snd_pcm_hw_params_set_buffer_time_near (s : Pcm) (val : Nat) : Option (Pcm × Int × Int) :=
  match s.sourceAlsa with
  | none => none
  | some src =>
    match src.buffer_queue with
    | [] => none
    | buffer :: _ =>
      if val = 0 then
        if buffer.frequency = 0 then none
        else if ¬ fitsInt (s.buffer_size * 1000000) then none
        else some (s, 0, Int.tdiv (s.buffer_size * 1000000) buffer.frequency)
      else if buffer.frequency ≠ 0 then
        some ({ s with buffer_size := ((val : Int) * buffer.frequency) % 2 ^ 32 / 1000000 }, 0, val)
      else
        some (s, 0, val)

/-- The emulated branch of `snd_pcm_hw_params_test_rate`. -/
def snd_pcm_hw_params_test_rate (s : Pcm) (_val : Nat) (_dir : Int) : Pcm × Int :=
  (s, 0)

/-- The emulated branch of `snd_pcm_sw_params_sizeof`. -/
def snd_pcm_sw_params_sizeof (s : Pcm) : Pcm × Nat :=
  (s, 8)

/-- The emulated branch of `snd_pcm_sw_params_set_start_threshold`. -/
def snd_pcm_sw_params_set_start_threshold (s : Pcm) (_val : Nat) : Pcm × Int :=
  (s, 0)

/-- The emulated branch of `snd_pcm_sw_params_set_avail_min`. -/
def snd_pcm_sw_params_set_avail_min (s : Pcm) (_val : Nat) : Pcm × Int :=
  (s, 0)

/-- The emulated branch of `snd_pcm_get_chmap`: the state, and the `channels` and `pos`
fields of the map it allocates. -/
def snd_pcm_get_chmap (s : Pcm) : Pcm × Int × List Int :=
  (s, 2, [SND_CHMAP_FL, SND_CHMAP_FR])

/-! ## Sequences of calls -/

/-- One event in the life of the device: a call of one hook of `pcm.cpp` with its
arguments, or `others e`, the other threads acting between two calls. -/
inductive Op where
  | snd_pcm_open (stream : Int)
  | snd_pcm_close
  | snd_pcm_nonblock (nonblock : Int)
  | snd_pcm_start
  | snd_pcm_resume
  | snd_pcm_wait (sleeps : List Sleep) (timeout : Int)
  | snd_pcm_delay
  | snd_pcm_avail_update
  | snd_pcm_hw_params
  | snd_pcm_sw_params_current
  | snd_pcm_sw_params
  | snd_pcm_prepare
  | snd_pcm_writei (sleeps : List Sleep) (buffer : Nat → Nat) (size : Nat)
  | snd_pcm_readi (size : Nat)
  | snd_pcm_mmap_begin (frames : Nat)
  | snd_pcm_mmap_commit (offset : Nat) (frames : Nat)
  | snd_pcm_hw_params_any
  | snd_pcm_hw_params_sizeof
  | snd_pcm_hw_params_malloc
  | snd_pcm_hw_params_free
  | snd_pcm_hw_params_copy
  | snd_pcm_hw_params_set_access (access : Int)
  | snd_pcm_hw_params_set_format (val : Int)
  | snd_pcm_hw_params_get_channels
  | snd_pcm_hw_params_get_channels_max
  | snd_pcm_hw_params_set_channels (val : Nat)
  | snd_pcm_hw_params_set_rate (val : Nat) (dir : Int)
  | snd_pcm_hw_params_set_rate_near (val : Nat)
  | snd_pcm_hw_params_set_rate_resample (val : Nat)
  | snd_pcm_hw_params_get_period_size
  | snd_pcm_hw_params_get_period_time_min
  | snd_pcm_hw_params_set_period_size_near (val : Nat)
  | snd_pcm_hw_params_set_periods_near (val : Nat)
  | snd_pcm_hw_params_get_buffer_size
  | snd_pcm_hw_params_get_buffer_time_max
  | snd_pcm_hw_params_set_buffer_size_near (val : Nat)
  | snd_pcm_hw_params_set_buffer_time_near (val : Nat)
  | snd_pcm_hw_params_test_rate (val : Nat) (dir : Int)
  | snd_pcm_sw_params_sizeof
  | snd_pcm_sw_params_set_start_threshold (val : Nat)
  | snd_pcm_sw_params_set_avail_min (val : Nat)
  | snd_pcm_get_chmap
  | others (e : Sleep)

/-- The state after one event; `none` when the call has undefined behaviour. For a polling
hook that has not returned when its sleeps run out, the state reached so far. -/
def Op.step (s : Pcm) : Op → Option Pcm
  | .snd_pcm_open stream => some (libtas.snd_pcm_open s stream).1
  | .snd_pcm_close => some (libtas.snd_pcm_close s).1
  | .snd_pcm_nonblock nonblock => some (libtas.snd_pcm_nonblock s nonblock).1
  | .snd_pcm_start => (libtas.snd_pcm_start s).map Prod.fst
  | .snd_pcm_resume => (libtas.snd_pcm_resume s).map Prod.fst
  | .snd_pcm_wait sleeps timeout => (libtas.snd_pcm_wait sleeps s timeout).map Prod.fst
  | .snd_pcm_delay => (libtas.snd_pcm_delay s).map Prod.fst
  | .snd_pcm_avail_update => (libtas.snd_pcm_avail_update s).map Prod.fst
  | .snd_pcm_hw_params => (libtas.snd_pcm_hw_params s).map Prod.fst
  | .snd_pcm_sw_params_current => some (libtas.snd_pcm_sw_params_current s).1
  | .snd_pcm_sw_params => (libtas.snd_pcm_sw_params s).map Prod.fst
  | .snd_pcm_prepare => some (libtas.snd_pcm_prepare s).1
  | .snd_pcm_writei sleeps buffer size =>
    (libtas.snd_pcm_writei sleeps s buffer size).map Prod.fst
  | .snd_pcm_readi size => some (libtas.snd_pcm_readi s size).1
  | .snd_pcm_mmap_begin frames => (libtas.snd_pcm_mmap_begin s frames).map Prod.fst
  | .snd_pcm_mmap_commit offset frames => some (libtas.snd_pcm_mmap_commit s offset frames).1
  | .snd_pcm_hw_params_any => some (libtas.snd_pcm_hw_params_any s).1
  | .snd_pcm_hw_params_sizeof => some (libtas.snd_pcm_hw_params_sizeof s).1
  | .snd_pcm_hw_params_malloc => some (libtas.snd_pcm_hw_params_malloc s).1
  | .snd_pcm_hw_params_free => some (libtas.snd_pcm_hw_params_free s)
  | .snd_pcm_hw_params_copy => some (libtas.snd_pcm_hw_params_copy s)
  | .snd_pcm_hw_params_set_access access => some (libtas.snd_pcm_hw_params_set_access s access).1
  | .snd_pcm_hw_params_set_format val => (libtas.snd_pcm_hw_params_set_format s val).map Prod.fst
  | .snd_pcm_hw_params_get_channels => (libtas.snd_pcm_hw_params_get_channels s).map Prod.fst
  | .snd_pcm_hw_params_get_channels_max => some (libtas.snd_pcm_hw_params_get_channels_max s).1
  | .snd_pcm_hw_params_set_channels val =>
    (libtas.snd_pcm_hw_params_set_channels s val).map Prod.fst
  | .snd_pcm_hw_params_set_rate val dir =>
    (libtas.snd_pcm_hw_params_set_rate s val dir).map Prod.fst
  | .snd_pcm_hw_params_set_rate_near val =>
    (libtas.snd_pcm_hw_params_set_rate_near s val).map Prod.fst
  | .snd_pcm_hw_params_set_rate_resample val =>
    some (libtas.snd_pcm_hw_params_set_rate_resample s val).1
  | .snd_pcm_hw_params_get_period_size =>
    (libtas.snd_pcm_hw_params_get_period_size s).map Prod.fst
  | .snd_pcm_hw_params_get_period_time_min =>
    some (libtas.snd_pcm_hw_params_get_period_time_min s).1
  | .snd_pcm_hw_params_set_period_size_near val =>
    some (libtas.snd_pcm_hw_params_set_period_size_near s val).1
  | .snd_pcm_hw_params_set_periods_near val =>
    some (libtas.snd_pcm_hw_params_set_periods_near s val).1
  | .snd_pcm_hw_params_get_buffer_size => some (libtas.snd_pcm_hw_params_get_buffer_size s).1
  | .snd_pcm_hw_params_get_buffer_time_max =>
    (libtas.snd_pcm_hw_params_get_buffer_time_max s).map Prod.fst
  | .snd_pcm_hw_params_set_buffer_size_near val =>
    some (libtas.snd_pcm_hw_params_set_buffer_size_near s val).1
  | .snd_pcm_hw_params_set_buffer_time_near val =>
    (libtas.snd_pcm_hw_params_set_buffer_time_near s val).map Prod.fst
  | .snd_pcm_hw_params_test_rate val dir => some (libtas.snd_pcm_hw_params_test_rate s val dir).1
  | .snd_pcm_sw_params_sizeof => some (libtas.snd_pcm_sw_params_sizeof s).1
  | .snd_pcm_sw_params_set_start_threshold val =>
    some (libtas.snd_pcm_sw_params_set_start_threshold s val).1
  | .snd_pcm_sw_params_set_avail_min val => some (libtas.snd_pcm_sw_params_set_avail_min s val).1
  | .snd_pcm_get_chmap => some (libtas.snd_pcm_get_chmap s).1
  | .others e => some (nanosleep e s)

/-- The state after a sequence of events, `none` as soon as one has undefined behaviour. -/
def run : List Op → Pcm → Option Pcm
  | [], s => some s
  | op :: ops, s =>
    match op.step s with
    | none => none
    | some s1 => run ops s1

/-- The reference buffer `sourceAlsa->buffer_queue[0]`, when there is one. -/
def refBuffer (s : Pcm) : Option AudioBuffer :=
  match s.sourceAlsa with
  | none => none
  | some src => src.buffer_queue.head?

/-- The data every example writes: silence. -/
def silence : Nat → Nat :=
  fun _ => 0

/-- Scenario A of the specification: open(playback), set_format(S16LE), set_channels(2),
set_rate(48000), set_buffer_size_near(4096), then `n` writes of 2048 frames, each going
through one sleep during which nothing happens. -/
def scenarioA (n : Nat) : Option Pcm :=
  run ([ Op.snd_pcm_open SND_PCM_STREAM_PLAYBACK,
         Op.snd_pcm_hw_params_set_format SND_PCM_FORMAT_S16_LE,
         Op.snd_pcm_hw_params_set_channels 2,
         Op.snd_pcm_hw_params_set_rate 48000 0,
         Op.snd_pcm_hw_params_set_buffer_size_near 4096 ]
        ++ List.replicate n (Op.snd_pcm_writei [Sleep.idle] silence 2048)) Pcm.init

/-- A call of `snd_pcm_writei` is accepted when it leaves its wait loop with the shutdown
signal not set; `acceptedWrites size calls s` is the state after one accepted call of `size`
frames per entry of `calls` (the sleeps and the data of the call), `none` when one of them
is not accepted. -/
def acceptedWrites (size : Nat) : List (List Sleep × (Nat → Nat)) → Pcm → Option Pcm
  | [], s => some s
  | (sleeps, buffer) :: calls, s =>
    match snd_pcm_writei_loop sleeps s with
    | some (s1, true) =>
      if s1.is_exiting then none
      else
        match snd_pcm_writei sleeps s buffer size with
        | some (s2, some _) => acceptedWrites size calls s2
        | _ => none
    | _ => none

/-- The bookkeeping of the device: the state with the sample bytes of every queued buffer
left out. -/
def bookkeeping (s : Pcm) : Pcm :=
  { s with sourceAlsa := s.sourceAlsa.map (fun src =>
      { src with buffer_queue := src.buffer_queue.map (fun b => { b with samples := [] }) }) }

/-- The states of Scenario A after three writes: capacity 4096, no shutdown, a queue of the
placeholder and three buffers of 2048 frames, cursor `c`. -/
def ShapeA3 (c : Int) (s : Pcm) : Prop :=
  s.is_exiting = false ∧ s.buffer_size = 4096 ∧
    s.sourceAlsa.map (fun src => (src.buffer_queue.map AudioBuffer.sampleSize, src.queue_index))
      = some ([0, 2048, 2048, 2048], c)

instance ShapeA3.decidable (c : Int) (s : Pcm) : Decidable (ShapeA3 c s) := by
  unfold ShapeA3
  infer_instance

/-- The device right after a successful `snd_pcm_open` at program start. -/
def opened : Pcm :=
  (snd_pcm_open Pcm.init SND_PCM_STREAM_PLAYBACK).1

/-- Scenario C of the specification: a configured device of capacity 4096 on which 3096
frames are queued and none consumed. -/
def scenarioC : Option Pcm :=
  run [ Op.snd_pcm_open SND_PCM_STREAM_PLAYBACK,
        Op.snd_pcm_hw_params_set_format SND_PCM_FORMAT_S16_LE,
        Op.snd_pcm_hw_params_set_channels 2,
        Op.snd_pcm_hw_params_set_rate 48000 0,
        Op.snd_pcm_hw_params_set_buffer_size_near 4096,
        Op.snd_pcm_writei [Sleep.idle] silence 3096 ] Pcm.init

/-- The buffer holds the format, the channel count and the rate that are given. -/
def AudioBuffer.agrees (X : Option SampleFormat) (C R : Option Int) (b : AudioBuffer) : Prop :=
  (∀ x ∈ X, b.format = x) ∧ (∀ c ∈ C, b.nbChannels = c) ∧ (∀ r ∈ R, b.frequency = r)

instance AudioBuffer.agrees.decidable (X : Option SampleFormat) (C R : Option Int)
    (b : AudioBuffer) : Decidable (b.agrees X C R) := by
  unfold AudioBuffer.agrees
  infer_instance

/-- The queue of `sourceAlsa`, when there is a source. -/
def queueOf (s : Pcm) : Option (List AudioBuffer) :=
  s.sourceAlsa.map AudioSource.buffer_queue

/-- There is a source, its queue is not empty, and every buffer in it holds the parameters
that are given. -/
def ParamsAre (X : Option SampleFormat) (C R : Option Int) (s : Pcm) : Prop :=
  match queueOf s with
  | none => False
  | some q => q ≠ [] ∧ ∀ b ∈ q, b.agrees X C R

/-- Whether the event leaves the given parameters of the queued buffers alone: it is not a
call of `snd_pcm_open`, which installs a new reference buffer, nor of the setter of a
parameter that is given. -/
def Op.keeps (X : Option SampleFormat) (C R : Option Int) : Op → Bool
  | .snd_pcm_open _ => false
  | .snd_pcm_hw_params_set_format _ => X.isNone
  | .snd_pcm_hw_params_set_channels _ => C.isNone
  | .snd_pcm_hw_params_set_rate _ _ => R.isNone
  | .snd_pcm_hw_params_set_rate_near _ => R.isNone
  | _ => true

/-- The events of the counterexample to claim C8 that come before the second call of
`snd_pcm_hw_params_set_channels`: open, one channel, a write of one frame. -/
def recycleBefore : List Op :=
  [ Op.snd_pcm_open SND_PCM_STREAM_PLAYBACK,
    Op.snd_pcm_hw_params_set_channels 1,
    Op.snd_pcm_writei [Sleep.idle] silence 1 ]

/-- The events of the counterexample to claim C8 that come after the second call of
`snd_pcm_hw_params_set_channels`: the mixing stage consumes the reference buffer, and a
write of one frame recycles it. -/
def recycleAfter : List Op :=
  [ Op.others { advance := 1, exiting := false, ticks := 0 },
    Op.snd_pcm_writei [Sleep.idle] silence 1 ]

/-- The events of the witness of claim C8: a write, a cursor advance past the reference
buffer, begin/commit that recycle it, another cursor advance and a write that recycles the
next buffer. -/
def roundTripOps : List Op :=
  [ Op.snd_pcm_writei [Sleep.idle] silence 4,
    Op.others { advance := 1, exiting := false, ticks := 0 },
    Op.snd_pcm_mmap_begin 3,
    Op.snd_pcm_mmap_commit 0 3,
    Op.snd_pcm_hw_params,
    Op.others { advance := 1, exiting := false, ticks := 0 },
    Op.snd_pcm_writei [Sleep.idle] silence 2 ]

instance ParamsAre.decidable (X : Option SampleFormat) (C R : Option Int) (s : Pcm) :
    Decidable (ParamsAre X C R s) := by
  unfold ParamsAre
  split <;> infer_instance

/-- The state after the other threads have acted through all the listed sleeps. -/
def sleepThrough : List Sleep → Pcm → Pcm
  | [], s => s
  | e :: es, s => sleepThrough es (nanosleep e s)

/-- The condition of the `do ... while` loop of `snd_pcm_wait`, evaluated in the state after a
sleep: `!is_exiting && (get_latency() >= buffer_size) && ((timeout < 0) || (delta_ms <
timeout))`, where `delta_ms` is the time in milliseconds since `initial_time`. -/
def snd_pcm_wait_goes_on (initial_time : Nat) (timeout : Int) (s : Pcm) : Bool :=
  !s.is_exiting &&
    match get_latency s with
    | none => false
    | some l =>
      decide (l ≥ s.buffer_size) &&
        (decide (timeout < 0) ||
          decide ((((s.detTimer - initial_time) / 1000000 : Nat) : Int) < timeout))

/-- The loop of `snd_pcm_wait` goes on after each of the listed sleeps. -/
def waitsThrough (initial_time : Nat) (timeout : Int) : List Sleep → Pcm → Bool
  | [], _ => true
  | e :: es, s =>
    snd_pcm_wait_goes_on initial_time timeout (nanosleep e s) &&
      waitsThrough initial_time timeout es (nanosleep e s)

/-- A device just opened whose capacity has been set to 0: no frame is available. -/
def openedFull : Pcm :=
  (snd_pcm_hw_params_set_buffer_size_near opened 0).1

/-- What an event that transfers no data may do to the device: the registry is the same, and
the source, when there is one, keeps its id and its queue length, its state stays
or becomes Playing, and a cursor within the queue stays within the queue and does not move
back. -/
def Tame (s s1 : Pcm) : Prop :=
  s1.audiocontext = s.audiocontext ∧
    match s.sourceAlsa, s1.sourceAlsa with
    | some src, some src1 =>
      src1.id = src.id ∧
        (src1.state = src.state ∨ src1.state = SourceState.SOURCE_PLAYING) ∧
        src1.buffer_queue.length = src.buffer_queue.length ∧
        (0 ≤ src.queue_index → src.queue_index ≤ src.buffer_queue.length →
          0 ≤ src1.queue_index ∧ src1.queue_index ≤ src1.buffer_queue.length ∧
            src.queue_index ≤ src1.queue_index)
    | none, none => True
    | _, _ => False

instance Tame.decidable (s s1 : Pcm) : Decidable (Tame s s1) := by
  unfold Tame
  split <;> infer_instance

/-- Whether the event may put a buffer on a queue: `snd_pcm_open`, `snd_pcm_writei` and
`snd_pcm_mmap_begin`. -/
def Op.queues : Op → Bool
  | .snd_pcm_open _ => true
  | .snd_pcm_writei _ _ _ => true
  | .snd_pcm_mmap_begin _ => true
  | _ => false

/-- The invariant of the data model: there is a source, its queue is not empty, and its
cursor is within the queue. -/
def WellFormed (s : Pcm) : Prop :=
  match s.sourceAlsa with
  | none => False
  | some src =>
    src.buffer_queue ≠ [] ∧ 0 ≤ src.queue_index ∧ src.queue_index ≤ src.buffer_queue.length

instance WellFormed.decidable (s : Pcm) : Decidable (WellFormed s) := by
  unfold WellFormed
  split <;> infer_instance

/-- The id and the play state of the active source, when there is one. -/
def activeSource (s : Pcm) : Option (Nat × SourceState) :=
  s.sourceAlsa.map (fun src => (src.id, src.state))

/-- The events of the witness of claim C17: start, then a failed open for capture, close,
prepare, a format setter, a write, a cursor advance and begin/commit that recycle. -/
def playingOps : List Op :=
  [ Op.snd_pcm_start,
    Op.snd_pcm_open SND_PCM_STREAM_CAPTURE,
    Op.snd_pcm_close,
    Op.snd_pcm_prepare,
    Op.snd_pcm_hw_params_set_format SND_PCM_FORMAT_S16_LE,
    Op.snd_pcm_writei [Sleep.idle] silence 4,
    Op.others { advance := 1, exiting := false, ticks := 0 },
    Op.snd_pcm_mmap_begin 3,
    Op.snd_pcm_mmap_commit 0 3 ]

/-- The device just opened after the mixing stage has moved the cursor past the empty
placeholder: the cursor is 1 and no frame has been consumed. -/
def consumedPlaceholder : Pcm :=
  nanosleep { advance := 1, exiting := false, ticks := 0 } opened

/-- A device opened and set to 16-bit samples and three channels. -/
def threeChannels : Option Pcm :=
  run [ Op.snd_pcm_open SND_PCM_STREAM_PLAYBACK,
        Op.snd_pcm_hw_params_set_format SND_PCM_FORMAT_S16_LE,
        Op.snd_pcm_hw_params_set_channels 3 ] Pcm.init

/-- A device opened and set to 16-bit samples and two channels (the state at program start
should the calls not all return). -/
def stereo16 : Pcm :=
  (run [ Op.snd_pcm_open SND_PCM_STREAM_PLAYBACK,
         Op.snd_pcm_hw_params_set_format SND_PCM_FORMAT_S16_LE,
         Op.snd_pcm_hw_params_set_channels 2 ] Pcm.init).getD Pcm.init

/-! ## Lemmas on the wait loop of `snd_pcm_writei` -/

theorem nanosleep_idle (s : Pcm) (src : AudioSource) (h : s.sourceAlsa = some src)
    (hwf : src.queue_index ≤ src.buffer_queue.length) : nanosleep Sleep.idle s = s := by
  cases s with
  | mk ctx sa bs p ex gi dt =>
    simp only at h
    subst h
    cases src with
    | mk id q qi k st =>
      simp only at hwf
      simp [nanosleep, Sleep.idle, AudioSource.consume, hwf]

theorem writei_loop_cons (e : Sleep) (es : List Sleep) (s : Pcm) :
    snd_pcm_writei_loop (e :: es) s =
      if (nanosleep e s).is_exiting then some (nanosleep e s, true)
      else match get_latency (nanosleep e s) with
        | none => none
        | some l => if l > (nanosleep e s).buffer_size then snd_pcm_writei_loop es (nanosleep e s)
                    else some (nanosleep e s, true) := by
  rw [snd_pcm_writei_loop]

/-- The loop of `snd_pcm_writei` only lets the other threads act: the queue, the capacity and
the registry are those of the start. -/
theorem writei_loop_frame (sleeps : List Sleep) :
    ∀ (s s1 : Pcm) (b : Bool) (src : AudioSource),
      s.sourceAlsa = some src → snd_pcm_writei_loop sleeps s = some (s1, b) →
      s1.buffer_size = s.buffer_size ∧ s1.audiocontext = s.audiocontext ∧
      s1.periods = s.periods ∧
      ∃ src1, s1.sourceAlsa = some src1 ∧ src1.buffer_queue = src.buffer_queue := by
  induction sleeps with
  | nil =>
    intro s s1 b src hsrc h
    simp [snd_pcm_writei_loop] at h
    obtain ⟨rfl, -⟩ := h
    exact ⟨rfl, rfl, rfl, src, hsrc, rfl⟩
  | cons e es ih =>
    intro s s1 b src hsrc h
    rw [writei_loop_cons] at h
    have hn : (nanosleep e s).sourceAlsa = some (src.consume e.advance) := by
      simp [nanosleep, hsrc]
    split at h
    · simp at h
      obtain ⟨rfl, -⟩ := h
      exact ⟨rfl, rfl, rfl, _, hn, rfl⟩
    · split at h
      · simp at h
      · split at h
        · obtain ⟨h1, h2, h3, src1, h4, h5⟩ := ih _ _ _ _ hn h
          exact ⟨h1, h2, h3, src1, h4, h5⟩
        · simp at h
          obtain ⟨rfl, -⟩ := h
          exact ⟨rfl, rfl, rfl, _, hn, rfl⟩

/-- What `snd_pcm_writei` does once its loop is left with the shutdown signal not set and a
queue that is not empty: it returns the requested frame count. -/
theorem writei_of_loop (sleeps : List Sleep) (s s1 : Pcm) (src1 : AudioSource)
    (buffer : Nat → Nat) (n : Nat)
    (hloop : snd_pcm_writei_loop sleeps s = some (s1, true)) (hx : s1.is_exiting = false)
    (hsrc : s1.sourceAlsa = some src1) (hq : src1.buffer_queue ≠ []) :
    ∃ s2, snd_pcm_writei sleeps s buffer n = some (s2, some (n : Int)) := by
  unfold snd_pcm_writei
  rw [hloop]
  simp only [hx, hsrc]
  cases hb : src1.buffer_queue with
  | nil => exact absurd hb hq
  | cons ab rest =>
    by_cases hp : src1.nbQueueProcessed > 0
    · simp [hp]
    · simp [hp]

theorem shapeA3_source (c : Int) (s : Pcm) (h : ShapeA3 c s) :
    s.is_exiting = false ∧ s.buffer_size = 4096 ∧ ∃ src, s.sourceAlsa = some src ∧
      src.buffer_queue.map AudioBuffer.sampleSize = [0, 2048, 2048, 2048] ∧
      src.queue_index = c := by
  obtain ⟨hx, hb, hs⟩ := h
  cases hsrc : s.sourceAlsa with
  | none => simp [hsrc] at hs
  | some src =>
    simp [hsrc] at hs
    exact ⟨hx, hb, src, rfl, hs.1, hs.2⟩

theorem shapeA3_nanosleep (c : Int) (s : Pcm) (e : Sleep) (h : ShapeA3 c s)
    (he : e.exiting = false) : ShapeA3 (min (c + e.advance) 4) (nanosleep e s) := by
  obtain ⟨hx, hb, src, hsrc, hq, hc⟩ := shapeA3_source c s h
  have hl : src.buffer_queue.length = 4 := by
    have := congrArg List.length hq
    simpa using this
  refine ⟨by simp [nanosleep, hx, he], by simp [nanosleep, hb], ?_⟩
  simp [nanosleep, hsrc, AudioSource.consume, hc, hl, hq]

theorem shapeA3_latency (c : Int) (s : Pcm) (h : ShapeA3 c s) (h0 : 0 ≤ c) (h4 : c ≤ 4) :
    get_latency s = some (if c ≤ 1 then 6144 else 6144 - 2048 * (c - 1)) := by
  obtain ⟨hx, hb, src, hsrc, hq, hc⟩ := shapeA3_source c s h
  simp only [get_latency, hsrc, AudioSource.queueSize, AudioSource.getPosition,
    List.map_take, hq, hc]
  interval_cases c <;> simp

/-- In Scenario A after three writes the loop of a fourth write is still running after any
sleeps that leave the cursor below 2 and do not raise the shutdown signal. -/
theorem shapeA3_blocked (sleeps : List Sleep) :
    ∀ (c : Int) (s : Pcm), ShapeA3 c s → 0 ≤ c →
      c + ((sleeps.map Sleep.advance).sum : Nat) ≤ 1 → (∀ e ∈ sleeps, e.exiting = false) →
      ∃ s1, snd_pcm_writei_loop sleeps s = some (s1, false) ∧
        ShapeA3 (c + ((sleeps.map Sleep.advance).sum : Nat)) s1 := by
  induction sleeps with
  | nil =>
    intro c s h _ _ _
    exact ⟨s, rfl, by simpa using h⟩
  | cons e es ih =>
    intro c s h h0 hsum hex
    simp only [List.map_cons, List.sum_cons, Nat.cast_add] at hsum ⊢
    have he : e.exiting = false := hex e (List.mem_cons_self _ _)
    have hsh := shapeA3_nanosleep c s e h he
    have hmin : min (c + (e.advance : Int)) 4 = c + e.advance := by omega
    rw [hmin] at hsh
    have hlat := shapeA3_latency _ _ hsh (by omega) (by omega)
    rw [if_pos (by omega)] at hlat
    obtain ⟨s1, h1, h2⟩ := ih (c + e.advance) (nanosleep e s) hsh (by omega) (by omega)
      (fun x hx => hex x (List.mem_cons_of_mem _ hx))
    refine ⟨s1, ?_, by rw [← add_assoc]; exact h2⟩
    rw [writei_loop_cons, hsh.1, hlat, hsh.2.1]
    simpa using h1

/-- In Scenario A after three writes the loop of a fourth write is left at the first sleep
that takes the cursor to 2 or beyond. -/
theorem shapeA3_released (pre : List Sleep) (e : Sleep) (post : List Sleep) (c : Int) (s : Pcm)
    (h : ShapeA3 c s) (h0 : 0 ≤ c)
    (hpre : c + ((pre.map Sleep.advance).sum : Nat) ≤ 1)
    (hex : ∀ x ∈ pre, x.exiting = false) (he : e.exiting = false)
    (hadv : 2 ≤ c + ((pre.map Sleep.advance).sum : Nat) + e.advance) :
    ∃ s1 c1, snd_pcm_writei_loop (pre ++ e :: post) s = some (s1, true) ∧ ShapeA3 c1 s1 := by
  induction pre generalizing c s with
  | nil =>
    simp only [List.map_nil, List.sum_nil, Nat.cast_zero, add_zero, List.nil_append] at hadv ⊢
    have hsh := shapeA3_nanosleep c s e h he
    have hlat := shapeA3_latency _ _ hsh (by omega) (by omega)
    rw [if_neg (by omega)] at hlat
    refine ⟨nanosleep e s, _, ?_, hsh⟩
    rw [writei_loop_cons, hsh.1, hlat, hsh.2.1]
    have : ¬ (6144 - 2048 * (min (c + (e.advance : Int)) 4 - 1) > 4096) := by omega
    simp [this]
  | cons x xs ih =>
    simp only [List.map_cons, List.sum_cons, Nat.cast_add, List.cons_append] at hpre hadv ⊢
    have hx : x.exiting = false := hex x (List.mem_cons_self _ _)
    have hsh := shapeA3_nanosleep c s x h hx
    have hmin : min (c + (x.advance : Int)) 4 = c + x.advance := by omega
    rw [hmin] at hsh
    have hlat := shapeA3_latency _ _ hsh (by omega) (by omega)
    rw [if_pos (by omega)] at hlat
    obtain ⟨s1, c1, h1, h2⟩ := ih (c + x.advance) (nanosleep x s) hsh (by omega) (by omega)
      (fun y hy => hex y (List.mem_cons_of_mem _ hy)) (by omega)
    refine ⟨s1, c1, ?_, h2⟩
    rw [writei_loop_cons, hsh.1, hlat, hsh.2.1]
    simpa using h1

theorem scenarioA_three : ∃ s3, scenarioA 3 = some s3 ∧ ShapeA3 0 s3 := by
  have h : (scenarioA 3).isSome = true := by decide
  obtain ⟨s3, hs3⟩ := Option.isSome_iff_exists.mp h
  refine ⟨s3, hs3, ?_⟩
  have h2 : ∀ s ∈ scenarioA 3, ShapeA3 0 s := by decide
  exact h2 s3 hs3

theorem run_append (l1 l2 : List Op) (s : Pcm) :
    run (l1 ++ l2) s = (run l1 s).bind (run l2) := by
  induction l1 generalizing s with
  | nil => simp [run]
  | cons op ops ih =>
    simp only [List.cons_append, run]
    cases op.step s with
    | none => simp
    | some s1 => simpa using ih s1

theorem scenarioA_succ (n : Nat) :
    scenarioA (n + 1) = (scenarioA n).bind
      (fun s => (snd_pcm_writei [Sleep.idle] s silence 2048).map Prod.fst) := by
  unfold scenarioA
  rw [List.replicate_succ', ← List.append_assoc, run_append]
  congr 1
  funext s
  simp only [run, Op.step]
  cases snd_pcm_writei [Sleep.idle] s silence 2048 <;> simp

/-- Claim C1, counterexample: in Scenario A, after two writes of 2048 frames the latency is
4096, which is not above the capacity 4096, so the third write of 2048 frames is not blocked:
it goes through a single sleep in which the cursor stays at 0 and returns 2048. -/
theorem scenarioA_third_write_not_blocked :
    (scenarioA 2).bind (fun s2 =>
      (snd_pcm_writei [Sleep.idle] s2 silence 2048).map (fun r =>
        (get_latency s2, s2.buffer_size, s2.sourceAlsa.map AudioSource.queue_index,
          r.1.sourceAlsa.map AudioSource.queue_index, r.2)))
      = some (some 4096, 4096, some 0, some 0, some 2048) := by
  decide

/-- Claim C1, amended: in Scenario A the third write of 2048 frames is accepted at once and
returns 2048, which takes the latency to 6144; it is a fourth write of 2048 frames that is
blocked, for as long as the cursor has not been advanced past the first written buffer (it
has not returned after any sleeps that leave the cursor below 2 and do not raise the shutdown
signal), and that completes and returns 2048 at the first sleep that takes the cursor past
it. -/
theorem scenarioA_fourth_write_blocked :
    (∃ s2 s3, scenarioA 2 = some s2 ∧ scenarioA 3 = some s3 ∧
      snd_pcm_writei [Sleep.idle] s2 silence 2048 = some (s3, some 2048)) ∧
    ∃ s3, scenarioA 3 = some s3 ∧ get_latency s3 = some 6144 ∧ s3.buffer_size = 4096 ∧
      (∀ (sleeps : List Sleep) (buffer : Nat → Nat),
        (∀ e ∈ sleeps, e.exiting = false) → (sleeps.map Sleep.advance).sum ≤ 1 →
        ∃ s4, snd_pcm_writei sleeps s3 buffer 2048 = some (s4, none)) ∧
      (∀ (pre : List Sleep) (e : Sleep) (post : List Sleep) (buffer : Nat → Nat),
        (∀ x ∈ pre, x.exiting = false) → (pre.map Sleep.advance).sum ≤ 1 →
        e.exiting = false → 2 ≤ (pre.map Sleep.advance).sum + e.advance →
        ∃ s4, snd_pcm_writei (pre ++ e :: post) s3 buffer 2048 = some (s4, some 2048)) := by
  constructor
  · have h : (scenarioA 2).isSome = true := by decide
    obtain ⟨s2, hs2⟩ := Option.isSome_iff_exists.mp h
    have hw : ∀ s ∈ scenarioA 2,
        (snd_pcm_writei [Sleep.idle] s silence 2048).map Prod.snd = some (some 2048) := by
      decide
    have hw2 := hw s2 hs2
    cases hr : snd_pcm_writei [Sleep.idle] s2 silence 2048 with
    | none => simp [hr] at hw2
    | some r =>
      obtain ⟨s3, v⟩ := r
      simp [hr] at hw2
      subst hw2
      refine ⟨s2, s3, hs2, ?_, hr⟩
      rw [scenarioA_succ, hs2]
      simp [hr]
  · obtain ⟨s3, hs3, hsh⟩ := scenarioA_three
    refine ⟨s3, hs3, ?_, hsh.2.1, ?_, ?_⟩
    · simpa using shapeA3_latency 0 s3 hsh (by omega) (by omega)
    · intro sleeps buffer hex hsum
      obtain ⟨s4, h4, -⟩ := shapeA3_blocked sleeps 0 s3 hsh (by omega) (by omega) hex
      exact ⟨s4, by simp [snd_pcm_writei, h4]⟩
    · intro pre e post buffer hex hsum he hadv
      obtain ⟨s4, c4, h4, hsh4⟩ :=
        shapeA3_released pre e post 0 s3 hsh (by omega) (by omega) hex he (by omega)
      obtain ⟨hx, -, src, hsrc, hq, -⟩ := shapeA3_source c4 s4 hsh4
      have hne : src.buffer_queue ≠ [] := by
        intro h0
        simp [h0] at hq
      simpa using writei_of_loop (pre ++ e :: post) s3 s4 src buffer 2048 h4 hx hsrc hne

/-- Claim C1, witness: a fourth write that has not returned after a sleep that takes the cursor
to 1, and that returns 2048 after the sleep that takes it to 2. -/
theorem scenarioA_fourth_write_blocked_witness :
    (∃ s3, scenarioA 3 = some s3 ∧
      (∃ s4, snd_pcm_writei [Sleep.idle, ⟨1, false, 0⟩] s3 silence 2048 = some (s4, none)) ∧
      (∃ s4, snd_pcm_writei [Sleep.idle, ⟨1, false, 0⟩, ⟨1, false, 0⟩] s3 silence 2048
        = some (s4, some 2048))) := by
  obtain ⟨s3, hs3, -, -, hb, hr⟩ := scenarioA_fourth_write_blocked.2
  exact ⟨s3, hs3, hb [Sleep.idle, ⟨1, false, 0⟩] silence (by decide) (by decide),
    hr [Sleep.idle, ⟨1, false, 0⟩] ⟨1, false, 0⟩ [] silence (by decide) (by decide) rfl
      (by decide)⟩

theorem consume_zero (src : AudioSource) (h : src.queue_index ≤ src.buffer_queue.length) :
    src.consume 0 = src := by
  cases src with
  | mk id q qi k st =>
    simp only at h
    simp [AudioSource.consume, h]

/-- Sleeps during which the mixing stage does not move leave the source as it is. -/
theorem writei_loop_still (sleeps : List Sleep) :
    ∀ (s s1 : Pcm) (b : Bool) (src : AudioSource),
      s.sourceAlsa = some src → src.queue_index ≤ src.buffer_queue.length →
      (∀ e ∈ sleeps, e.advance = 0) → snd_pcm_writei_loop sleeps s = some (s1, b) →
      s1.sourceAlsa = some src := by
  induction sleeps with
  | nil =>
    intro s s1 b src hsrc _ _ h
    simp [snd_pcm_writei_loop] at h
    obtain ⟨rfl, -⟩ := h
    exact hsrc
  | cons e es ih =>
    intro s s1 b src hsrc hwf hadv h
    rw [writei_loop_cons] at h
    have he : e.advance = 0 := hadv e (List.mem_cons_self _ _)
    have hn : (nanosleep e s).sourceAlsa = some src := by
      simp [nanosleep, hsrc, he, consume_zero src hwf]
    split at h
    · simp at h
      obtain ⟨rfl, -⟩ := h
      exact hn
    · split at h
      · simp at h
      · split at h
        · exact ih _ _ _ _ hn hwf (fun x hx => hadv x (List.mem_cons_of_mem _ hx)) h
        · simp at h
          obtain ⟨rfl, -⟩ := h
          exact hn

/-- An accepted write on a source whose cursor is 0 appends one buffer of the requested frame
count and leaves cursor and capacity as they are. -/
theorem writei_allocate (sleeps : List Sleep) (s s1 s2 : Pcm) (src1 : AudioSource)
    (buffer : Nat → Nat) (n : Nat) (v : Option Int)
    (hloop : snd_pcm_writei_loop sleeps s = some (s1, true)) (hx : s1.is_exiting = false)
    (hsrc : s1.sourceAlsa = some src1) (hq : src1.buffer_queue ≠ [])
    (hc : src1.queue_index ≤ 0)
    (hw : snd_pcm_writei sleeps s buffer n = some (s2, v)) :
    s2.buffer_size = s1.buffer_size ∧ ∃ src2 ab, s2.sourceAlsa = some src2 ∧
      src2.queue_index = src1.queue_index ∧ src2.buffer_queue = src1.buffer_queue ++ [ab] ∧
      ab.sampleSize = (n : Int) := by
  unfold snd_pcm_writei at hw
  rw [hloop] at hw
  simp only [hx, hsrc] at hw
  cases hb : src1.buffer_queue with
  | nil => exact absurd hb hq
  | cons ref rest =>
    have hp : ¬ src1.nbQueueProcessed > 0 := by
      simp [AudioSource.nbQueueProcessed]; omega
    simp [hp, hb] at hw
    obtain ⟨rfl, -⟩ := hw
    exact ⟨rfl, _, _, rfl, rfl, rfl, rfl⟩

theorem acceptedWrites_latency (cap : Int) (S : Nat) (calls : List (List Sleep × (Nat → Nat))) :
    ∀ (s s' : Pcm) (src : AudioSource) (k : Int),
      s.sourceAlsa = some src → src.buffer_queue ≠ [] → src.queue_index = 0 →
      src.queueSize = k → s.buffer_size = cap →
      (∀ c ∈ calls, ∀ e ∈ c.1, e.advance = 0) → acceptedWrites S calls s = some s' →
      s'.buffer_size = cap ∧ get_latency s' = some (k + calls.length * S) := by
  induction calls with
  | nil =>
    intro s s' src k hsrc _ hc hk hcap _ h
    simp [acceptedWrites] at h
    subst h
    simp [get_latency, hsrc, hk, AudioSource.getPosition, hc, hcap]
  | cons c cs ih =>
    intro s s' src k hsrc hq hc hk hcap hadv h
    obtain ⟨sleeps, buffer⟩ := c
    simp only [acceptedWrites] at h
    cases hl : snd_pcm_writei_loop sleeps s with
    | none => simp [hl] at h
    | some r =>
      obtain ⟨s1, b⟩ := r
      cases b with
      | false => simp [hl] at h
      | true =>
        simp only [hl] at h
        cases hx : s1.is_exiting with
        | true => simp [hx] at h
        | false =>
          simp only [hx] at h
          cases hw : snd_pcm_writei sleeps s buffer S with
          | none => simp [hw] at h
          | some r2 =>
            obtain ⟨s2, v⟩ := r2
            cases v with
            | none => simp [hw] at h
            | some v =>
              simp only [hw] at h
              have hwf : src.queue_index ≤ src.buffer_queue.length := by
                rw [hc]; exact Int.natCast_nonneg _
              have hs1 := writei_loop_still sleeps s s1 true src hsrc hwf
                (hadv _ (List.mem_cons_self _ _)) hl
              have hb1 := (writei_loop_frame sleeps s s1 true src hsrc hl).1
              obtain ⟨hb2, src2, ab, hsrc2, hc2, hq2, hab⟩ :=
                writei_allocate sleeps s s1 s2 src buffer S _ hl hx hs1 hq (by omega) hw
              have := ih s2 s' src2 (k + S) hsrc2 (by simp [hq2]) (by rw [hc2, hc])
                (by simp [AudioSource.queueSize, hq2, hab, ← hk])
                (by rw [hb2, hb1, hcap]) (fun c hc => hadv c (List.mem_cons_of_mem _ hc)) h
              refine ⟨this.1, ?_⟩
              rw [this.2]
              simp only [List.length_cons, Nat.cast_add, Nat.cast_one]
              congr 1
              ring

/-- The shutdown signal is not set after the loop when it was not set before and no sleep
raised it. -/
theorem writei_loop_exiting (sleeps : List Sleep) :
    ∀ (s s1 : Pcm) (b : Bool), s.is_exiting = false → (∀ e ∈ sleeps, e.exiting = false) →
      snd_pcm_writei_loop sleeps s = some (s1, b) → s1.is_exiting = false := by
  induction sleeps with
  | nil =>
    intro s s1 b hx _ h
    simp [snd_pcm_writei_loop] at h
    obtain ⟨rfl, -⟩ := h
    exact hx
  | cons e es ih =>
    intro s s1 b hx hex h
    rw [writei_loop_cons] at h
    have hn : (nanosleep e s).is_exiting = false := by
      simp [nanosleep, hx, hex e (List.mem_cons_self _ _)]
    split at h
    · simp at h
      obtain ⟨rfl, -⟩ := h
      exact hn
    · split at h
      · simp at h
      · split at h
        · exact ih _ _ _ hn (fun x hx => hex x (List.mem_cons_of_mem _ hx)) h
        · simp at h
          obtain ⟨rfl, -⟩ := h
          exact hn

/-- Claim C2: from a device whose queue holds only the empty placeholder, with cursor 0 and
capacity `cap`, after `N` accepted calls of `snd_pcm_writei` of `S` frames each (`N` is the
length of `calls`), the cursor never advanced, `snd_pcm_delay` reports `N * S` and
`snd_pcm_avail_update` returns `max 0 (cap - N * S)`. -/
theorem delay_avail_after_accepted_writes (cap : Int) (S : Nat)
    (calls : List (List Sleep × (Nat → Nat))) (s0 s' : Pcm) (src0 : AudioSource)
    (ph : AudioBuffer)
    (hsrc : s0.sourceAlsa = some src0) (hq : src0.buffer_queue = [ph])
    (hph : ph.sampleSize = 0) (hc : src0.queue_index = 0) (hcap : s0.buffer_size = cap)
    (hadv : ∀ c ∈ calls, ∀ e ∈ c.1, e.advance = 0)
    (hrun : acceptedWrites S calls s0 = some s') :
    snd_pcm_delay s' = some (s', 0, (calls.length : Int) * S) ∧
      snd_pcm_avail_update s' = some (s', max 0 (cap - (calls.length : Int) * S)) := by
  obtain ⟨h1, h2⟩ := acceptedWrites_latency cap S calls s0 s' src0 0 hsrc (by simp [hq]) hc
    (by simp [AudioSource.queueSize, hq, hph]) hcap hadv hrun
  simp only [zero_add] at h2
  constructor
  · simp [snd_pcm_delay, h2]
  · simp only [snd_pcm_avail_update, h2, h1]
    congr 2
    by_cases h : cap - (calls.length : Int) * S < 0
    · rw [if_pos h]; omega
    · rw [if_neg h]; omega

/-- Claim C2, witness: three accepted writes of 2048 frames on the device just opened, whose
capacity is 4096: the delay is 6144 and no frame is available. -/
theorem delay_avail_after_accepted_writes_witness :
    ∃ s', acceptedWrites 2048 (List.replicate 3 ([Sleep.idle], silence)) opened = some s' ∧
      snd_pcm_delay s' = some (s', 0, 6144) ∧ snd_pcm_avail_update s' = some (s', 0) := by
  have h : (acceptedWrites 2048 (List.replicate 3 ([Sleep.idle], silence)) opened).isSome
      = true := by decide
  obtain ⟨s', hs'⟩ := Option.isSome_iff_exists.mp h
  have hsrc : ∃ src0, opened.sourceAlsa = some src0 ∧
      src0 = ⟨1, [⟨1, .SAMPLE_FMT_U8, 0, 0, 0, 0, 0, 0, []⟩], 0, .SOURCE_STREAMING,
        .SOURCE_STOPPED⟩ := ⟨_, rfl, rfl⟩
  obtain ⟨src0, h0, h1⟩ := hsrc
  have := delay_avail_after_accepted_writes 4096 2048 (List.replicate 3 ([Sleep.idle], silence))
    opened s' src0 ⟨1, .SAMPLE_FMT_U8, 0, 0, 0, 0, 0, 0, []⟩ h0 (by rw [h1]) rfl (by rw [h1]) rfl
    (by decide) hs'
  exact ⟨s', hs', by simpa using this.1, by simpa using this.2⟩

/-- Claim C3: in a state with a source whose queue is not empty and with the shutdown signal
not set (and not raised during the call), a call of `snd_pcm_writei` of `n` frames that gets
past its wait loop returns exactly `n`, which is not negative. -/
theorem writei_returns_requested (sleeps : List Sleep) (s s1 : Pcm) (src : AudioSource)
    (buffer : Nat → Nat) (n : Nat)
    (hsrc : s.sourceAlsa = some src) (hq : src.buffer_queue ≠ [])
    (hx : s.is_exiting = false) (hex : ∀ e ∈ sleeps, e.exiting = false)
    (hloop : snd_pcm_writei_loop sleeps s = some (s1, true)) :
    ∃ s2 r, snd_pcm_writei sleeps s buffer n = some (s2, some r) ∧ r = (n : Int) ∧ 0 ≤ r := by
  obtain ⟨-, -, -, src1, hsrc1, hq1⟩ := writei_loop_frame sleeps s s1 true src hsrc hloop
  have hx1 := writei_loop_exiting sleeps s s1 true hx hex hloop
  obtain ⟨s2, h2⟩ := writei_of_loop sleeps s s1 src1 buffer n hloop hx1 hsrc1 (by rw [hq1]; exact hq)
  exact ⟨s2, n, h2, rfl, Int.natCast_nonneg n⟩

/-- Claim C3, witness: a write of 5 frames on the device just opened, going through one sleep
in which nothing happens, returns 5. -/
theorem writei_returns_requested_witness :
    ∃ s2 r, snd_pcm_writei [Sleep.idle] opened silence 5 = some (s2, some r) ∧ r = 5 ∧ 0 ≤ r := by
  have hl : ∃ s1, snd_pcm_writei_loop [Sleep.idle] opened = some (s1, true) := ⟨_, rfl⟩
  obtain ⟨s1, h1⟩ := hl
  exact writei_returns_requested [Sleep.idle] opened s1
    ⟨1, [⟨1, .SAMPLE_FMT_U8, 0, 0, 0, 0, 0, 0, []⟩], 0, .SOURCE_STREAMING, .SOURCE_STOPPED⟩
    silence 5 rfl (by simp) rfl (by decide) h1

/-- Recycling: when the first buffer leaves the queue and the cursor steps back by one, the
latency changes by the frame count of the buffer appended. -/
theorem latency_recycle (src src1 : AudioSource) (ab : AudioBuffer) (rest : List AudioBuffer)
    (ab1 : AudioBuffer) (hq : src.buffer_queue = ab :: rest)
    (hq1 : src1.buffer_queue = rest ++ [ab1]) (hi : src1.queue_index = src.queue_index - 1)
    (hpos : 0 < src.queue_index) (hwf : src.queue_index ≤ src.buffer_queue.length) :
    src1.queueSize - src1.getPosition = src.queueSize - src.getPosition + ab1.sampleSize := by
  obtain ⟨k, hk⟩ : ∃ k : Nat, src.queue_index = (k : Int) + 1 :=
    ⟨(src.queue_index - 1).toNat, by omega⟩
  have hlen : k ≤ rest.length := by
    rw [hq, hk] at hwf
    simp only [List.length_cons, Nat.cast_add, Nat.cast_one] at hwf
    omega
  have h1 : src.queue_index.toNat = k + 1 := by omega
  have h2 : src1.queue_index.toNat = k := by omega
  simp only [AudioSource.queueSize, AudioSource.getPosition, hq, hq1, h1, h2, List.take_succ_cons,
    List.map_cons, List.sum_cons, List.map_append, List.sum_append, List.map_nil, List.sum_nil,
    List.take_append_of_le_length hlen]
  ring

/-- Allocating: with no processed buffer, appending a buffer changes the latency by its frame
count. -/
theorem latency_allocate (src src1 : AudioSource) (ab1 : AudioBuffer)
    (hq1 : src1.buffer_queue = src.buffer_queue ++ [ab1]) (hi : src1.queue_index = src.queue_index)
    (hpos : src.queue_index ≤ 0) :
    src1.queueSize - src1.getPosition = src.queueSize - src.getPosition + ab1.sampleSize := by
  have h1 : src.queue_index.toNat = 0 := by omega
  have h2 : src1.queue_index.toNat = 0 := by omega
  simp [AudioSource.queueSize, AudioSource.getPosition, hq1, h1, h2]

/-- What `snd_pcm_avail_update` returns in a state with a source: the capacity less the
latency, or 0 when that is negative. -/
theorem avail_update_eq_max (s : Pcm) (src : AudioSource) (hsrc : s.sourceAlsa = some src) :
    snd_pcm_avail_update s
      = some (s, max 0 (s.buffer_size - (src.queueSize - src.getPosition))) := by
  simp only [snd_pcm_avail_update, get_latency, hsrc]
  congr 2
  split <;> omega

/-- Claim C7: in a state with a source, `snd_pcm_delay` reports `queueSize - getPosition` and
`snd_pcm_avail_update` returns `max 0 (buffer_size - latency)`, which is never negative; when
the latency is at most the capacity the two add up to the capacity. -/
theorem delay_plus_avail (s : Pcm) (src : AudioSource) (hsrc : s.sourceAlsa = some src) :
    ∃ l a, snd_pcm_delay s = some (s, 0, l) ∧ l = src.queueSize - src.getPosition ∧
      snd_pcm_avail_update s = some (s, a) ∧ a = max 0 (s.buffer_size - l) ∧ 0 ≤ a ∧
      (l ≤ s.buffer_size → a + l = s.buffer_size) := by
  refine ⟨src.queueSize - src.getPosition, max 0 (s.buffer_size - (src.queueSize - src.getPosition)),
    by simp [snd_pcm_delay, get_latency, hsrc], rfl, ?_, rfl, le_max_left _ _, ?_⟩
  · exact avail_update_eq_max s src hsrc
  · intro h
    omega

/-- Claim C7, witness: on the device just opened the delay is 0 and 4096 frames are
available. -/
theorem delay_plus_avail_witness :
    ∃ l a, snd_pcm_delay opened = some (opened, 0, l) ∧ l = 0 ∧
      snd_pcm_avail_update opened = some (opened, a) ∧ a = 4096 ∧ a + l = opened.buffer_size := by
  obtain ⟨l, a, h1, h2, h3, h4, -, h6⟩ := delay_plus_avail opened
    ⟨1, [⟨1, .SAMPLE_FMT_U8, 0, 0, 0, 0, 0, 0, []⟩], 0, .SOURCE_STREAMING, .SOURCE_STOPPED⟩ rfl
  have hl : l = 0 := by rw [h2]; decide
  have hb : opened.buffer_size = 4096 := rfl
  refine ⟨l, a, h1, hl, h3, ?_, h6 (by rw [hl, hb]; decide)⟩
  rw [h4, hl, hb]; decide

theorem latency_recycle_with (src : AudioSource) (ab : AudioBuffer) (rest : List AudioBuffer)
    (ab1 : AudioBuffer) (hq : src.buffer_queue = ab :: rest)
    (hpos : 0 < src.queue_index) (hwf : src.queue_index ≤ src.buffer_queue.length) :
    AudioSource.queueSize { src with buffer_queue := rest ++ [ab1],
                                     queue_index := src.queue_index - 1 }
      - AudioSource.getPosition { src with buffer_queue := rest ++ [ab1],
                                           queue_index := src.queue_index - 1 }
      = src.queueSize - src.getPosition + ab1.sampleSize :=
  latency_recycle src _ ab rest ab1 hq rfl rfl hpos hwf

theorem latency_allocate_with (src : AudioSource) (ab1 : AudioBuffer)
    (hpos : src.queue_index ≤ 0) :
    AudioSource.queueSize { src with buffer_queue := src.buffer_queue ++ [ab1] }
      - AudioSource.getPosition { src with buffer_queue := src.buffer_queue ++ [ab1] }
      = src.queueSize - src.getPosition + ab1.sampleSize :=
  latency_allocate src _ ab1 rfl rfl hpos

/-- The frame count `snd_pcm_mmap_begin` grants for a request `r` when the latency is `l` and
the capacity `cap`. -/
theorem grant_eq_min (cap l : Int) (r : Nat) :
    (((if (r : Int) > (if cap - l < 0 then 0 else cap - l)
        then (if cap - l < 0 then 0 else cap - l).toNat else r : Nat)) : Int)
      = min (r : Int) (max 0 (cap - l)) := by
  split <;> split <;> omega

/-- The effect of `snd_pcm_mmap_begin` on a source with a queue that is not empty and a cursor
within the queue: it succeeds, grants the request cut down to the available frames, and
appends a buffer of that many frames, which raises the latency by the grant. -/
theorem mmap_begin_effect (s : Pcm) (src : AudioSource) (r : Nat)
    (hsrc : s.sourceAlsa = some src) (hq : src.buffer_queue ≠ [])
    (hwf : src.queue_index ≤ src.buffer_queue.length) :
    ∃ s1 res src1 front ab1, snd_pcm_mmap_begin s r = some (s1, res) ∧ res.ret = 0 ∧
      res.offset = some 0 ∧
      (res.frames : Int) = min (r : Int) (max 0 (s.buffer_size - (src.queueSize - src.getPosition))) ∧
      s1.buffer_size = s.buffer_size ∧ s1.is_exiting = s.is_exiting ∧
      s1.sourceAlsa = some src1 ∧ src1.buffer_queue = front ++ [ab1] ∧
      ab1.sampleSize = (res.frames : Int) ∧
      src1.queue_index ≤ src1.buffer_queue.length ∧
      src1.queueSize - src1.getPosition = src.queueSize - src.getPosition + res.frames := by
  cases hb : src.buffer_queue with
  | nil => exact absurd hb hq
  | cons ab rest =>
    by_cases hp : src.nbQueueProcessed > 0
    · have hpos : 0 < src.queue_index := hp
      simp only [snd_pcm_mmap_begin, get_latency, hsrc, hb, hp, ↓reduceIte]
      refine ⟨_, _, _, rest, _, rfl, rfl, rfl, grant_eq_min _ _ _, rfl, rfl, rfl, rfl, rfl,
        ?_, ?_⟩
      · rw [hb] at hwf
        simp only [List.length_cons, Nat.cast_add, Nat.cast_one] at hwf
        simp only [List.length_append, List.length_cons, List.length_nil, Nat.cast_add,
          Nat.cast_one]
        omega
      · exact latency_recycle_with src ab rest _ hb hpos hwf
    · have hpos : src.queue_index ≤ 0 := by
        have : ¬ (0 < src.queue_index) := hp
        omega
      simp only [snd_pcm_mmap_begin, get_latency, hsrc, hb, hp, ↓reduceIte]
      refine ⟨_, _, _, ab :: rest, _, rfl, rfl, rfl, grant_eq_min _ _ _, rfl, rfl, rfl, rfl,
        rfl, ?_, ?_⟩
      · simp only [List.length_append, List.length_cons, List.length_nil, Nat.cast_add,
          Nat.cast_one]
        omega
      · have := fun ab1 => latency_allocate_with src ab1 hpos
        simp only [hb] at this
        exact this _

theorem scenarioC_state : ∃ s src, scenarioC = some s ∧ s.sourceAlsa = some src ∧
    src.buffer_queue ≠ [] ∧ src.queue_index ≤ src.buffer_queue.length ∧ s.buffer_size = 4096 ∧
    src.queueSize - src.getPosition = 3096 := by
  have h : scenarioC.isSome = true := by decide
  obtain ⟨s, hs⟩ := Option.isSome_iff_exists.mp h
  have h1 : ∀ s ∈ scenarioC, s.sourceAlsa.isSome = true := by decide
  obtain ⟨src, hsrc⟩ := Option.isSome_iff_exists.mp (h1 s hs)
  have h2 : ∀ s ∈ scenarioC, ∀ src ∈ s.sourceAlsa, src.buffer_queue ≠ [] ∧
      src.queue_index ≤ src.buffer_queue.length ∧ s.buffer_size = 4096 ∧
      src.queueSize - src.getPosition = 3096 := by decide
  obtain ⟨a, b, c, d⟩ := h2 s hs src hsrc
  exact ⟨s, src, hs, hsrc, a, b, c, d⟩

/-- Claim C4: in a state with a source (whose cursor does not point into an empty queue),
`snd_pcm_mmap_begin` called with `*frames = r` leaves in `*frames` exactly the minimum of `r`
and of the available frame count `snd_pcm_avail_update` reports just before the call, so
never more than is available; with capacity 4096 and latency 3096 a request of 4096 is
granted 1000. -/
theorem mmap_begin_grants_min (s : Pcm) (src : AudioSource) (r : Nat)
    (hsrc : s.sourceAlsa = some src) (hwf : src.buffer_queue = [] → src.queue_index ≤ 0) :
    ∃ avail s1 res, snd_pcm_avail_update s = some (s, avail) ∧
      avail = max 0 (s.buffer_size - (src.queueSize - src.getPosition)) ∧
      snd_pcm_mmap_begin s r = some (s1, res) ∧
      (res.frames : Int) = min (r : Int) avail ∧ (res.frames : Int) ≤ avail ∧
      (s.buffer_size = 4096 → src.queueSize - src.getPosition = 3096 → r = 4096 →
        res.frames = 1000) := by
  obtain ⟨a, ha, hmax⟩ : ∃ a, snd_pcm_avail_update s = some (s, a) ∧
      a = max 0 (s.buffer_size - (src.queueSize - src.getPosition)) :=
    ⟨_, avail_update_eq_max s src hsrc, rfl⟩
  have hres : ∃ s1 res, snd_pcm_mmap_begin s r = some (s1, res) ∧
      (res.frames : Int) = min (r : Int) a := by
    cases hq : src.buffer_queue with
    | nil =>
      have hp : ¬ src.nbQueueProcessed > 0 := by
        have := hwf hq
        simp only [AudioSource.nbQueueProcessed]
        omega
      simp only [snd_pcm_mmap_begin, get_latency, hsrc, hq, hp, ↓reduceIte]
      exact ⟨_, _, rfl, by rw [hmax]; exact grant_eq_min _ _ _⟩
    | cons ab rest =>
      by_cases hp : src.nbQueueProcessed > 0
      · simp only [snd_pcm_mmap_begin, get_latency, hsrc, hq, hp, ↓reduceIte]
        exact ⟨_, _, rfl, by rw [hmax]; exact grant_eq_min _ _ _⟩
      · simp only [snd_pcm_mmap_begin, get_latency, hsrc, hq, hp, ↓reduceIte]
        exact ⟨_, _, rfl, by rw [hmax]; exact grant_eq_min _ _ _⟩
  obtain ⟨s1, res, h1, h2⟩ := hres
  refine ⟨a, s1, res, ha, hmax, h1, h2, by omega, ?_⟩
  intro hc hlat hr
  omega

/-- Claim C4, witness: Scenario C, capacity 4096 and latency 3096: 1000 frames are available
and a request of 4096 is granted 1000. -/
theorem mmap_begin_grants_min_witness :
    ∃ s s1 res, scenarioC = some s ∧ snd_pcm_avail_update s = some (s, 1000) ∧
      snd_pcm_mmap_begin s 4096 = some (s1, res) ∧ res.frames = 1000 := by
  obtain ⟨s, src, hs, hsrc, hq, -, hcap, hlat⟩ := scenarioC_state
  obtain ⟨avail, s1, res, h1, h2, h3, -, -, h6⟩ :=
    mmap_begin_grants_min s src 4096 hsrc (fun h => absurd h hq)
  refine ⟨s, s1, res, hs, ?_, h3, h6 hcap hlat rfl⟩
  rw [h1, h2, hcap, hlat]
  rfl

/-- Claim C5, counterexample: in Scenario C, `snd_pcm_mmap_begin` with a request of 4096 grants
1000 frames and the latency is already 4096 when it returns; `snd_pcm_mmap_commit(0, 1000)`
returns 1000 and leaves the latency at 4096, it does not raise it by 1000. -/
theorem mmap_commit_latency_unchanged :
    scenarioC.bind (fun s => (snd_pcm_mmap_begin s 4096).map (fun r =>
      (get_latency s, r.2.frames, get_latency r.1, (snd_pcm_mmap_commit r.1 0 1000).2,
        get_latency (snd_pcm_mmap_commit r.1 0 1000).1)))
      = some (some 3096, 1000, some 4096, 1000, some 4096) := by
  decide

/-- Claim C5, amended: `snd_pcm_mmap_commit(offset, f)` returns `f` and changes nothing, so
the latency `snd_pcm_delay` reports is the same after the commit as just before it. The
payload size of the buffer queued by the preceding `snd_pcm_mmap_begin` is the frame count
that call granted, and it is that call which raises the latency, by exactly the grant: with
a queue that is not empty and the cursor within it, the latency after begin and commit is
the latency before begin plus the grant. -/
theorem mmap_commit_keeps_latency (s : Pcm) (src : AudioSource) (r offset f : Nat)
    (hsrc : s.sourceAlsa = some src) (hq : src.buffer_queue ≠ [])
    (hwf : src.queue_index ≤ src.buffer_queue.length) :
    ∃ l s1 res src1 front ab1, snd_pcm_delay s = some (s, 0, l) ∧
      snd_pcm_mmap_begin s r = some (s1, res) ∧
      s1.sourceAlsa = some src1 ∧ src1.buffer_queue = front ++ [ab1] ∧
      ab1.sampleSize = (res.frames : Int) ∧
      (res.frames : Int) = min (r : Int) (max 0 (s.buffer_size - l)) ∧
      snd_pcm_mmap_commit s1 offset f = (s1, (f : Int)) ∧
      snd_pcm_delay s1 = some (s1, 0, l + res.frames) ∧
      snd_pcm_delay (snd_pcm_mmap_commit s1 offset f).1 = some (s1, 0, l + res.frames) := by
  obtain ⟨s1, res, src1, front, ab1, h1, -, -, hg, -, -, h2, h3, h4, -, h5⟩ :=
    mmap_begin_effect s src r hsrc hq hwf
  have hd : snd_pcm_delay s1 = some (s1, 0, src.queueSize - src.getPosition + res.frames) := by
    simp [snd_pcm_delay, get_latency, h2, h5]
  exact ⟨_, s1, res, src1, front, ab1, by simp [snd_pcm_delay, get_latency, hsrc], h1, h2, h3,
    h4, hg, rfl, hd, hd⟩

/-- Claim C5, witness: in Scenario C the latency is 3096; after begin with a request of 4096
and commit of the 1000 frames granted it is 4096. -/
theorem mmap_commit_keeps_latency_witness :
    ∃ s s1 res, scenarioC = some s ∧ snd_pcm_mmap_begin s 4096 = some (s1, res) ∧
      res.frames = 1000 ∧ snd_pcm_delay s = some (s, 0, 3096) ∧
      snd_pcm_mmap_commit s1 0 1000 = (s1, 1000) ∧
      snd_pcm_delay s1 = some (s1, 0, 4096) ∧
      snd_pcm_delay (snd_pcm_mmap_commit s1 0 1000).1 = some (s1, 0, 4096) := by
  obtain ⟨s, src, hs, hsrc, hq, hwf, hcap, hlat⟩ := scenarioC_state
  obtain ⟨l, s1, res, -, -, -, h1, h2, -, -, -, hg, hc, h7, h8⟩ :=
    mmap_commit_keeps_latency s src 4096 0 1000 hsrc hq hwf
  have hl : l = 3096 := by
    simp [snd_pcm_delay, get_latency, hsrc, hlat] at h1
    exact h1.symm
  subst hl
  rw [hcap] at hg
  have hf : res.frames = 1000 := by omega
  rw [hf] at h7 h8
  exact ⟨s, s1, res, hs, h2, hf, h1, hc, h7, h8⟩

/-- Claim C6, counterexample: in Scenario A after three writes the latency 6144 is above the
capacity 4096 and 0 frames are available, so `n = 0` satisfies `n ≤ available`; yet
`snd_pcm_writei` of 0 frames has not returned after a sleep with no consumer progress and the
queue still holds 4 buffers, while `snd_pcm_mmap_begin(0)` followed by
`snd_pcm_mmap_commit(0, 0)` returns at once and leaves 5 buffers in the queue. -/
theorem writei_blocked_where_begin_returns :
    (scenarioA 3).bind (fun s =>
      (snd_pcm_writei [Sleep.idle] s silence 0).map (fun w =>
        (get_latency s, (snd_pcm_avail_update s).map Prod.snd, w.2,
          w.1.sourceAlsa.map (fun src => src.buffer_queue.length))))
      = some (some 6144, some 0, none, some 4) ∧
    (scenarioA 3).bind (fun s =>
      (snd_pcm_mmap_begin s 0).map (fun b =>
        (b.2.ret, b.2.frames, (snd_pcm_mmap_commit b.1 0 0).2,
          (snd_pcm_mmap_commit b.1 0 0).1.sourceAlsa.map
            (fun src => src.buffer_queue.length))))
      = some (0, 0, 0, some 5) := by
  constructor <;> decide

/-- Claim C6, amended: for a state with a source whose queue is not empty, the cursor within
the queue, the shutdown signal not set, the latency at most the capacity, and a frame count
`n ≤ available`: `snd_pcm_writei` of `n` frames (with no consumer progress during its first
sleep) and `snd_pcm_mmap_begin(n)` followed by `snd_pcm_mmap_commit(0, n)` both accept `n`
frames and leave the same bookkeeping: the same state up to the sample bytes, so the same
queue length, frame counts and byte sizes of the buffers, cursor, latency and available
frame count. -/
theorem writei_equiv_begin_commit (s : Pcm) (src : AudioSource) (buffer : Nat → Nat) (n : Nat)
    (rest : List Sleep) (avail : Int)
    (hsrc : s.sourceAlsa = some src) (hq : src.buffer_queue ≠ [])
    (hwf : src.queue_index ≤ src.buffer_queue.length) (hx : s.is_exiting = false)
    (hlat : src.queueSize - src.getPosition ≤ s.buffer_size)
    (havail : snd_pcm_avail_update s = some (s, avail)) (hn : (n : Int) ≤ avail) :
    ∃ s1 s2 res, snd_pcm_writei (Sleep.idle :: rest) s buffer n = some (s1, some (n : Int)) ∧
      snd_pcm_mmap_begin s n = some (s2, res) ∧ res.ret = 0 ∧ res.frames = n ∧
      snd_pcm_mmap_commit s2 0 n = (s2, (n : Int)) ∧
      bookkeeping s1 = bookkeeping s2 ∧
      s1.sourceAlsa.map (fun x => (x.buffer_queue.length,
          x.buffer_queue.map (fun b => (b.sampleSize, b.size)), x.queue_index))
        = s2.sourceAlsa.map (fun x => (x.buffer_queue.length,
          x.buffer_queue.map (fun b => (b.sampleSize, b.size)), x.queue_index)) ∧
      get_latency s1 = get_latency s2 ∧
      (snd_pcm_avail_update s1).map Prod.snd = (snd_pcm_avail_update s2).map Prod.snd := by
  have hidle : nanosleep Sleep.idle s = s := nanosleep_idle s src hsrc hwf
  have hl : get_latency s = some (src.queueSize - src.getPosition) := by
    simp [get_latency, hsrc]
  have hloop : snd_pcm_writei_loop (Sleep.idle :: rest) s = some (s, true) := by
    rw [writei_loop_cons, hidle, hx, hl]
    have : ¬ (src.queueSize - src.getPosition > s.buffer_size) := by omega
    simp [this]
  have hav : avail = if s.buffer_size - (src.queueSize - src.getPosition) < 0 then 0
      else s.buffer_size - (src.queueSize - src.getPosition) := by
    simp only [snd_pcm_avail_update, hl, Option.some.injEq, Prod.mk.injEq, true_and] at havail
    exact havail.symm
  have hg : (if (n : Int) > (if s.buffer_size - (src.queueSize - src.getPosition) < 0 then 0
      else s.buffer_size - (src.queueSize - src.getPosition))
      then (if s.buffer_size - (src.queueSize - src.getPosition) < 0 then 0
        else s.buffer_size - (src.queueSize - src.getPosition)).toNat else n) = n := by
    rw [← hav]
    exact if_neg (by omega)
  cases hb : src.buffer_queue with
  | nil => exact absurd hb hq
  | cons ab tl =>
    by_cases hp : src.nbQueueProcessed > 0
    · simp only [snd_pcm_writei, hloop, hx, hsrc, hb, hp, snd_pcm_mmap_begin, hl, hg,
        ↓reduceIte]
      refine ⟨_, _, _, rfl, rfl, rfl, rfl, rfl, ?_, ?_, ?_, ?_⟩
      · simp [bookkeeping]
      · simp
      · simp [get_latency, AudioSource.queueSize, AudioSource.getPosition]
      · simp [snd_pcm_avail_update, get_latency, AudioSource.queueSize,
          AudioSource.getPosition]
    · simp only [snd_pcm_writei, hloop, hx, hsrc, hb, hp, snd_pcm_mmap_begin, hl, hg,
        ↓reduceIte]
      refine ⟨_, _, _, rfl, rfl, rfl, rfl, rfl, ?_, ?_, ?_, ?_⟩
      · simp [bookkeeping]
      · simp
      · simp [get_latency, AudioSource.queueSize, AudioSource.getPosition]
      · simp [snd_pcm_avail_update, get_latency, AudioSource.queueSize,
          AudioSource.getPosition]

/-- Claim C6, witness: on the device just opened, writing 5 frames and begin(5) followed by
commit(0, 5) accept 5 frames and leave the same bookkeeping. -/
theorem writei_equiv_begin_commit_witness :
    ∃ s1 s2 res, snd_pcm_writei [Sleep.idle] opened silence 5 = some (s1, some 5) ∧
      snd_pcm_mmap_begin opened 5 = some (s2, res) ∧ res.frames = 5 ∧
      snd_pcm_mmap_commit s2 0 5 = (s2, 5) ∧ bookkeeping s1 = bookkeeping s2 ∧
      get_latency s1 = get_latency s2 := by
  obtain ⟨s1, s2, res, h1, h2, -, h4, h5, h6, -, h8, -⟩ :=
    writei_equiv_begin_commit opened
      ⟨1, [⟨1, .SAMPLE_FMT_U8, 0, 0, 0, 0, 0, 0, []⟩], 0, .SOURCE_STREAMING, .SOURCE_STOPPED⟩
      silence 5 [] 4096 rfl (by simp) (by decide) rfl (by decide) (by decide) (by decide)
  exact ⟨s1, s2, res, h1, h2, h4, h5, h6, h8⟩

theorem paramsAre_iff (X : Option SampleFormat) (C R : Option Int) (s : Pcm) :
    ParamsAre X C R s ↔ ∃ src, s.sourceAlsa = some src ∧ src.buffer_queue ≠ [] ∧
      ∀ b ∈ src.buffer_queue, b.agrees X C R := by
  unfold ParamsAre queueOf
  cases h : s.sourceAlsa with
  | none => simp
  | some src => simp

theorem paramsAre_of_queueOf (X : Option SampleFormat) (C R : Option Int) (s s1 : Pcm)
    (h : ParamsAre X C R s) (hq : queueOf s1 = queueOf s) : ParamsAre X C R s1 := by
  unfold ParamsAre at h ⊢
  rw [hq]
  exact h

theorem queueOf_nanosleep (e : Sleep) (s : Pcm) : queueOf (nanosleep e s) = queueOf s := by
  unfold queueOf nanosleep
  cases s.sourceAlsa <;> rfl

theorem queueOf_writei_loop (sleeps : List Sleep) :
    ∀ (s s1 : Pcm) (b : Bool), snd_pcm_writei_loop sleeps s = some (s1, b) →
      queueOf s1 = queueOf s := by
  induction sleeps with
  | nil =>
    intro s s1 b h
    simp [snd_pcm_writei_loop] at h
    rw [h.1]
  | cons e es ih =>
    intro s s1 b h
    rw [writei_loop_cons] at h
    split at h
    · simp at h
      rw [← h.1, queueOf_nanosleep]
    · split at h
      · simp at h
      · split at h
        · rw [ih _ _ _ h, queueOf_nanosleep]
        · simp at h
          rw [← h.1, queueOf_nanosleep]

theorem queueOf_wait_loop (t0 : Nat) (timeout : Int) (sleeps : List Sleep) :
    ∀ (s s1 : Pcm) (d : Option Int), snd_pcm_wait_loop t0 timeout sleeps s = some (s1, d) →
      queueOf s1 = queueOf s := by
  induction sleeps with
  | nil =>
    intro s s1 d h
    simp [snd_pcm_wait_loop] at h
    rw [h.1]
  | cons e es ih =>
    intro s s1 d h
    rw [snd_pcm_wait_loop] at h
    split at h
    · simp at h
      rw [← h.1, queueOf_nanosleep]
    · split at h
      · simp at h
      · split at h
        · rw [ih _ _ _ h, queueOf_nanosleep]
        · simp at h
          rw [← h.1, queueOf_nanosleep]

theorem queueOf_wait (sleeps : List Sleep) (s s1 : Pcm) (timeout : Int) (v : Option Int)
    (h : snd_pcm_wait sleeps s timeout = some (s1, v)) : queueOf s1 = queueOf s := by
  unfold snd_pcm_wait at h
  split at h
  · simp at h
  · rename_i l0 hl0
    simp only at h
    split at h
    · simp at h
    · rename_i s2 hafter
      simp at h
      obtain ⟨rfl, -⟩ := h
      split at hafter
      · exact queueOf_wait_loop _ _ _ _ _ _ hafter
      · simp at hafter
    · rename_i s2 d hafter
      have hs2 : queueOf s2 = queueOf s := by
        split at hafter
        · exact queueOf_wait_loop _ _ _ _ _ _ hafter
        · simp at hafter
          rw [hafter.1]
      split at h
      · simp at h
      · split at h <;> simp at h <;> (obtain ⟨rfl, -⟩ := h; exact hs2)

theorem agrees_of_eq (X : Option SampleFormat) (C R : Option Int) (b b1 : AudioBuffer)
    (h : b.agrees X C R) (hf : b1.format = b.format) (hc : b1.nbChannels = b.nbChannels)
    (hr : b1.frequency = b.frequency) : b1.agrees X C R := by
  unfold AudioBuffer.agrees at h ⊢
  rw [hf, hc, hr]
  exact h

theorem paramsAre_writei (X : Option SampleFormat) (C R : Option Int) (sleeps : List Sleep)
    (s s2 : Pcm) (buffer : Nat → Nat) (n : Nat) (v : Option Int)
    (h : ParamsAre X C R s) (hw : snd_pcm_writei sleeps s buffer n = some (s2, v)) :
    ParamsAre X C R s2 := by
  unfold snd_pcm_writei at hw
  split at hw
  · simp at hw
  · rename_i s1 hloop
    simp at hw
    rw [← hw.1]
    exact paramsAre_of_queueOf X C R s s1 h (queueOf_writei_loop _ _ _ _ hloop)
  · rename_i s1 hloop
    have h1 := paramsAre_of_queueOf X C R s s1 h (queueOf_writei_loop _ _ _ _ hloop)
    split at hw
    · simp at hw
      rw [← hw.1]
      exact h1
    · obtain ⟨src, hsrc, hne, hall⟩ := (paramsAre_iff X C R s1).mp h1
      simp only [hsrc] at hw
      cases hb : src.buffer_queue with
      | nil => exact absurd hb hne
      | cons ab rest =>
        rw [hb] at hall
        simp only [hb] at hw
        split at hw
        · simp at hw
          rw [← hw.1, paramsAre_iff]
          refine ⟨_, rfl, by simp, ?_⟩
          intro b hbm
          simp only [List.mem_append, List.mem_singleton] at hbm
          rcases hbm with hbm | h3
          · exact hall b (List.mem_cons_of_mem _ hbm)
          · rw [h3]
            exact agrees_of_eq X C R ab _ (hall ab (List.mem_cons_self _ _)) rfl rfl rfl
        · simp at hw
          rw [← hw.1, paramsAre_iff]
          refine ⟨_, rfl, by simp, ?_⟩
          intro b hbm
          simp only [List.mem_append, List.mem_singleton, List.mem_cons, List.not_mem_nil, or_false] at hbm
          rcases hbm with h1 | hbm | h3
          · rw [h1]
            exact hall ab (List.mem_cons_self _ _)
          · exact hall b (List.mem_cons_of_mem _ hbm)
          · rw [h3]
            exact agrees_of_eq X C R ab _ (hall ab (List.mem_cons_self _ _)) rfl rfl rfl

theorem paramsAre_mmap_begin (X : Option SampleFormat) (C R : Option Int)
    (s s2 : Pcm) (frames : Nat) (res : MmapBegin)
    (h : ParamsAre X C R s) (hw : snd_pcm_mmap_begin s frames = some (s2, res)) :
    ParamsAre X C R s2 := by
  obtain ⟨src, hsrc, hne, hall⟩ := (paramsAre_iff X C R s).mp h
  cases hb : src.buffer_queue with
  | nil => exact absurd hb hne
  | cons ab rest =>
    rw [hb] at hall
    simp only [snd_pcm_mmap_begin, get_latency, hsrc, hb] at hw
    split at hw
    · simp at hw
      rw [← hw.1, paramsAre_iff]
      refine ⟨_, rfl, by simp, ?_⟩
      intro b hbm
      simp only [List.mem_append, List.mem_singleton] at hbm
      rcases hbm with hbm | h3
      · exact hall b (List.mem_cons_of_mem _ hbm)
      · rw [h3]
        exact agrees_of_eq X C R ab _ (hall ab (List.mem_cons_self _ _)) rfl rfl rfl
    · simp at hw
      rw [← hw.1, paramsAre_iff]
      refine ⟨_, rfl, by simp, ?_⟩
      intro b hbm
      simp only [List.mem_append, List.mem_singleton, List.mem_cons, List.not_mem_nil, or_false] at hbm
      rcases hbm with h1 | hbm | h3
      · rw [h1]
        exact hall ab (List.mem_cons_self _ _)
      · exact hall b (List.mem_cons_of_mem _ hbm)
      · rw [h3]
        exact agrees_of_eq X C R ab _ (hall ab (List.mem_cons_self _ _)) rfl rfl rfl

/-- Assigning to the reference buffer alone keeps the parameters when the new reference
buffer holds them. -/
theorem paramsAre_set_head (X : Option SampleFormat) (C R : Option Int) (s s1 : Pcm)
    (src src1 : AudioSource) (b b1 : AudioBuffer) (rest : List AudioBuffer)
    (h : ParamsAre X C R s) (hsrc : s.sourceAlsa = some src) (hq : src.buffer_queue = b :: rest)
    (hsrc1 : s1.sourceAlsa = some src1) (hq1 : src1.buffer_queue = b1 :: rest)
    (hb : b.agrees X C R → b1.agrees X C R) : ParamsAre X C R s1 := by
  obtain ⟨src0, hsrc0, -, hall⟩ := (paramsAre_iff X C R s).mp h
  rw [hsrc] at hsrc0
  cases hsrc0
  rw [hq] at hall
  rw [paramsAre_iff]
  refine ⟨src1, hsrc1, by simp [hq1], ?_⟩
  intro x hx
  rw [hq1] at hx
  simp only [List.mem_cons] at hx
  rcases hx with h1 | hx
  · rw [h1]
    exact hb (hall b (List.mem_cons_self _ _))
  · exact hall x (List.mem_cons_of_mem _ hx)

/-- Every event that keeps the given parameters preserves `ParamsAre`. -/
theorem paramsAre_step (X : Option SampleFormat) (C R : Option Int) (op : Op) (s s1 : Pcm)
    (h : ParamsAre X C R s) (hk : op.keeps X C R = true) (hs : op.step s = some s1) :
    ParamsAre X C R s1 := by
  obtain ⟨src, hsrc, hne, hall⟩ := (paramsAre_iff X C R s).mp h
  obtain ⟨ab, rest, hb⟩ : ∃ ab rest, src.buffer_queue = ab :: rest := by
    cases hq : src.buffer_queue with
    | nil => exact absurd hq hne
    | cons ab rest => exact ⟨ab, rest, rfl⟩
  have hab : ab.agrees X C R := hall ab (by rw [hb]; exact List.mem_cons_self _ _)
  cases op with
  | snd_pcm_open stream => simp [Op.keeps] at hk
  | snd_pcm_close => simp [Op.step, snd_pcm_close] at hs; rw [← hs]; exact h
  | snd_pcm_nonblock nonblock => simp [Op.step, snd_pcm_nonblock] at hs; rw [← hs]; exact h
  | snd_pcm_start =>
    simp [Op.step, snd_pcm_start, hsrc] at hs
    rw [← hs]
    exact paramsAre_of_queueOf X C R s _ h (by simp [queueOf, hsrc])
  | snd_pcm_resume =>
    simp [Op.step, snd_pcm_resume, hsrc] at hs
    rw [← hs]
    exact paramsAre_of_queueOf X C R s _ h (by simp [queueOf, hsrc])
  | snd_pcm_wait sleeps timeout =>
    simp only [Op.step, Option.map_eq_some'] at hs
    obtain ⟨⟨s2, v⟩, hw, rfl⟩ := hs
    exact paramsAre_of_queueOf X C R s _ h (queueOf_wait sleeps s _ timeout v hw)
  | snd_pcm_delay =>
    simp [Op.step, snd_pcm_delay, get_latency, hsrc] at hs; rw [← hs]; exact h
  | snd_pcm_avail_update =>
    simp [Op.step, snd_pcm_avail_update, get_latency, hsrc] at hs; rw [← hs]; exact h
  | snd_pcm_hw_params =>
    simp only [Op.step, snd_pcm_hw_params, hsrc, hb, Option.map_some', Option.some.injEq] at hs
    rw [← hs]
    exact paramsAre_set_head X C R s _ src _ ab _ rest h hsrc hb rfl rfl
      (fun hx => agrees_of_eq X C R ab _ hx rfl rfl rfl)
  | snd_pcm_sw_params_current =>
    simp [Op.step, snd_pcm_sw_params_current] at hs; rw [← hs]; exact h
  | snd_pcm_sw_params =>
    simp only [Op.step, snd_pcm_sw_params, hsrc, hb, Option.map_some', Option.some.injEq] at hs
    rw [← hs]
    exact paramsAre_set_head X C R s _ src _ ab _ rest h hsrc hb rfl rfl
      (fun hx => agrees_of_eq X C R ab _ hx rfl rfl rfl)
  | snd_pcm_prepare => simp [Op.step, snd_pcm_prepare] at hs; rw [← hs]; exact h
  | snd_pcm_writei sleeps buffer size =>
    simp only [Op.step, Option.map_eq_some'] at hs
    obtain ⟨⟨s2, v⟩, hw, rfl⟩ := hs
    exact paramsAre_writei X C R sleeps s s2 buffer size v h hw
  | snd_pcm_readi size => simp [Op.step, snd_pcm_readi] at hs; rw [← hs]; exact h
  | snd_pcm_mmap_begin frames =>
    simp only [Op.step, Option.map_eq_some'] at hs
    obtain ⟨⟨s2, v⟩, hw, rfl⟩ := hs
    exact paramsAre_mmap_begin X C R s s2 frames v h hw
  | snd_pcm_mmap_commit offset frames =>
    simp [Op.step, snd_pcm_mmap_commit] at hs; rw [← hs]; exact h
  | snd_pcm_hw_params_any => simp [Op.step, snd_pcm_hw_params_any] at hs; rw [← hs]; exact h
  | snd_pcm_hw_params_sizeof =>
    simp [Op.step, snd_pcm_hw_params_sizeof] at hs; rw [← hs]; exact h
  | snd_pcm_hw_params_malloc =>
    simp [Op.step, snd_pcm_hw_params_malloc] at hs; rw [← hs]; exact h
  | snd_pcm_hw_params_free => simp [Op.step, snd_pcm_hw_params_free] at hs; rw [← hs]; exact h
  | snd_pcm_hw_params_copy => simp [Op.step, snd_pcm_hw_params_copy] at hs; rw [← hs]; exact h
  | snd_pcm_hw_params_set_access access =>
    simp [Op.step, snd_pcm_hw_params_set_access] at hs; rw [← hs]; exact h
  | snd_pcm_hw_params_set_format val =>
    simp only [Op.keeps, Option.isNone_iff_eq_none] at hk
    subst hk
    simp only [Op.step, snd_pcm_hw_params_set_format, hsrc, hb] at hs
    have key : ∀ f, ParamsAre none C R
        { s with sourceAlsa := some { src with buffer_queue := { ab with format := f } :: rest } } :=
      fun f => paramsAre_set_head none C R s _ src _ ab _ rest h hsrc hb rfl rfl
        (fun hx => ⟨by simp, hx.2.1, hx.2.2⟩)
    split at hs
    · simp at hs; rw [← hs]; exact key _
    · split at hs
      · simp at hs; rw [← hs]; exact key _
      · split at hs
        · simp at hs; rw [← hs]; exact key _
        · split at hs
          · simp at hs; rw [← hs]; exact key _
          · simp at hs; rw [← hs]; exact h
  | snd_pcm_hw_params_get_channels =>
    simp [Op.step, snd_pcm_hw_params_get_channels, hsrc, hb] at hs; rw [← hs]; exact h
  | snd_pcm_hw_params_get_channels_max =>
    simp [Op.step, snd_pcm_hw_params_get_channels_max] at hs; rw [← hs]; exact h
  | snd_pcm_hw_params_set_channels val =>
    simp only [Op.keeps, Option.isNone_iff_eq_none] at hk
    subst hk
    simp only [Op.step, snd_pcm_hw_params_set_channels, hsrc, hb, Option.map_some',
      Option.some.injEq] at hs
    rw [← hs]
    exact paramsAre_set_head X none R s _ src _ ab _ rest h hsrc hb rfl rfl
      (fun hx => ⟨hx.1, by simp, hx.2.2⟩)
  | snd_pcm_hw_params_set_rate val dir =>
    simp only [Op.keeps, Option.isNone_iff_eq_none] at hk
    subst hk
    simp only [Op.step, snd_pcm_hw_params_set_rate, hsrc, hb, Option.map_some',
      Option.some.injEq] at hs
    rw [← hs]
    exact paramsAre_set_head X C none s _ src _ ab _ rest h hsrc hb rfl rfl
      (fun hx => ⟨hx.1, hx.2.1, by simp⟩)
  | snd_pcm_hw_params_set_rate_near val =>
    simp only [Op.keeps, Option.isNone_iff_eq_none] at hk
    subst hk
    simp only [Op.step, snd_pcm_hw_params_set_rate_near, hsrc, hb, Option.map_some',
      Option.some.injEq] at hs
    rw [← hs]
    exact paramsAre_set_head X C none s _ src _ ab _ rest h hsrc hb rfl rfl
      (fun hx => ⟨hx.1, hx.2.1, by simp⟩)
  | snd_pcm_hw_params_set_rate_resample val =>
    simp [Op.step, snd_pcm_hw_params_set_rate_resample] at hs; rw [← hs]; exact h
  | snd_pcm_hw_params_get_period_size =>
    simp only [Op.step, snd_pcm_hw_params_get_period_size] at hs
    split at hs
    · simp at hs
    · simp at hs; rw [← hs]; exact h
  | snd_pcm_hw_params_get_period_time_min =>
    simp [Op.step, snd_pcm_hw_params_get_period_time_min] at hs; rw [← hs]; exact h
  | snd_pcm_hw_params_set_period_size_near val =>
    simp [Op.step, snd_pcm_hw_params_set_period_size_near] at hs; rw [← hs]; exact h
  | snd_pcm_hw_params_set_periods_near val =>
    simp [Op.step, snd_pcm_hw_params_set_periods_near] at hs
    rw [← hs]
    exact paramsAre_of_queueOf X C R s _ h rfl
  | snd_pcm_hw_params_get_buffer_size =>
    simp [Op.step, snd_pcm_hw_params_get_buffer_size] at hs; rw [← hs]; exact h
  | snd_pcm_hw_params_get_buffer_time_max =>
    simp only [Op.step, snd_pcm_hw_params_get_buffer_time_max, hsrc, hb] at hs
    split at hs
    · simp at hs
    · split at hs
      · simp at hs
      · simp at hs; rw [← hs]; exact h
  | snd_pcm_hw_params_set_buffer_size_near val =>
    simp [Op.step, snd_pcm_hw_params_set_buffer_size_near] at hs
    rw [← hs]
    exact paramsAre_of_queueOf X C R s _ h rfl
  | snd_pcm_hw_params_set_buffer_time_near val =>
    simp only [Op.step, snd_pcm_hw_params_set_buffer_time_near, hsrc, hb] at hs
    split at hs
    · split at hs
      · simp at hs
      · split at hs
        · simp at hs
        · simp at hs; rw [← hs]; exact h
    · split at hs
      · simp at hs
        rw [← hs]
        exact paramsAre_of_queueOf X C R s _ h (by simp [queueOf, hsrc])
      · simp at hs; rw [← hs]; exact h
  | snd_pcm_hw_params_test_rate val dir =>
    simp [Op.step, snd_pcm_hw_params_test_rate] at hs; rw [← hs]; exact h
  | snd_pcm_sw_params_sizeof =>
    simp [Op.step, snd_pcm_sw_params_sizeof] at hs; rw [← hs]; exact h
  | snd_pcm_sw_params_set_start_threshold val =>
    simp [Op.step, snd_pcm_sw_params_set_start_threshold] at hs; rw [← hs]; exact h
  | snd_pcm_sw_params_set_avail_min val =>
    simp [Op.step, snd_pcm_sw_params_set_avail_min] at hs; rw [← hs]; exact h
  | snd_pcm_get_chmap => simp [Op.step, snd_pcm_get_chmap] at hs; rw [← hs]; exact h
  | others e =>
    simp [Op.step] at hs
    rw [← hs]
    exact paramsAre_of_queueOf X C R s _ h (queueOf_nanosleep e s)

theorem paramsAre_run (X : Option SampleFormat) (C R : Option Int) (ops : List Op) :
    ∀ (s s1 : Pcm), ParamsAre X C R s → (∀ op ∈ ops, op.keeps X C R = true) →
      run ops s = some s1 → ParamsAre X C R s1 := by
  induction ops with
  | nil =>
    intro s s1 h _ hr
    simp [run] at hr
    rw [← hr]
    exact h
  | cons op ops ih =>
    intro s s1 h hk hr
    simp only [run] at hr
    cases hst : op.step s with
    | none => simp [hst] at hr
    | some s2 =>
      simp only [hst] at hr
      exact ih s2 s1 (paramsAre_step X C R op s s2 h (hk op (List.mem_cons_self _ _)) hst)
        (fun x hx => hk x (List.mem_cons_of_mem _ hx)) hr

theorem paramsAre_refBuffer (X : Option SampleFormat) (C R : Option Int) (s : Pcm)
    (h : ParamsAre X C R s) :
    ∃ src b rest, s.sourceAlsa = some src ∧ src.buffer_queue = b :: rest ∧
      refBuffer s = some b ∧ b.agrees X C R := by
  obtain ⟨src, hsrc, hne, hall⟩ := (paramsAre_iff X C R s).mp h
  cases hq : src.buffer_queue with
  | nil => exact absurd hq hne
  | cons b rest =>
    exact ⟨src, b, rest, hsrc, hq, by simp [refBuffer, hsrc, hq],
      hall b (by rw [hq]; exact List.mem_cons_self _ _)⟩

/-- Claim C8, counterexample: open, set_channels(1), a write; then set_channels(2) returns 0;
after a cursor advance and a write that recycles the first queue buffer, with no further
setter call, `snd_pcm_hw_params_get_channels` returns 1, not 2. -/
theorem get_channels_after_recycle :
    (run recycleBefore Pcm.init).bind (fun s0 =>
      (snd_pcm_hw_params_set_channels s0 2).bind (fun r =>
        (run recycleAfter r.1).bind (fun s' =>
          (snd_pcm_hw_params_get_channels s').map (fun g => (r.2, g.2.1, g.2.2)))))
      = some (0, 0, 1) := by
  decide

/-- Claim C8, amended: let `snd_pcm_hw_params_set_channels(C)` be called when every buffer
queued behind the reference buffer already has `C` channels (in particular when the queue
holds only the reference buffer, as after open). Then after every sequence of events, none
of them a further call of that setter or of `snd_pcm_open`, that runs without undefined
behaviour (writes, begin/commit and cursor advances that recycle the first queue buffer
included), `snd_pcm_hw_params_get_channels` returns exactly `C`. Likewise for
`snd_pcm_hw_params_set_format`, `snd_pcm_hw_params_set_rate` and
`snd_pcm_hw_params_set_rate_near` and the format and frequency stored in the reference
buffer. -/
theorem params_round_trip (s0 : Pcm) (src0 : AudioSource) (b0 : AudioBuffer)
    (tl : List AudioBuffer) (ops : List Op)
    (hsrc : s0.sourceAlsa = some src0) (hq : src0.buffer_queue = b0 :: tl) :
    (∀ (C : Nat) (s1 s' : Pcm), snd_pcm_hw_params_set_channels s0 C = some (s1, 0) →
      (∀ b ∈ tl, b.nbChannels = (C : Int)) →
      (∀ op ∈ ops, op.keeps none (some (C : Int)) none = true) → run ops s1 = some s' →
      snd_pcm_hw_params_get_channels s' = some (s', 0, (C : Int))) ∧
    (∀ (v : Int) (X : SampleFormat) (s1 s' : Pcm),
      snd_pcm_hw_params_set_format s0 v = some (s1, 0) →
      (refBuffer s1).map AudioBuffer.format = some X → (∀ b ∈ tl, b.format = X) →
      (∀ op ∈ ops, op.keeps (some X) none none = true) → run ops s1 = some s' →
      (refBuffer s').map AudioBuffer.format = some X) ∧
    (∀ (R : Nat) (dir : Int) (s1 s' : Pcm),
      snd_pcm_hw_params_set_rate s0 R dir = some (s1, 0) →
      (∀ b ∈ tl, b.frequency = (R : Int)) →
      (∀ op ∈ ops, op.keeps none none (some (R : Int)) = true) → run ops s1 = some s' →
      (refBuffer s').map AudioBuffer.frequency = some (R : Int)) ∧
    (∀ (R : Nat) (s1 s' : Pcm),
      snd_pcm_hw_params_set_rate_near s0 R = some (s1, 0) →
      (∀ b ∈ tl, b.frequency = (R : Int)) →
      (∀ op ∈ ops, op.keeps none none (some (R : Int)) = true) → run ops s1 = some s' →
      (refBuffer s').map AudioBuffer.frequency = some (R : Int)) := by
  have h0 : ParamsAre none none none s0 := by
    rw [paramsAre_iff]
    exact ⟨src0, hsrc, by simp [hq], fun b _ => ⟨by simp, by simp, by simp⟩⟩
  refine ⟨?_, ?_, ?_, ?_⟩
  · intro C s1 s' hset htl hops hrun
    simp only [snd_pcm_hw_params_set_channels, hsrc, hq, Option.some.injEq, Prod.mk.injEq,
      and_true] at hset
    have h1 : ParamsAre none (some (C : Int)) none s1 := by
      rw [paramsAre_iff, ← hset]
      refine ⟨_, rfl, by simp, ?_⟩
      intro b hb
      simp only [List.mem_cons] at hb
      rcases hb with hb | hb
      · rw [hb]; exact ⟨by simp, by simp, by simp⟩
      · exact ⟨by simp, by simpa using htl b hb, by simp⟩
    obtain ⟨src, b, rest, hs, hb, -, hag⟩ :=
      paramsAre_refBuffer _ _ _ s' (paramsAre_run _ _ _ ops s1 s' h1 hops hrun)
    have hc : b.nbChannels = (C : Int) := hag.2.1 _ rfl
    simp [snd_pcm_hw_params_get_channels, hs, hb, hc]
  · intro v X s1 s' hset hX htl hops hrun
    have h1 : ParamsAre (some X) none none s1 := by
      simp only [snd_pcm_hw_params_set_format, hsrc, hq] at hset
      rw [paramsAre_iff]
      have key : ∀ f, s1 = { s0 with sourceAlsa := some { src0 with
          buffer_queue := { b0 with format := f } :: tl } } →
          ∃ src, s1.sourceAlsa = some src ∧ src.buffer_queue ≠ [] ∧
            ∀ b ∈ src.buffer_queue, b.agrees (some X) none none := by
        intro f hs1
        have hf : f = X := by
          rw [hs1] at hX
          simpa [refBuffer] using hX
        rw [hs1]
        refine ⟨_, rfl, by simp, ?_⟩
        intro b hb
        simp only [List.mem_cons] at hb
        rcases hb with hb | hb
        · rw [hb]; exact ⟨by simp [hf], by simp, by simp⟩
        · exact ⟨by simpa using htl b hb, by simp, by simp⟩
      split at hset
      · exact key _ (by simpa using hset.symm)
      · split at hset
        · exact key _ (by simpa using hset.symm)
        · split at hset
          · exact key _ (by simpa using hset.symm)
          · split at hset
            · exact key _ (by simpa using hset.symm)
            · simp at hset
    obtain ⟨src, b, rest, hs, hb, href, hag⟩ :=
      paramsAre_refBuffer _ _ _ s' (paramsAre_run _ _ _ ops s1 s' h1 hops hrun)
    rw [href]
    simp [hag.1 X rfl]
  · intro R dir s1 s' hset htl hops hrun
    simp only [snd_pcm_hw_params_set_rate, hsrc, hq, Option.some.injEq, Prod.mk.injEq,
      and_true] at hset
    have h1 : ParamsAre none none (some (R : Int)) s1 := by
      rw [paramsAre_iff, ← hset]
      refine ⟨_, rfl, by simp, ?_⟩
      intro b hb
      simp only [List.mem_cons] at hb
      rcases hb with hb | hb
      · rw [hb]; exact ⟨by simp, by simp, by simp⟩
      · exact ⟨by simp, by simp, by simpa using htl b hb⟩
    obtain ⟨src, b, rest, hs, hb, href, hag⟩ :=
      paramsAre_refBuffer _ _ _ s' (paramsAre_run _ _ _ ops s1 s' h1 hops hrun)
    rw [href]
    simp [hag.2.2 _ rfl]
  · intro R s1 s' hset htl hops hrun
    simp only [snd_pcm_hw_params_set_rate_near, hsrc, hq, Option.some.injEq, Prod.mk.injEq,
      and_true] at hset
    have h1 : ParamsAre none none (some (R : Int)) s1 := by
      rw [paramsAre_iff, ← hset]
      refine ⟨_, rfl, by simp, ?_⟩
      intro b hb
      simp only [List.mem_cons] at hb
      rcases hb with hb | hb
      · rw [hb]; exact ⟨by simp, by simp, by simp⟩
      · exact ⟨by simp, by simp, by simpa using htl b hb⟩
    obtain ⟨src, b, rest, hs, hb, href, hag⟩ :=
      paramsAre_refBuffer _ _ _ s' (paramsAre_run _ _ _ ops s1 s' h1 hops hrun)
    rw [href]
    simp [hag.2.2 _ rfl]

/-- Claim C8, witness: on the device just opened, set_channels(2), then writes, begin/commit
and cursor advances that recycle the first queue buffer twice: get_channels returns 2. -/
theorem params_round_trip_witness :
    ∃ s1 s', snd_pcm_hw_params_set_channels opened 2 = some (s1, 0) ∧
      run roundTripOps s1 = some s' ∧
      s'.sourceAlsa.map (fun src => src.buffer_queue.map AudioBuffer.id) = some [1, 2] ∧
      snd_pcm_hw_params_get_channels s' = some (s', 0, 2) := by
  obtain ⟨s1, h1⟩ : ∃ s1, snd_pcm_hw_params_set_channels opened 2 = some (s1, 0) := ⟨_, rfl⟩
  have hr : ∀ r ∈ snd_pcm_hw_params_set_channels opened 2, (run roundTripOps r.1).isSome = true := by
    decide
  obtain ⟨s', hs'⟩ := Option.isSome_iff_exists.mp (hr _ h1)
  have hid : ∀ r ∈ snd_pcm_hw_params_set_channels opened 2, ∀ x ∈ run roundTripOps r.1,
      x.sourceAlsa.map (fun src => src.buffer_queue.map AudioBuffer.id) = some [1, 2] := by
    decide
  exact ⟨s1, s', h1, hs', hid _ h1 _ hs',
    (params_round_trip opened
      ⟨1, [⟨1, .SAMPLE_FMT_U8, 0, 0, 0, 0, 0, 0, []⟩], 0, .SOURCE_STREAMING, .SOURCE_STOPPED⟩
      ⟨1, .SAMPLE_FMT_U8, 0, 0, 0, 0, 0, 0, []⟩ [] roundTripOps rfl rfl).1 2 s1 s' h1
      (by simp) (by decide) hs'⟩

/-- Claim C9: in emulated mode `snd_pcm_open` with a stream direction other than playback
returns -1 and leaves the whole state as it is: the registry holds the same buffers and
sources and `sourceAlsa` is untouched. -/
theorem open_rejects_other_directions (s : Pcm) (stream : Int)
    (h : stream ≠ SND_PCM_STREAM_PLAYBACK) :
    snd_pcm_open s stream = (s, -1) ∧
      (snd_pcm_open s stream).1.audiocontext.buffers = s.audiocontext.buffers ∧
      (snd_pcm_open s stream).1.audiocontext.sources = s.audiocontext.sources ∧
      (snd_pcm_open s stream).1.sourceAlsa = s.sourceAlsa := by
  have h1 : snd_pcm_open s stream = (s, -1) := by
    simp [snd_pcm_open, h]
  rw [h1]
  exact ⟨rfl, rfl, rfl, rfl⟩

/-- Claim C9, witness: opening for capture at program start fails with -1 and creates
nothing. -/
theorem open_rejects_other_directions_witness :
    snd_pcm_open Pcm.init SND_PCM_STREAM_CAPTURE = (Pcm.init, -1) ∧
      (snd_pcm_open Pcm.init SND_PCM_STREAM_CAPTURE).1.audiocontext.buffers = [] ∧
      (snd_pcm_open Pcm.init SND_PCM_STREAM_CAPTURE).1.audiocontext.sources = [] ∧
      (snd_pcm_open Pcm.init SND_PCM_STREAM_CAPTURE).1.sourceAlsa = none :=
  open_rejects_other_directions Pcm.init SND_PCM_STREAM_CAPTURE (by decide)

/-- Claim C10: on a source with a reference buffer, `snd_pcm_hw_params_set_format` returns 0
exactly when the format is `SND_PCM_FORMAT_U8`, `SND_PCM_FORMAT_S16_LE`,
`SND_PCM_FORMAT_S32_LE` or `SND_PCM_FORMAT_FLOAT_LE`, and then the format of the reference
buffer is the corresponding sample format and nothing else changes; for every other value
it returns -1 and the whole state is unchanged. -/
theorem set_format_supported_iff (s : Pcm) (src : AudioSource) (buffer : AudioBuffer)
    (rest : List AudioBuffer) (val : Int)
    (hsrc : s.sourceAlsa = some src) (hq : src.buffer_queue = buffer :: rest) :
    ∃ s1 ret, snd_pcm_hw_params_set_format s val = some (s1, ret) ∧
      (ret = 0 ↔ val = SND_PCM_FORMAT_U8 ∨ val = SND_PCM_FORMAT_S16_LE ∨
        val = SND_PCM_FORMAT_S32_LE ∨ val = SND_PCM_FORMAT_FLOAT_LE) ∧
      (ret ≠ 0 → ret = -1 ∧ s1 = s) ∧
      (val = SND_PCM_FORMAT_U8 → s1 = { s with sourceAlsa := some { src with
        buffer_queue := { buffer with format := SampleFormat.SAMPLE_FMT_U8 } :: rest } }) ∧
      (val = SND_PCM_FORMAT_S16_LE → s1 = { s with sourceAlsa := some { src with
        buffer_queue := { buffer with format := SampleFormat.SAMPLE_FMT_S16 } :: rest } }) ∧
      (val = SND_PCM_FORMAT_S32_LE → s1 = { s with sourceAlsa := some { src with
        buffer_queue := { buffer with format := SampleFormat.SAMPLE_FMT_S32 } :: rest } }) ∧
      (val = SND_PCM_FORMAT_FLOAT_LE → s1 = { s with sourceAlsa := some { src with
        buffer_queue := { buffer with format := SampleFormat.SAMPLE_FMT_FLT } :: rest } }) := by
  simp only [snd_pcm_hw_params_set_format, hsrc, hq]
  by_cases h1 : val = SND_PCM_FORMAT_U8
  · subst h1
    refine ⟨_, _, rfl, ?_⟩
    simp [SND_PCM_FORMAT_U8, SND_PCM_FORMAT_S16_LE, SND_PCM_FORMAT_S32_LE,
      SND_PCM_FORMAT_FLOAT_LE]
  · by_cases h2 : val = SND_PCM_FORMAT_S16_LE
    · subst h2
      refine ⟨_, _, rfl, ?_⟩
      simp [SND_PCM_FORMAT_U8, SND_PCM_FORMAT_S16_LE, SND_PCM_FORMAT_S32_LE,
        SND_PCM_FORMAT_FLOAT_LE]
    · by_cases h3 : val = SND_PCM_FORMAT_S32_LE
      · subst h3
        refine ⟨_, _, rfl, ?_⟩
        simp [SND_PCM_FORMAT_U8, SND_PCM_FORMAT_S16_LE, SND_PCM_FORMAT_S32_LE,
          SND_PCM_FORMAT_FLOAT_LE]
      · by_cases h4 : val = SND_PCM_FORMAT_FLOAT_LE
        · subst h4
          refine ⟨_, _, rfl, ?_⟩
          simp [SND_PCM_FORMAT_U8, SND_PCM_FORMAT_S16_LE, SND_PCM_FORMAT_S32_LE,
            SND_PCM_FORMAT_FLOAT_LE]
        · simp only [h1, h2, h3, h4, ↓reduceIte]
          refine ⟨_, _, rfl, ?_⟩
          simp

/-- Claim C10, witness: on the device just opened, format 2 (signed 16 bit little endian) is
accepted and stored as `SAMPLE_FMT_S16`; format 3 (signed 16 bit big endian) is refused with
-1 and changes nothing. -/
theorem set_format_supported_iff_witness :
    (∃ s1, snd_pcm_hw_params_set_format opened 2 = some (s1, 0) ∧
      (refBuffer s1).map AudioBuffer.format = some SampleFormat.SAMPLE_FMT_S16) ∧
    snd_pcm_hw_params_set_format opened 3 = some (opened, -1) := by
  obtain ⟨s1, ret, h1, h2, -, -, h5, -, -⟩ := set_format_supported_iff opened
    ⟨1, [⟨1, .SAMPLE_FMT_U8, 0, 0, 0, 0, 0, 0, []⟩], 0, .SOURCE_STREAMING, .SOURCE_STOPPED⟩
    ⟨1, .SAMPLE_FMT_U8, 0, 0, 0, 0, 0, 0, []⟩ [] 2 rfl rfl
  obtain ⟨s2, ret2, k1, k2, k3, -⟩ := set_format_supported_iff opened
    ⟨1, [⟨1, .SAMPLE_FMT_U8, 0, 0, 0, 0, 0, 0, []⟩], 0, .SOURCE_STREAMING, .SOURCE_STOPPED⟩
    ⟨1, .SAMPLE_FMT_U8, 0, 0, 0, 0, 0, 0, []⟩ [] 3 rfl rfl
  have hr : ret = 0 := h2.mpr (Or.inr (Or.inl rfl))
  have hr2 : ret2 ≠ 0 := by
    intro h0
    have := k2.mp h0
    revert this
    decide
  obtain ⟨k4, k5⟩ := k3 hr2
  subst hr k4 k5
  refine ⟨⟨s1, h1, ?_⟩, k1⟩
  rw [h5 rfl]
  rfl

/-- Claim C11: when the stored `periods` is not 0, `snd_pcm_hw_params_get_period_size` writes
the integer quotient `buffer_size / periods` and leaves the state as it is;
`snd_pcm_hw_params_set_periods_near(v)` stores `v` in `periods` (2 at program start) and
leaves capacity, latency and available frame count as they are, so that a following
`snd_pcm_hw_params_get_period_size` writes `buffer_size / v`; with capacity 4096 and the
initial 2 periods the result is 2048, and after `set_periods_near(4)` it is 1024. -/
theorem period_size_is_quotient (s : Pcm) (v : Nat) :
    Pcm.init.periods = 2 ∧
    (s.periods ≠ 0 → snd_pcm_hw_params_get_period_size s
      = some (s, 0, Int.tdiv s.buffer_size s.periods)) ∧
    snd_pcm_hw_params_set_periods_near s v = ({ s with periods := (v : Int) }, 0) ∧
    (snd_pcm_hw_params_set_periods_near s v).1.buffer_size = s.buffer_size ∧
    get_latency (snd_pcm_hw_params_set_periods_near s v).1 = get_latency s ∧
    (snd_pcm_avail_update (snd_pcm_hw_params_set_periods_near s v).1).map Prod.snd
      = (snd_pcm_avail_update s).map Prod.snd ∧
    (v ≠ 0 → snd_pcm_hw_params_get_period_size (snd_pcm_hw_params_set_periods_near s v).1
      = some ((snd_pcm_hw_params_set_periods_near s v).1, 0, Int.tdiv s.buffer_size v)) ∧
    (s.buffer_size = 4096 → s.periods = 2 →
      snd_pcm_hw_params_get_period_size s = some (s, 0, 2048)) ∧
    (s.buffer_size = 4096 →
      snd_pcm_hw_params_get_period_size (snd_pcm_hw_params_set_periods_near s 4).1
        = some ((snd_pcm_hw_params_set_periods_near s 4).1, 0, 1024)) := by
  refine ⟨rfl, ?_, rfl, rfl, rfl, ?_, ?_, ?_, ?_⟩
  · intro h
    simp [snd_pcm_hw_params_get_period_size, h]
  · simp only [snd_pcm_avail_update, snd_pcm_hw_params_set_periods_near, get_latency]
    cases s.sourceAlsa <;> rfl
  · intro h
    have hv : (v : Int) ≠ 0 := by exact_mod_cast h
    simp [snd_pcm_hw_params_get_period_size, snd_pcm_hw_params_set_periods_near, hv]
  · intro hb hp
    have h2 : Int.tdiv 4096 2 = 2048 := by decide
    simp [snd_pcm_hw_params_get_period_size, hb, hp, h2]
  · intro hb
    have h4 : Int.tdiv 4096 4 = 1024 := by decide
    simp [snd_pcm_hw_params_get_period_size, snd_pcm_hw_params_set_periods_near, hb, h4]

/-- Claim C11, witness: Scenario D on the state at program start, capacity 4096 and 2
periods: the period size is 2048, and 1024 after `set_periods_near(4)`. -/
theorem period_size_is_quotient_witness :
    snd_pcm_hw_params_get_period_size Pcm.init = some (Pcm.init, 0, 2048) ∧
    snd_pcm_hw_params_get_period_size (snd_pcm_hw_params_set_periods_near Pcm.init 4).1
      = some ((snd_pcm_hw_params_set_periods_near Pcm.init 4).1, 0, 1024) :=
  ⟨(period_size_is_quotient Pcm.init 4).2.2.2.2.2.2.2.1 rfl rfl,
    (period_size_is_quotient Pcm.init 4).2.2.2.2.2.2.2.2 rfl⟩

/-- When the product of a non-zero buffer time and a positive frequency fits in
`unsigned int`, `snd_pcm_hw_params_set_buffer_time_near` sets the capacity to the quotient
of the product by 1000000. -/
theorem set_buffer_time_near_of_fits (s : Pcm) (src : AudioSource) (buffer : AudioBuffer)
    (rest : List AudioBuffer) (val : Nat)
    (hsrc : s.sourceAlsa = some src) (hq : src.buffer_queue = buffer :: rest)
    (hval : val ≠ 0) (hf : 0 < buffer.frequency)
    (hfit : (val : Int) * buffer.frequency < 2 ^ 32) :
    snd_pcm_hw_params_set_buffer_time_near s val
      = some ({ s with buffer_size := (val : Int) * buffer.frequency / 1000000 }, 0,
          (val : Int)) := by
  have hne : buffer.frequency ≠ 0 := by omega
  have hnn : 0 ≤ (val : Int) * buffer.frequency :=
    Int.mul_nonneg (Int.natCast_nonneg _) (le_of_lt hf)
  simp only [snd_pcm_hw_params_set_buffer_time_near, hsrc, hq, hval, hne, ↓reduceIte, ne_eq,
    not_false_eq_true]
  rw [Int.emod_eq_of_lt hnn hfit]

/-- Claim C12, the code at the failing input: in Scenario A (frequency 48000) a buffer time of
100000 microseconds gives the product 4800000000, which does not fit in 32 bits; the hook
sets the capacity to 505, the quotient of the product reduced modulo `2 ^ 32`, where the
mathematical value is 4800. -/
theorem buffer_time_product_wraps :
    (scenarioA 0).bind (fun s =>
      (snd_pcm_hw_params_set_buffer_time_near s 100000).map
        (fun r => ((refBuffer s).map AudioBuffer.frequency, r.2.1, r.1.buffer_size)))
      = some (some 48000, 0, 505) ∧
    (100000 * 48000 / 1000000 : Int) = 4800 ∧
    (100000 * 48000 % 2 ^ 32 / 1000000 : Int) = 505 := by
  refine ⟨by decide, by decide, by decide⟩

/-- When the frequency of the reference buffer is not 0 and `buffer_size * 1000000` fits in
`int`, `snd_pcm_hw_params_set_buffer_time_near` called with 0 changes nothing and writes
back the quotient `buffer_size * 1000000 / frequency`, as
`snd_pcm_hw_params_get_buffer_time_max` does. -/
theorem set_buffer_time_near_zero_of_fits (s : Pcm) (src : AudioSource) (buffer : AudioBuffer)
    (rest : List AudioBuffer)
    (hsrc : s.sourceAlsa = some src) (hq : src.buffer_queue = buffer :: rest)
    (hf : buffer.frequency ≠ 0) (hfit : fitsInt (s.buffer_size * 1000000)) :
    snd_pcm_hw_params_set_buffer_time_near s 0
      = some (s, 0, Int.tdiv (s.buffer_size * 1000000) buffer.frequency) ∧
    snd_pcm_hw_params_get_buffer_time_max s
      = some (s, 0, Int.tdiv (s.buffer_size * 1000000) buffer.frequency) := by
  constructor
  · simp [snd_pcm_hw_params_set_buffer_time_near, hsrc, hq, hf, hfit]
  · simp [snd_pcm_hw_params_get_buffer_time_max, hsrc, hq, hf, hfit]

/-- Claim C14, the code at the failing input: in Scenario A before any write (capacity 4096,
the value at program start, frequency 48000) the product `buffer_size * 1000000` is
4096000000, outside the range of `int`, so the value
`snd_pcm_hw_params_set_buffer_time_near` writes back when called with 0 is undefined, and so
is the one `snd_pcm_hw_params_get_buffer_time_max` writes; the mathematical value is 85333.
On the device just opened, whose frequency is 0, the call divides by zero. -/
theorem buffer_time_default_overflows :
    (scenarioA 0).map (fun s => (s.buffer_size, (refBuffer s).map AudioBuffer.frequency))
      = some (4096, some 48000) ∧
    (scenarioA 0).bind (fun s => snd_pcm_hw_params_set_buffer_time_near s 0) = none ∧
    (scenarioA 0).bind snd_pcm_hw_params_get_buffer_time_max = none ∧
    ¬ fitsInt (4096 * 1000000) ∧ Int.tdiv (4096 * 1000000) 48000 = 85333 ∧
    snd_pcm_hw_params_set_buffer_time_near opened 0 = none := by
  refine ⟨by decide, by decide, by decide, by decide, by decide, by decide⟩

theorem wait_loop_cons (t0 : Nat) (timeout : Int) (e : Sleep) (es : List Sleep) (s : Pcm) :
    snd_pcm_wait_loop t0 timeout (e :: es) s =
      if (nanosleep e s).is_exiting then
        some (nanosleep e s, some ((((nanosleep e s).detTimer - t0) / 1000000 : Nat) : Int))
      else
        match get_latency (nanosleep e s) with
        | none => none
        | some l =>
          if l ≥ (nanosleep e s).buffer_size ∧
              (timeout < 0 ∨ ((((nanosleep e s).detTimer - t0) / 1000000 : Nat) : Int) < timeout) then
            snd_pcm_wait_loop t0 timeout es (nanosleep e s)
          else
            some (nanosleep e s, some ((((nanosleep e s).detTimer - t0) / 1000000 : Nat) : Int)) := by
  rw [snd_pcm_wait_loop]

/-- Claim C13: after `snd_pcm_hw_params_set_buffer_size_near(v)`, which returns 0,
`snd_pcm_hw_params_get_buffer_size` writes exactly `v`, and `v` is the capacity every
operation uses: `snd_pcm_avail_update` returns `max 0 (v - latency)`,
`snd_pcm_mmap_begin` cuts a request down to that value, the wait loop of `snd_pcm_writei`
goes on exactly while `latency > v`, and `snd_pcm_wait` is ready at once when
`v - latency > 0` and polls otherwise. -/
theorem capacity_round_trip (s s1 : Pcm) (src : AudioSource) (v : Nat) (ret : Int)
    (hsrc : s.sourceAlsa = some src) (hq : src.buffer_queue ≠ [])
    (hwf : src.queue_index ≤ src.buffer_queue.length) (hx : s.is_exiting = false)
    (hset : snd_pcm_hw_params_set_buffer_size_near s v = (s1, ret)) :
    ret = 0 ∧ snd_pcm_hw_params_get_buffer_size s1 = (s1, 0, (v : Int)) ∧
    snd_pcm_avail_update s1
      = some (s1, max 0 ((v : Int) - (src.queueSize - src.getPosition))) ∧
    (∀ r : Nat, ∃ s2 res, snd_pcm_mmap_begin s1 r = some (s2, res) ∧
      (res.frames : Int) = min (r : Int) (max 0 ((v : Int) - (src.queueSize - src.getPosition)))) ∧
    (∀ rest : List Sleep, snd_pcm_writei_loop (Sleep.idle :: rest) s1
      = if src.queueSize - src.getPosition > (v : Int) then snd_pcm_writei_loop rest s1
        else some (s1, true)) ∧
    (∀ (sleeps : List Sleep) (timeout : Int), (v : Int) - (src.queueSize - src.getPosition) > 0 →
      snd_pcm_wait sleeps s1 timeout = some (s1, some 1)) ∧
    (∀ rest : List Sleep, (v : Int) - (src.queueSize - src.getPosition) ≤ 0 →
      snd_pcm_wait (Sleep.idle :: rest) s1 0 = some (s1, some 0)) := by
  simp only [snd_pcm_hw_params_set_buffer_size_near, Prod.mk.injEq] at hset
  obtain ⟨hs1, hret⟩ := hset
  have hsrc1 : s1.sourceAlsa = some src := by rw [← hs1]; exact hsrc
  have hb1 : s1.buffer_size = (v : Int) := by rw [← hs1]
  have hx1 : s1.is_exiting = false := by rw [← hs1]; exact hx
  have hl1 : get_latency s1 = some (src.queueSize - src.getPosition) := by
    simp [get_latency, hsrc1]
  have hidle : nanosleep Sleep.idle s1 = s1 := nanosleep_idle s1 src hsrc1 hwf
  refine ⟨hret.symm, by rw [snd_pcm_hw_params_get_buffer_size, hb1], ?_, ?_, ?_, ?_, ?_⟩
  · rw [avail_update_eq_max s1 src hsrc1, hb1]
  · intro r
    obtain ⟨s2, res, -, -, -, h1, -, -, h2, -⟩ := mmap_begin_effect s1 src r hsrc1 hq hwf
    exact ⟨s2, res, h1, by rw [h2, hb1]⟩
  · intro rest
    rw [writei_loop_cons, hidle, hx1, hl1, hb1]
    simp
  · intro sleeps timeout hpos
    have h1 : ¬ (s1.buffer_size - (src.queueSize - src.getPosition) ≤ 0) := by
      rw [hb1]; omega
    have h2 : s1.buffer_size - (src.queueSize - src.getPosition) > 0 := by
      rw [hb1]; omega
    simp only [snd_pcm_wait, hl1, h1, ↓reduceIte, h2]
  · intro rest hle
    have h1 : s1.buffer_size - (src.queueSize - src.getPosition) ≤ 0 := by
      rw [hb1]; exact hle
    have h2 : ¬ (s1.buffer_size - (src.queueSize - src.getPosition) > 0) := by
      rw [hb1]; omega
    simp only [snd_pcm_wait, hl1, h1, ↓reduceIte, wait_loop_cons, hidle, hx1]
    simp [hl1, h2]

/-- Claim C13, witness: on the device just opened, `set_buffer_size_near(1000)` and then
`get_buffer_size` writes 1000, 1000 frames are available and a request of 4096 is cut down
to 1000. -/
theorem capacity_round_trip_witness :
    ∃ s1, snd_pcm_hw_params_set_buffer_size_near opened 1000 = (s1, 0) ∧
      snd_pcm_hw_params_get_buffer_size s1 = (s1, 0, 1000) ∧
      snd_pcm_avail_update s1 = some (s1, 1000) ∧
      ∃ s2 res, snd_pcm_mmap_begin s1 4096 = some (s2, res) ∧ res.frames = 1000 := by
  obtain ⟨s1, h1⟩ : ∃ s1, snd_pcm_hw_params_set_buffer_size_near opened 1000 = (s1, 0) :=
    ⟨_, rfl⟩
  obtain ⟨-, h2, h3, h4, -⟩ := capacity_round_trip opened s1
    ⟨1, [⟨1, .SAMPLE_FMT_U8, 0, 0, 0, 0, 0, 0, []⟩], 0, .SOURCE_STREAMING, .SOURCE_STOPPED⟩
    1000 0 rfl (by simp) (by decide) rfl h1
  obtain ⟨s2, res, h5, h6⟩ := h4 4096
  refine ⟨s1, h1, h2, ?_, s2, res, h5, ?_⟩
  · rw [h3]; rfl
  · have h7 : min ((4096 : Nat) : Int)
        (max 0 (((1000 : Nat) : Int) - (AudioSource.queueSize
          ⟨1, [⟨1, .SAMPLE_FMT_U8, 0, 0, 0, 0, 0, 0, []⟩], 0, .SOURCE_STREAMING, .SOURCE_STOPPED⟩
          - AudioSource.getPosition
          ⟨1, [⟨1, .SAMPLE_FMT_U8, 0, 0, 0, 0, 0, 0, []⟩], 0, .SOURCE_STREAMING, .SOURCE_STOPPED⟩)))
        = 1000 := by decide
    rw [h7] at h6
    exact_mod_cast h6

theorem sleepThrough_append (l1 l2 : List Sleep) (s : Pcm) :
    sleepThrough (l1 ++ l2) s = sleepThrough l2 (sleepThrough l1 s) := by
  induction l1 generalizing s with
  | nil => rfl
  | cons e es ih => simp [sleepThrough, ih]

theorem sleepThrough_source (l : List Sleep) :
    ∀ (s : Pcm) (src : AudioSource), s.sourceAlsa = some src →
      ∃ src1, (sleepThrough l s).sourceAlsa = some src1 ∧
        src1.buffer_queue = src.buffer_queue := by
  induction l with
  | nil => intro s src h; exact ⟨src, h, rfl⟩
  | cons e es ih =>
    intro s src h
    have hn : (nanosleep e s).sourceAlsa = some (src.consume e.advance) := by
      simp [nanosleep, h]
    obtain ⟨src1, h1, h2⟩ := ih _ _ hn
    exact ⟨src1, h1, h2⟩

/-- One step of the loop of `snd_pcm_wait` in terms of its condition. -/
theorem wait_loop_step (t0 : Nat) (timeout : Int) (e : Sleep) (es : List Sleep) (s : Pcm)
    (src : AudioSource) (hsrc : s.sourceAlsa = some src) :
    snd_pcm_wait_loop t0 timeout (e :: es) s =
      if snd_pcm_wait_goes_on t0 timeout (nanosleep e s) then
        snd_pcm_wait_loop t0 timeout es (nanosleep e s)
      else
        some (nanosleep e s, some ((((nanosleep e s).detTimer - t0) / 1000000 : Nat) : Int)) := by
  have hn : (nanosleep e s).sourceAlsa = some (src.consume e.advance) := by
    simp [nanosleep, hsrc]
  have hl : get_latency (nanosleep e s)
      = some ((src.consume e.advance).queueSize - (src.consume e.advance).getPosition) := by
    simp [get_latency, hn]
  rw [wait_loop_cons, snd_pcm_wait_goes_on, hl]
  cases hx : (nanosleep e s).is_exiting with
  | true => simp
  | false =>
    simp only [Bool.false_eq_true, ↓reduceIte, Bool.not_false, Bool.true_and,
      Bool.and_eq_true, Bool.or_eq_true, decide_eq_true_eq]

/-- The loop of `snd_pcm_wait` is still running after sleeps through which it goes on. -/
theorem wait_loop_waits (t0 : Nat) (timeout : Int) (l : List Sleep) :
    ∀ (s : Pcm) (src : AudioSource), s.sourceAlsa = some src →
      waitsThrough t0 timeout l s = true →
      snd_pcm_wait_loop t0 timeout l s = some (sleepThrough l s, none) := by
  induction l with
  | nil => intro s src _ _; rfl
  | cons e es ih =>
    intro s src hsrc hw
    simp only [waitsThrough, Bool.and_eq_true] at hw
    have hn : (nanosleep e s).sourceAlsa = some (src.consume e.advance) := by
      simp [nanosleep, hsrc]
    rw [wait_loop_step t0 timeout e es s src hsrc, if_pos hw.1, ih _ _ hn hw.2]
    rfl

/-- The loop of `snd_pcm_wait` is left after the first sleep at which its condition fails. -/
theorem wait_loop_stops (t0 : Nat) (timeout : Int) (pre : List Sleep) (e : Sleep)
    (post : List Sleep) :
    ∀ (s : Pcm) (src : AudioSource), s.sourceAlsa = some src →
      waitsThrough t0 timeout pre s = true →
      snd_pcm_wait_goes_on t0 timeout (sleepThrough (pre ++ [e]) s) = false →
      snd_pcm_wait_loop t0 timeout (pre ++ e :: post) s
        = some (sleepThrough (pre ++ [e]) s,
            some ((((sleepThrough (pre ++ [e]) s).detTimer - t0) / 1000000 : Nat) : Int)) := by
  induction pre with
  | nil =>
    intro s src hsrc _ hstop
    simp only [List.nil_append, sleepThrough] at hstop ⊢
    rw [wait_loop_step t0 timeout e post s src hsrc, hstop]
    simp
  | cons x xs ih =>
    intro s src hsrc hw hstop
    simp only [waitsThrough, Bool.and_eq_true] at hw
    have hn : (nanosleep x s).sourceAlsa = some (src.consume x.advance) := by
      simp [nanosleep, hsrc]
    simp only [List.cons_append, sleepThrough] at hstop ⊢
    rw [wait_loop_step t0 timeout x _ s src hsrc, if_pos hw.1]
    exact ih _ _ hn hw.2 hstop

/-- When the condition of the loop of `snd_pcm_wait` fails: the shutdown signal is set, or
frames are available, or the timeout is not negative and has elapsed. -/
theorem wait_goes_on_false_iff (t0 : Nat) (timeout : Int) (st : Pcm) (l : Int)
    (hl : get_latency st = some l) :
    snd_pcm_wait_goes_on t0 timeout st = false ↔
      st.is_exiting = true ∨ l < st.buffer_size ∨
        (0 ≤ timeout ∧ timeout ≤ (((st.detTimer - t0) / 1000000 : Nat) : Int)) := by
  simp only [snd_pcm_wait_goes_on, hl]
  cases hx : st.is_exiting with
  | true => simp
  | false =>
    simp only [Bool.not_false, Bool.true_and, Bool.and_eq_false_iff, Bool.or_eq_false_iff,
      decide_eq_false_iff_not, Bool.false_eq_true, false_or]
    constructor
    · rintro (h | ⟨h1, h2⟩)
      · left; omega
      · right; omega
    · rintro (h | ⟨h1, h2⟩)
      · left; omega
      · right; constructor <;> omega

/-- Claim C15: `snd_pcm_wait` returns 1 without sleeping when frames are available on entry.
When none are, it polls: it has not returned after sleeps through which its loop condition
holds, and at the first sleep after which the condition fails it returns 1 exactly when
frames are available then, and 0 otherwise, which happens only when the shutdown signal is
set or a timeout that is not negative has elapsed. The loop condition fails exactly when
the shutdown signal is set, frames are available, or the timeout is not negative and has
elapsed; with a negative timeout, exactly when the shutdown signal is set or frames are
available. -/
theorem wait_ready_or_timeout (s : Pcm) (src : AudioSource) (timeout : Int)
    (hsrc : s.sourceAlsa = some src) :
    (∀ sleeps : List Sleep, s.buffer_size - (src.queueSize - src.getPosition) > 0 →
      snd_pcm_wait sleeps s timeout = some (s, some 1)) ∧
    (∀ pre : List Sleep, s.buffer_size - (src.queueSize - src.getPosition) ≤ 0 →
      waitsThrough s.detTimer timeout pre s = true →
      snd_pcm_wait pre s timeout = some (sleepThrough pre s, none)) ∧
    (∀ (pre : List Sleep) (e : Sleep) (post : List Sleep) (s1 : Pcm),
      s.buffer_size - (src.queueSize - src.getPosition) ≤ 0 →
      waitsThrough s.detTimer timeout pre s = true →
      sleepThrough (pre ++ [e]) s = s1 →
      snd_pcm_wait_goes_on s.detTimer timeout s1 = false →
      ∃ l1, get_latency s1 = some l1 ∧
        snd_pcm_wait (pre ++ e :: post) s timeout
          = some (s1, some (if s1.buffer_size - l1 > 0 then 1 else 0)) ∧
        (s1.buffer_size - l1 ≤ 0 → s1.is_exiting = true ∨
          (0 ≤ timeout ∧ timeout ≤ (((s1.detTimer - s.detTimer) / 1000000 : Nat) : Int)))) ∧
    (∀ (st : Pcm) (l : Int), get_latency st = some l →
      (snd_pcm_wait_goes_on s.detTimer timeout st = false ↔
        st.is_exiting = true ∨ l < st.buffer_size ∨
          (0 ≤ timeout ∧ timeout ≤ (((st.detTimer - s.detTimer) / 1000000 : Nat) : Int)))) ∧
    (∀ (st : Pcm) (l : Int), get_latency st = some l → timeout < 0 →
      (snd_pcm_wait_goes_on s.detTimer timeout st = false ↔
        st.is_exiting = true ∨ l < st.buffer_size)) := by
  have hl : get_latency s = some (src.queueSize - src.getPosition) := by
    simp [get_latency, hsrc]
  refine ⟨?_, ?_, ?_, ?_, ?_⟩
  · intro sleeps hpos
    have h1 : ¬ (s.buffer_size - (src.queueSize - src.getPosition) ≤ 0) := by omega
    simp only [snd_pcm_wait, hl, h1, ↓reduceIte, hpos]
  · intro pre hle hw
    simp only [snd_pcm_wait, hl, hle, ↓reduceIte, wait_loop_waits _ _ pre s src hsrc hw]
  · intro pre e post s1 hle hw hs1 hstop
    obtain ⟨src1, hsrc1, -⟩ := sleepThrough_source (pre ++ [e]) s src hsrc
    rw [hs1] at hsrc1
    have hl1 : get_latency s1 = some (src1.queueSize - src1.getPosition) := by
      simp [get_latency, hsrc1]
    refine ⟨_, hl1, ?_, ?_⟩
    · have hloop := wait_loop_stops s.detTimer timeout pre e post s src hsrc hw
        (by rw [hs1]; exact hstop)
      rw [hs1] at hloop
      simp only [snd_pcm_wait, hl, hle, ↓reduceIte, hloop, hl1]
      split <;> rfl
    · intro hno
      rcases (wait_goes_on_false_iff s.detTimer timeout s1 _ hl1).mp hstop with h | h | h
      · exact Or.inl h
      · omega
      · exact Or.inr h
  · intro st l hst
    exact wait_goes_on_false_iff s.detTimer timeout st l hst
  · intro st l hst hneg
    rw [wait_goes_on_false_iff s.detTimer timeout st l hst]
    constructor
    · rintro (h | h | h)
      · exact Or.inl h
      · exact Or.inr h
      · omega
    · rintro (h | h)
      · exact Or.inl h
      · exact Or.inr (Or.inl h)

/-- Claim C15, witness: on the device just opened 4096 frames are available and
`snd_pcm_wait` returns 1 at once; with capacity 0 and a timeout of 2 ms it returns 0 after a
sleep during which 3 ms of virtual time pass, and with a negative timeout it is still
polling after that sleep and returns 0 when the shutdown signal is raised. -/
theorem wait_ready_or_timeout_witness :
    snd_pcm_wait [Sleep.idle] opened 2 = some (opened, some 1) ∧
    snd_pcm_wait [⟨0, false, 3000000⟩] openedFull 2
      = some (sleepThrough [⟨0, false, 3000000⟩] openedFull, some 0) ∧
    snd_pcm_wait [⟨0, false, 3000000⟩] openedFull (-1)
      = some (sleepThrough [⟨0, false, 3000000⟩] openedFull, none) ∧
    snd_pcm_wait [⟨0, false, 3000000⟩, ⟨0, true, 0⟩] openedFull (-1)
      = some (sleepThrough [⟨0, false, 3000000⟩, ⟨0, true, 0⟩] openedFull, some 0) := by
  have hsrc : opened.sourceAlsa = some
      ⟨1, [⟨1, .SAMPLE_FMT_U8, 0, 0, 0, 0, 0, 0, []⟩], 0, .SOURCE_STREAMING, .SOURCE_STOPPED⟩ :=
    rfl
  have hsrcF : openedFull.sourceAlsa = some
      ⟨1, [⟨1, .SAMPLE_FMT_U8, 0, 0, 0, 0, 0, 0, []⟩], 0, .SOURCE_STREAMING, .SOURCE_STOPPED⟩ :=
    rfl
  refine ⟨(wait_ready_or_timeout opened _ 2 hsrc).1 [Sleep.idle] (by decide), ?_, ?_, ?_⟩
  · obtain ⟨l1, h1, h2, -⟩ := (wait_ready_or_timeout openedFull _ 2 hsrcF).2.2.1 []
      ⟨0, false, 3000000⟩ [] _ (by decide) rfl rfl (by decide)
    have hl : l1 = 0 := by
      have : get_latency (sleepThrough ([] ++ [⟨0, false, 3000000⟩]) openedFull) = some 0 := by
        decide
      rw [this] at h1
      exact (Option.some.inj h1).symm
    subst hl
    exact h2
  · exact (wait_ready_or_timeout openedFull _ (-1) hsrcF).2.1 [⟨0, false, 3000000⟩]
      (by decide) (by decide)
  · obtain ⟨l1, h1, h2, -⟩ := (wait_ready_or_timeout openedFull _ (-1) hsrcF).2.2.1
      [⟨0, false, 3000000⟩] ⟨0, true, 0⟩ [] _ (by decide) (by decide) rfl (by decide)
    have hl : l1 = 0 := by
      have : get_latency (sleepThrough ([⟨0, false, 3000000⟩] ++ [⟨0, true, 0⟩]) openedFull)
          = some 0 := by decide
      rw [this] at h1
      exact (Option.some.inj h1).symm
    subst hl
    exact h2

theorem sleepThrough_frame (l : List Sleep) :
    ∀ s : Pcm, (sleepThrough l s).audiocontext = s.audiocontext ∧
      (sleepThrough l s).buffer_size = s.buffer_size ∧
      (sleepThrough l s).periods = s.periods ∧ queueOf (sleepThrough l s) = queueOf s := by
  induction l with
  | nil => intro s; exact ⟨rfl, rfl, rfl, rfl⟩
  | cons e es ih =>
    intro s
    obtain ⟨h1, h2, h3, h4⟩ := ih (nanosleep e s)
    exact ⟨h1, h2, h3, by rw [sleepThrough, h4, queueOf_nanosleep]⟩

/-- The state in which the loop of `snd_pcm_writei` is left, or is when the sleeps run out,
is the state after the other threads have acted through the sleeps gone through: the
calling thread changes nothing. -/
theorem writei_loop_is_sleepThrough (sleeps : List Sleep) :
    ∀ (s s1 : Pcm) (b : Bool), snd_pcm_writei_loop sleeps s = some (s1, b) →
      ∃ k, k ≤ sleeps.length ∧ s1 = sleepThrough (sleeps.take k) s := by
  induction sleeps with
  | nil =>
    intro s s1 b h
    simp [snd_pcm_writei_loop] at h
    exact ⟨0, le_refl _, h.1.symm⟩
  | cons e es ih =>
    intro s s1 b h
    rw [writei_loop_cons] at h
    split at h
    · simp at h
      exact ⟨1, by simp, by rw [← h.1]; rfl⟩
    · split at h
      · simp at h
      · split at h
        · obtain ⟨k, hk, hs⟩ := ih _ _ _ h
          exact ⟨k + 1, by simpa using hk, by rw [hs]; rfl⟩
        · simp at h
          exact ⟨1, by simp, by rw [← h.1]; rfl⟩

/-- Claim C16: if the shutdown signal is set when `snd_pcm_writei` leaves its wait loop, the
call returns 0 and the state is the one in which the loop was left, which is the state the
other threads produced during the sleeps: the registry holds the same buffers, the queue is
the same, the capacity is the same, and when the mixing stage did not move during the
sleeps the source, its cursor included, is the same. -/
theorem writei_shutdown_returns_zero (sleeps : List Sleep) (s s1 : Pcm) (buffer : Nat → Nat)
    (n : Nat) (hloop : snd_pcm_writei_loop sleeps s = some (s1, true))
    (hx : s1.is_exiting = true) :
    snd_pcm_writei sleeps s buffer n = some (s1, some 0) ∧
    (∃ k, k ≤ sleeps.length ∧ s1 = sleepThrough (sleeps.take k) s) ∧
    s1.audiocontext = s.audiocontext ∧ queueOf s1 = queueOf s ∧
    s1.buffer_size = s.buffer_size ∧
    (∀ src : AudioSource, s.sourceAlsa = some src →
      src.queue_index ≤ src.buffer_queue.length → (∀ e ∈ sleeps, e.advance = 0) →
      s1.sourceAlsa = some src) := by
  obtain ⟨k, hk, hs1⟩ := writei_loop_is_sleepThrough sleeps s s1 true hloop
  obtain ⟨h1, h2, -, h4⟩ := sleepThrough_frame (sleeps.take k) s
  refine ⟨by simp [snd_pcm_writei, hloop, hx], ⟨k, hk, hs1⟩, by rw [hs1, h1], by rw [hs1, h4],
    by rw [hs1, h2], ?_⟩
  intro src hsrc hwf hadv
  exact writei_loop_still sleeps s s1 true src hsrc hwf hadv hloop

/-- Claim C16, witness: on the device just opened, a write of 5 frames during whose first
sleep the shutdown signal is raised returns 0 and leaves the queue with its single
placeholder and the registry with its single buffer. -/
theorem writei_shutdown_returns_zero_witness :
    snd_pcm_writei [⟨0, true, 0⟩] opened silence 5 = some (nanosleep ⟨0, true, 0⟩ opened, some 0) ∧
    (nanosleep ⟨0, true, 0⟩ opened).audiocontext = opened.audiocontext ∧
    queueOf (nanosleep ⟨0, true, 0⟩ opened) = queueOf opened ∧
    (nanosleep ⟨0, true, 0⟩ opened).sourceAlsa = opened.sourceAlsa := by
  obtain ⟨h1, -, h3, h4, -, h6⟩ := writei_shutdown_returns_zero [⟨0, true, 0⟩] opened
    (nanosleep ⟨0, true, 0⟩ opened) silence 5 rfl rfl
  exact ⟨h1, h3, h4, h6 _ rfl (by decide) (by decide)⟩

theorem tame_refl (s : Pcm) : Tame s s := by
  unfold Tame
  refine ⟨rfl, ?_⟩
  cases s.sourceAlsa with
  | none => trivial
  | some src => exact ⟨rfl, Or.inl rfl, rfl, fun h0 h1 => ⟨h0, h1, le_refl _⟩⟩

theorem tame_trans (s s1 s2 : Pcm) (h1 : Tame s s1) (h2 : Tame s1 s2) : Tame s s2 := by
  unfold Tame at h1 h2 ⊢
  refine ⟨by rw [h2.1, h1.1], ?_⟩
  obtain ⟨-, h1⟩ := h1
  obtain ⟨-, h2⟩ := h2
  cases ha : s.sourceAlsa with
  | none =>
    cases hb : s1.sourceAlsa with
    | none =>
      cases hc : s2.sourceAlsa with
      | none => trivial
      | some c => simp [hb, hc] at h2
    | some b => simp [ha, hb] at h1
  | some a =>
    cases hb : s1.sourceAlsa with
    | none => simp [ha, hb] at h1
    | some b =>
      cases hc : s2.sourceAlsa with
      | none => simp [hb, hc] at h2
      | some c =>
        simp only [ha, hb] at h1
        simp only [hb, hc] at h2
        obtain ⟨a1, a3, a4, a5⟩ := h1
        obtain ⟨b1, b3, b4, b5⟩ := h2
        refine ⟨by rw [b1, a1], ?_, by rw [b4, a4], ?_⟩
        · rcases b3 with b3 | b3
          · rcases a3 with a3 | a3
            · exact Or.inl (by rw [b3, a3])
            · exact Or.inr (by rw [b3, a3])
          · exact Or.inr b3
        · intro h0 hl
          obtain ⟨x1, x2, x3⟩ := a5 h0 hl
          obtain ⟨y1, y2, y3⟩ := b5 x1 x2
          exact ⟨y1, y2, le_trans x3 y3⟩

theorem tame_of_source (s s1 : Pcm) (src src1 : AudioSource)
    (hctx : s1.audiocontext = s.audiocontext)
    (hsrc : s.sourceAlsa = some src) (hsrc1 : s1.sourceAlsa = some src1)
    (hid : src1.id = src.id)
    (hst : src1.state = src.state ∨ src1.state = SourceState.SOURCE_PLAYING)
    (hlen : src1.buffer_queue.length = src.buffer_queue.length)
    (hcur : 0 ≤ src.queue_index → src.queue_index ≤ src.buffer_queue.length →
      0 ≤ src1.queue_index ∧ src1.queue_index ≤ src1.buffer_queue.length ∧
        src.queue_index ≤ src1.queue_index) : Tame s s1 := by
  unfold Tame
  simp only [hsrc, hsrc1]
  exact ⟨hctx, hid, hst, hlen, hcur⟩

theorem tame_source (s s1 : Pcm) (src : AudioSource) (h : Tame s s1)
    (hsrc : s.sourceAlsa = some src) :
    s1.audiocontext = s.audiocontext ∧ ∃ src1, s1.sourceAlsa = some src1 ∧
      src1.id = src.id ∧
      (src1.state = src.state ∨ src1.state = SourceState.SOURCE_PLAYING) ∧
      src1.buffer_queue.length = src.buffer_queue.length ∧
      (0 ≤ src.queue_index → src.queue_index ≤ src.buffer_queue.length →
        0 ≤ src1.queue_index ∧ src1.queue_index ≤ src1.buffer_queue.length ∧
          src.queue_index ≤ src1.queue_index) := by
  unfold Tame at h
  refine ⟨h.1, ?_⟩
  obtain ⟨-, h⟩ := h
  cases hb : s1.sourceAlsa with
  | none => simp [hsrc, hb] at h
  | some b =>
    simp only [hsrc, hb] at h
    exact ⟨b, rfl, h⟩

theorem tame_nanosleep (e : Sleep) (s : Pcm) : Tame s (nanosleep e s) := by
  cases hs : s.sourceAlsa with
  | none =>
    unfold Tame
    simp [nanosleep, hs]
  | some src =>
    refine tame_of_source s _ src (src.consume e.advance) rfl hs (by simp [nanosleep, hs])
      rfl (Or.inl rfl) rfl ?_
    intro h0 h1
    simp only [AudioSource.consume]
    omega

theorem tame_sleepThrough (l : List Sleep) : ∀ s : Pcm, Tame s (sleepThrough l s) := by
  induction l with
  | nil => intro s; exact tame_refl s
  | cons e es ih =>
    intro s
    exact tame_trans _ _ _ (tame_nanosleep e s) (ih _)

theorem wait_loop_is_sleepThrough (t0 : Nat) (timeout : Int) (sleeps : List Sleep) :
    ∀ (s s1 : Pcm) (d : Option Int), snd_pcm_wait_loop t0 timeout sleeps s = some (s1, d) →
      ∃ k, k ≤ sleeps.length ∧ s1 = sleepThrough (sleeps.take k) s := by
  induction sleeps with
  | nil =>
    intro s s1 d h
    simp [snd_pcm_wait_loop] at h
    exact ⟨0, le_refl _, h.1.symm⟩
  | cons e es ih =>
    intro s s1 d h
    rw [wait_loop_cons] at h
    split at h
    · simp at h
      exact ⟨1, by simp, by rw [← h.1]; rfl⟩
    · split at h
      · simp at h
      · split at h
        · obtain ⟨k, hk, hs⟩ := ih _ _ _ h
          exact ⟨k + 1, by simpa using hk, by rw [hs]; rfl⟩
        · simp at h
          exact ⟨1, by simp, by rw [← h.1]; rfl⟩

theorem wait_is_sleepThrough (sleeps : List Sleep) (s s1 : Pcm) (timeout : Int)
    (v : Option Int) (h : snd_pcm_wait sleeps s timeout = some (s1, v)) :
    ∃ k, k ≤ sleeps.length ∧ s1 = sleepThrough (sleeps.take k) s := by
  unfold snd_pcm_wait at h
  split at h
  · simp at h
  · rename_i l0 hl0
    simp only at h
    split at h
    · simp at h
    · rename_i s2 hafter
      simp at h
      obtain ⟨rfl, -⟩ := h
      split at hafter
      · exact wait_loop_is_sleepThrough _ _ _ _ _ _ hafter
      · simp at hafter
    · rename_i s2 d hafter
      have hs2 : ∃ k, k ≤ sleeps.length ∧ s2 = sleepThrough (sleeps.take k) s := by
        split at hafter
        · exact wait_loop_is_sleepThrough _ _ _ _ _ _ hafter
        · simp at hafter
          exact ⟨0, Nat.zero_le _, by rw [← hafter.1]; rfl⟩
      split at h
      · simp at h
      · split at h <;> simp at h <;> (obtain ⟨rfl, -⟩ := h; exact hs2)

theorem tame_of_eq (s s1 : Pcm) (hctx : s1.audiocontext = s.audiocontext)
    (hsrc : s1.sourceAlsa = s.sourceAlsa) : Tame s s1 := by
  unfold Tame
  refine ⟨hctx, ?_⟩
  rw [hsrc]
  cases s.sourceAlsa with
  | none => trivial
  | some src => exact ⟨rfl, Or.inl rfl, rfl, fun h0 h1 => ⟨h0, h1, le_refl _⟩⟩

/-- Replacing the reference buffer, with or without starting the source, is tame. -/
theorem tame_set_head (s s1 : Pcm) (src src1 : AudioSource) (b b1 : AudioBuffer)
    (rest : List AudioBuffer) (hctx : s1.audiocontext = s.audiocontext)
    (hsrc : s.sourceAlsa = some src) (hq : src.buffer_queue = b :: rest)
    (hsrc1 : s1.sourceAlsa = some src1) (hq1 : src1.buffer_queue = b1 :: rest)
    (hid : src1.id = src.id) (hi : src1.queue_index = src.queue_index)
    (hst : src1.state = src.state ∨ src1.state = SourceState.SOURCE_PLAYING) : Tame s s1 := by
  refine tame_of_source s s1 src src1 hctx hsrc hsrc1 hid hst (by rw [hq1, hq]; rfl) ?_
  intro h0 h1
  rw [hi, hq1]
  rw [hq] at h1
  exact ⟨h0, h1, le_refl _⟩

/-- Every event other than `snd_pcm_open`, `snd_pcm_writei` and `snd_pcm_mmap_begin` is
tame. -/
theorem tame_step (op : Op) (s s1 : Pcm) (hop : op.queues = false)
    (hs : op.step s = some s1) : Tame s s1 := by
  cases op with
  | snd_pcm_open stream => simp [Op.queues] at hop
  | snd_pcm_writei sleeps buffer size => simp [Op.queues] at hop
  | snd_pcm_mmap_begin frames => simp [Op.queues] at hop
  | snd_pcm_close => simp [Op.step, snd_pcm_close] at hs; rw [← hs]; exact tame_refl s
  | snd_pcm_nonblock nonblock =>
    simp [Op.step, snd_pcm_nonblock] at hs; rw [← hs]; exact tame_refl s
  | snd_pcm_start =>
    cases hsrc : s.sourceAlsa with
    | none => simp [Op.step, snd_pcm_start, hsrc] at hs
    | some src =>
      simp [Op.step, snd_pcm_start, hsrc] at hs
      rw [← hs]
      exact tame_of_source s _ src _ rfl hsrc rfl rfl (Or.inr rfl) rfl
        (fun h0 h1 => ⟨h0, h1, le_refl _⟩)
  | snd_pcm_resume =>
    cases hsrc : s.sourceAlsa with
    | none => simp [Op.step, snd_pcm_resume, hsrc] at hs
    | some src =>
      simp [Op.step, snd_pcm_resume, hsrc] at hs
      rw [← hs]
      exact tame_of_source s _ src _ rfl hsrc rfl rfl (Or.inr rfl) rfl
        (fun h0 h1 => ⟨h0, h1, le_refl _⟩)
  | snd_pcm_wait sleeps timeout =>
    simp only [Op.step, Option.map_eq_some'] at hs
    obtain ⟨⟨s2, v⟩, hw, rfl⟩ := hs
    obtain ⟨k, -, hk⟩ := wait_is_sleepThrough sleeps s s2 timeout v hw
    rw [show (s2, v).1 = s2 from rfl, hk]
    exact tame_sleepThrough _ s
  | snd_pcm_delay =>
    simp only [Op.step, snd_pcm_delay] at hs
    cases hl : get_latency s with
    | none => simp [hl] at hs
    | some l => simp [hl] at hs; rw [← hs]; exact tame_refl s
  | snd_pcm_avail_update =>
    simp only [Op.step, snd_pcm_avail_update] at hs
    cases hl : get_latency s with
    | none => simp [hl] at hs
    | some l => simp [hl] at hs; rw [← hs]; exact tame_refl s
  | snd_pcm_hw_params =>
    cases hsrc : s.sourceAlsa with
    | none => simp [Op.step, snd_pcm_hw_params, hsrc] at hs
    | some src =>
      cases hq : src.buffer_queue with
      | nil => simp [Op.step, snd_pcm_hw_params, hsrc, hq] at hs
      | cons b rest =>
        simp only [Op.step, snd_pcm_hw_params, hsrc, hq, Option.map_some',
          Option.some.injEq] at hs
        rw [← hs]
        exact tame_set_head s _ src _ b _ rest rfl hsrc hq rfl rfl rfl rfl (Or.inr rfl)
  | snd_pcm_sw_params_current =>
    simp [Op.step, snd_pcm_sw_params_current] at hs; rw [← hs]; exact tame_refl s
  | snd_pcm_sw_params =>
    cases hsrc : s.sourceAlsa with
    | none => simp [Op.step, snd_pcm_sw_params, hsrc] at hs
    | some src =>
      cases hq : src.buffer_queue with
      | nil => simp [Op.step, snd_pcm_sw_params, hsrc, hq] at hs
      | cons b rest =>
        simp only [Op.step, snd_pcm_sw_params, hsrc, hq, Option.map_some',
          Option.some.injEq] at hs
        rw [← hs]
        exact tame_set_head s _ src _ b _ rest rfl hsrc hq rfl rfl rfl rfl (Or.inr rfl)
  | snd_pcm_prepare => simp [Op.step, snd_pcm_prepare] at hs; rw [← hs]; exact tame_refl s
  | snd_pcm_readi size => simp [Op.step, snd_pcm_readi] at hs; rw [← hs]; exact tame_refl s
  | snd_pcm_mmap_commit offset frames =>
    simp [Op.step, snd_pcm_mmap_commit] at hs; rw [← hs]; exact tame_refl s
  | snd_pcm_hw_params_any =>
    simp [Op.step, snd_pcm_hw_params_any] at hs; rw [← hs]; exact tame_refl s
  | snd_pcm_hw_params_sizeof =>
    simp [Op.step, snd_pcm_hw_params_sizeof] at hs; rw [← hs]; exact tame_refl s
  | snd_pcm_hw_params_malloc =>
    simp [Op.step, snd_pcm_hw_params_malloc] at hs; rw [← hs]; exact tame_refl s
  | snd_pcm_hw_params_free =>
    simp [Op.step, snd_pcm_hw_params_free] at hs; rw [← hs]; exact tame_refl s
  | snd_pcm_hw_params_copy =>
    simp [Op.step, snd_pcm_hw_params_copy] at hs; rw [← hs]; exact tame_refl s
  | snd_pcm_hw_params_set_access access =>
    simp [Op.step, snd_pcm_hw_params_set_access] at hs; rw [← hs]; exact tame_refl s
  | snd_pcm_hw_params_set_format val =>
    cases hsrc : s.sourceAlsa with
    | none => simp [Op.step, snd_pcm_hw_params_set_format, hsrc] at hs
    | some src =>
      cases hq : src.buffer_queue with
      | nil => simp [Op.step, snd_pcm_hw_params_set_format, hsrc, hq] at hs
      | cons b rest =>
        simp only [Op.step, snd_pcm_hw_params_set_format, hsrc, hq] at hs
        have key : ∀ f, Tame s { s with sourceAlsa := some { src with
            buffer_queue := { b with format := f } :: rest } } :=
          fun f => tame_set_head s _ src _ b _ rest rfl hsrc hq rfl rfl rfl rfl (Or.inl rfl)
        split at hs
        · simp at hs; rw [← hs]; exact key _
        · split at hs
          · simp at hs; rw [← hs]; exact key _
          · split at hs
            · simp at hs; rw [← hs]; exact key _
            · split at hs
              · simp at hs; rw [← hs]; exact key _
              · simp at hs; rw [← hs]; exact tame_refl s
  | snd_pcm_hw_params_get_channels =>
    simp only [Op.step, snd_pcm_hw_params_get_channels] at hs
    cases hsrc : s.sourceAlsa with
    | none => simp [hsrc] at hs
    | some src =>
      cases hq : src.buffer_queue with
      | nil => simp [hsrc, hq] at hs
      | cons b rest => simp [hsrc, hq] at hs; rw [← hs]; exact tame_refl s
  | snd_pcm_hw_params_get_channels_max =>
    simp [Op.step, snd_pcm_hw_params_get_channels_max] at hs; rw [← hs]; exact tame_refl s
  | snd_pcm_hw_params_set_channels val =>
    cases hsrc : s.sourceAlsa with
    | none => simp [Op.step, snd_pcm_hw_params_set_channels, hsrc] at hs
    | some src =>
      cases hq : src.buffer_queue with
      | nil => simp [Op.step, snd_pcm_hw_params_set_channels, hsrc, hq] at hs
      | cons b rest =>
        simp only [Op.step, snd_pcm_hw_params_set_channels, hsrc, hq, Option.map_some',
          Option.some.injEq] at hs
        rw [← hs]
        exact tame_set_head s _ src _ b _ rest rfl hsrc hq rfl rfl rfl rfl (Or.inl rfl)
  | snd_pcm_hw_params_set_rate val dir =>
    cases hsrc : s.sourceAlsa with
    | none => simp [Op.step, snd_pcm_hw_params_set_rate, hsrc] at hs
    | some src =>
      cases hq : src.buffer_queue with
      | nil => simp [Op.step, snd_pcm_hw_params_set_rate, hsrc, hq] at hs
      | cons b rest =>
        simp only [Op.step, snd_pcm_hw_params_set_rate, hsrc, hq, Option.map_some',
          Option.some.injEq] at hs
        rw [← hs]
        exact tame_set_head s _ src _ b _ rest rfl hsrc hq rfl rfl rfl rfl (Or.inl rfl)
  | snd_pcm_hw_params_set_rate_near val =>
    cases hsrc : s.sourceAlsa with
    | none => simp [Op.step, snd_pcm_hw_params_set_rate_near, hsrc] at hs
    | some src =>
      cases hq : src.buffer_queue with
      | nil => simp [Op.step, snd_pcm_hw_params_set_rate_near, hsrc, hq] at hs
      | cons b rest =>
        simp only [Op.step, snd_pcm_hw_params_set_rate_near, hsrc, hq, Option.map_some',
          Option.some.injEq] at hs
        rw [← hs]
        exact tame_set_head s _ src _ b _ rest rfl hsrc hq rfl rfl rfl rfl (Or.inl rfl)
  | snd_pcm_hw_params_set_rate_resample val =>
    simp [Op.step, snd_pcm_hw_params_set_rate_resample] at hs; rw [← hs]; exact tame_refl s
  | snd_pcm_hw_params_get_period_size =>
    simp only [Op.step, snd_pcm_hw_params_get_period_size] at hs
    split at hs
    · simp at hs
    · simp at hs; rw [← hs]; exact tame_refl s
  | snd_pcm_hw_params_get_period_time_min =>
    simp [Op.step, snd_pcm_hw_params_get_period_time_min] at hs; rw [← hs]; exact tame_refl s
  | snd_pcm_hw_params_set_period_size_near val =>
    simp [Op.step, snd_pcm_hw_params_set_period_size_near] at hs; rw [← hs]; exact tame_refl s
  | snd_pcm_hw_params_set_periods_near val =>
    simp [Op.step, snd_pcm_hw_params_set_periods_near] at hs
    rw [← hs]
    exact tame_of_eq s _ rfl rfl
  | snd_pcm_hw_params_get_buffer_size =>
    simp [Op.step, snd_pcm_hw_params_get_buffer_size] at hs; rw [← hs]; exact tame_refl s
  | snd_pcm_hw_params_get_buffer_time_max =>
    simp only [Op.step, snd_pcm_hw_params_get_buffer_time_max] at hs
    cases hsrc : s.sourceAlsa with
    | none => simp [hsrc] at hs
    | some src =>
      cases hq : src.buffer_queue with
      | nil => simp [hsrc, hq] at hs
      | cons b rest =>
        simp only [hsrc, hq] at hs
        split at hs
        · simp at hs
        · split at hs
          · simp at hs
          · simp at hs; rw [← hs]; exact tame_refl s
  | snd_pcm_hw_params_set_buffer_size_near val =>
    simp [Op.step, snd_pcm_hw_params_set_buffer_size_near] at hs
    rw [← hs]
    exact tame_of_eq s _ rfl rfl
  | snd_pcm_hw_params_set_buffer_time_near val =>
    simp only [Op.step, snd_pcm_hw_params_set_buffer_time_near] at hs
    cases hsrc : s.sourceAlsa with
    | none => simp [hsrc] at hs
    | some src =>
      cases hq : src.buffer_queue with
      | nil => simp [hsrc, hq] at hs
      | cons b rest =>
        simp only [hsrc, hq] at hs
        split at hs
        · split at hs
          · simp at hs
          · split at hs
            · simp at hs
            · simp at hs; rw [← hs]; exact tame_refl s
        · split at hs
          · simp at hs
            rw [← hs]
            exact tame_of_eq s _ rfl hsrc.symm
          · simp at hs; rw [← hs]; exact tame_refl s
  | snd_pcm_hw_params_test_rate val dir =>
    simp [Op.step, snd_pcm_hw_params_test_rate] at hs; rw [← hs]; exact tame_refl s
  | snd_pcm_sw_params_sizeof =>
    simp [Op.step, snd_pcm_sw_params_sizeof] at hs; rw [← hs]; exact tame_refl s
  | snd_pcm_sw_params_set_start_threshold val =>
    simp [Op.step, snd_pcm_sw_params_set_start_threshold] at hs; rw [← hs]; exact tame_refl s
  | snd_pcm_sw_params_set_avail_min val =>
    simp [Op.step, snd_pcm_sw_params_set_avail_min] at hs; rw [← hs]; exact tame_refl s
  | snd_pcm_get_chmap => simp [Op.step, snd_pcm_get_chmap] at hs; rw [← hs]; exact tame_refl s
  | others e =>
    simp [Op.step] at hs
    rw [← hs]
    exact tame_nanosleep e s

/-- What an accepted `snd_pcm_writei` does, given the state `s1` in which its wait loop is
left, the shutdown signal not set and the queue `hd :: tl`: it returns the frame count and
appends a buffer `ab` of that many frames with the parameters of `hd`; with a positive
cursor `ab` is `hd` itself, taken off the front, and the cursor steps back; otherwise `ab`
is a buffer newly created in the registry. -/
theorem writei_transfer (sleeps : List Sleep) (s s1 : Pcm) (src1 : AudioSource)
    (hd : AudioBuffer) (tl : List AudioBuffer) (buffer : Nat → Nat) (n : Nat)
    (hloop : snd_pcm_writei_loop sleeps s = some (s1, true)) (hx : s1.is_exiting = false)
    (hsrc1 : s1.sourceAlsa = some src1) (hq : src1.buffer_queue = hd :: tl) :
    ∃ s2 src2 ab, snd_pcm_writei sleeps s buffer n = some (s2, some (n : Int)) ∧
      s2.sourceAlsa = some src2 ∧
      src2.buffer_queue = (if 0 < src1.queue_index then tl else hd :: tl) ++ [ab] ∧
      src2.queue_index
        = (if 0 < src1.queue_index then src1.queue_index - 1 else src1.queue_index) ∧
      s2.audiocontext = (if 0 < src1.queue_index then s1.audiocontext
        else s1.audiocontext.createBuffer.1) ∧
      ab.id = (if 0 < src1.queue_index then hd.id else s1.audiocontext.createBuffer.2) ∧
      src2.id = src1.id ∧ src2.state = src1.state ∧
      s2.buffer_size = s1.buffer_size ∧ s2.periods = s1.periods ∧
      s2.is_exiting = s1.is_exiting ∧
      ab.sampleSize = (n : Int) ∧ ab.size = (n : Int) * ab.alignSize ∧
      ab.alignSize = ab.format.bytesPerSample * ab.nbChannels ∧
      ab.format = hd.format ∧ ab.nbChannels = hd.nbChannels ∧ ab.frequency = hd.frequency ∧
      ab.samples = (List.range ab.size.toNat).map buffer := by
  by_cases hp : src1.nbQueueProcessed > 0
  · have hpos : 0 < src1.queue_index := hp
    simp only [snd_pcm_writei, hloop, hx, hsrc1, hq, hp, hpos, ↓reduceIte, Bool.false_eq_true]
    exact ⟨_, _, _, rfl, rfl, rfl, rfl, rfl, rfl, rfl, rfl, rfl, rfl, rfl, rfl, rfl, rfl, rfl,
      rfl, rfl, rfl⟩
  · have hpos : ¬ (0 < src1.queue_index) := hp
    simp only [snd_pcm_writei, hloop, hx, hsrc1, hq, hp, hpos, ↓reduceIte, Bool.false_eq_true]
    exact ⟨_, _, _, rfl, rfl, rfl, rfl, rfl, rfl, rfl, rfl, rfl, rfl, rfl, rfl, rfl, rfl, rfl,
      rfl, rfl, rfl⟩

/-- What a successful `snd_pcm_mmap_begin` does on a queue `hd :: tl`: it returns 0 and
appends a buffer `ab` of the granted frame count with the parameters of `hd`; with a
positive cursor `ab` is `hd` itself, taken off the front, and the cursor steps back;
otherwise `ab` is a buffer newly created in the registry. -/
theorem mmap_begin_transfer (s : Pcm) (src : AudioSource) (hd : AudioBuffer)
    (tl : List AudioBuffer) (r : Nat)
    (hsrc : s.sourceAlsa = some src) (hq : src.buffer_queue = hd :: tl) :
    ∃ s2 res src2 ab, snd_pcm_mmap_begin s r = some (s2, res) ∧
      s2.sourceAlsa = some src2 ∧
      src2.buffer_queue = (if 0 < src.queue_index then tl else hd :: tl) ++ [ab] ∧
      src2.queue_index
        = (if 0 < src.queue_index then src.queue_index - 1 else src.queue_index) ∧
      s2.audiocontext = (if 0 < src.queue_index then s.audiocontext
        else s.audiocontext.createBuffer.1) ∧
      ab.id = (if 0 < src.queue_index then hd.id else s.audiocontext.createBuffer.2) ∧
      res.ret = 0 ∧
      (res.frames : Int)
        = min (r : Int) (max 0 (s.buffer_size - (src.queueSize - src.getPosition))) ∧
      src2.id = src.id ∧ src2.state = src.state ∧
      s2.buffer_size = s.buffer_size ∧ s2.periods = s.periods ∧
      s2.is_exiting = s.is_exiting ∧
      ab.sampleSize = (res.frames : Int) ∧ ab.size = (res.frames : Int) * ab.alignSize ∧
      ab.alignSize = ab.format.bytesPerSample * ab.nbChannels ∧
      ab.bitDepth = 8 * ab.format.bytesPerSample ∧
      ab.format = hd.format ∧ ab.nbChannels = hd.nbChannels ∧ ab.frequency = hd.frequency ∧
      ab.samples.length = ab.size.toNat ∧
      res.offset = some 0 ∧
      res.areas
        = some [⟨ab.id, 0, ab.alignSize * 8⟩, ⟨ab.id, ab.bitDepth, ab.alignSize * 8⟩] := by
  have hres : ∀ (x : List Nat) (k : Nat), (resize x k).length = k := by
    intro x k
    simp only [resize, List.length_append, List.length_take, List.length_replicate]
    omega
  by_cases hp : src.nbQueueProcessed > 0
  · have hpos : 0 < src.queue_index := hp
    simp only [snd_pcm_mmap_begin, get_latency, hsrc, hq, hp, hpos, ↓reduceIte]
    exact ⟨_, _, _, _, rfl, rfl, rfl, rfl, rfl, rfl, rfl, grant_eq_min _ _ _, rfl, rfl, rfl,
      rfl, rfl, rfl, rfl, rfl, rfl, rfl, rfl, rfl, hres _ _, rfl, rfl⟩
  · have hpos : ¬ (0 < src.queue_index) := hp
    simp only [snd_pcm_mmap_begin, get_latency, hsrc, hq, hp, hpos, ↓reduceIte]
    exact ⟨_, _, _, _, rfl, rfl, rfl, rfl, rfl, rfl, rfl, grant_eq_min _ _ _, rfl, rfl, rfl,
      rfl, rfl, rfl, rfl, rfl, rfl, rfl, rfl, rfl, hres _ _, rfl, rfl⟩

theorem wellFormed_iff (s : Pcm) :
    WellFormed s ↔ ∃ src, s.sourceAlsa = some src ∧ src.buffer_queue ≠ [] ∧
      0 ≤ src.queue_index ∧ src.queue_index ≤ src.buffer_queue.length := by
  unfold WellFormed
  cases s.sourceAlsa with
  | none => simp
  | some src => simp

theorem foldl_max_ge (l : List Nat) : ∀ a : Nat, a ≤ l.foldl max a ∧ ∀ x ∈ l, x ≤ l.foldl max a := by
  induction l with
  | nil => intro a; simp
  | cons y ys ih =>
    intro a
    obtain ⟨h1, h2⟩ := ih (max a y)
    simp only [List.foldl_cons, List.mem_cons]
    refine ⟨le_trans (le_max_left a y) h1, ?_⟩
    rintro x (rfl | hx)
    · exact le_trans (le_max_right a x) h1
    · exact h2 x hx

/-- The id `createBuffer` hands out is not in use. -/
theorem createBuffer_fresh (ctx : AudioContext) :
    ctx.createBuffer.2 ∉ ctx.buffers ∧
      ctx.createBuffer.1.buffers = ctx.buffers ++ [ctx.createBuffer.2] ∧
      ctx.createBuffer.1.sources = ctx.sources := by
  refine ⟨?_, rfl, rfl⟩
  intro h
  have := (foldl_max_ge ctx.buffers 0).2 _ h
  simp only [AudioContext.createBuffer] at this
  omega

/-- The id `createSource` hands out is not in use. -/
theorem createSource_fresh (ctx : AudioContext) :
    ctx.createSource.2 ∉ ctx.sources ∧
      ctx.createSource.1.sources = ctx.sources ++ [ctx.createSource.2] ∧
      ctx.createSource.1.buffers = ctx.buffers := by
  refine ⟨?_, rfl, rfl⟩
  intro h
  have := (foldl_max_ge ctx.sources 0).2 _ h
  simp only [AudioContext.createSource] at this
  omega

/-- The ways a call of `snd_pcm_writei` on a queue `hd :: tl` can go: it is tame (still
waiting, or shut down), or its loop is left in a state `s1` reached tamely, with the
shutdown signal not set and the same queue. -/
theorem writei_cases (sleeps : List Sleep) (s s2 : Pcm) (src : AudioSource)
    (hd : AudioBuffer) (tl : List AudioBuffer) (buffer : Nat → Nat) (n : Nat)
    (v : Option Int) (hsrc : s.sourceAlsa = some src) (hq : src.buffer_queue = hd :: tl)
    (h : snd_pcm_writei sleeps s buffer n = some (s2, v)) :
    Tame s s2 ∨ ∃ s1 src1, snd_pcm_writei_loop sleeps s = some (s1, true) ∧
      s1.is_exiting = false ∧ Tame s s1 ∧ s1.sourceAlsa = some src1 ∧
      src1.buffer_queue = hd :: tl := by
  cases hl : snd_pcm_writei_loop sleeps s with
  | none => simp [snd_pcm_writei, hl] at h
  | some r =>
    obtain ⟨s1, b⟩ := r
    obtain ⟨k, -, hk⟩ := writei_loop_is_sleepThrough sleeps s s1 b hl
    have ht : Tame s s1 := by rw [hk]; exact tame_sleepThrough _ s
    cases b with
    | false =>
      simp [snd_pcm_writei, hl] at h
      rw [← h.1]
      exact Or.inl ht
    | true =>
      cases hx : s1.is_exiting with
      | true =>
        simp [snd_pcm_writei, hl, hx] at h
        rw [← h.1]
        exact Or.inl ht
      | false =>
        obtain ⟨-, -, -, src1, hsrc1, hq1⟩ := writei_loop_frame sleeps s s1 true src hsrc hl
        exact Or.inr ⟨s1, src1, rfl, hx, ht, hsrc1, by rw [hq1, hq]⟩

theorem wellFormed_open (s : Pcm) :
    WellFormed (snd_pcm_open s SND_PCM_STREAM_PLAYBACK).1 := by
  rw [wellFormed_iff]
  exact ⟨_, rfl, by simp [AudioContext.getSource], by simp [AudioContext.getSource],
    by simp [AudioContext.getSource]⟩

theorem wellFormed_tame (s s1 : Pcm) (h : WellFormed s) (ht : Tame s s1) : WellFormed s1 := by
  obtain ⟨src, hsrc, hne, h0, h1⟩ := (wellFormed_iff s).mp h
  obtain ⟨-, src1, hsrc1, -, -, hlen, hcur⟩ := tame_source s s1 src ht hsrc
  obtain ⟨c0, c1, -⟩ := hcur h0 h1
  rw [wellFormed_iff]
  refine ⟨src1, hsrc1, ?_, c0, c1⟩
  intro hnil
  rw [hnil] at hlen
  exact hne (List.length_eq_zero.mp hlen.symm)

/-- Appending after an optional removal of the front keeps the cursor within the queue. -/
theorem wellFormed_transfer (s1 s2 : Pcm) (src1 src2 : AudioSource) (hd ab : AudioBuffer)
    (tl : List AudioBuffer) (h : WellFormed s1)
    (hsrc1 : s1.sourceAlsa = some src1) (hq : src1.buffer_queue = hd :: tl)
    (hsrc2 : s2.sourceAlsa = some src2)
    (hq2 : src2.buffer_queue = (if 0 < src1.queue_index then tl else hd :: tl) ++ [ab])
    (hi2 : src2.queue_index
      = (if 0 < src1.queue_index then src1.queue_index - 1 else src1.queue_index)) :
    WellFormed s2 := by
  obtain ⟨src, hsrc, -, h0, h1⟩ := (wellFormed_iff s1).mp h
  rw [hsrc1] at hsrc
  cases hsrc
  rw [hq] at h1
  simp only [List.length_cons, Nat.cast_add, Nat.cast_one] at h1
  rw [wellFormed_iff]
  refine ⟨src2, hsrc2, by rw [hq2]; simp, ?_, ?_⟩
  · rw [hi2]; split <;> omega
  · rw [hi2, hq2]
    split <;> simp <;> omega

theorem wellFormed_writei (sleeps : List Sleep) (s s2 : Pcm) (buffer : Nat → Nat) (n : Nat)
    (v : Option Int) (h : WellFormed s)
    (hw : snd_pcm_writei sleeps s buffer n = some (s2, v)) : WellFormed s2 := by
  obtain ⟨src, hsrc, hne, -, -⟩ := (wellFormed_iff s).mp h
  obtain ⟨hd, tl, hq⟩ : ∃ hd tl, src.buffer_queue = hd :: tl := by
    cases hb : src.buffer_queue with
    | nil => exact absurd hb hne
    | cons hd tl => exact ⟨hd, tl, rfl⟩
  rcases writei_cases sleeps s s2 src hd tl buffer n v hsrc hq hw with ht | ⟨s1, src1, hl, hx, ht, hsrc1, hq1⟩
  · exact wellFormed_tame s s2 h ht
  · obtain ⟨s3, src3, ab, he, hsrc3, hq3, hi3, -⟩ :=
      writei_transfer sleeps s s1 src1 hd tl buffer n hl hx hsrc1 hq1
    rw [hw] at he
    simp only [Option.some.injEq, Prod.mk.injEq] at he
    rw [he.1]
    exact wellFormed_transfer s1 s3 src1 src3 hd ab tl (wellFormed_tame s s1 h ht) hsrc1 hq1
      hsrc3 hq3 hi3

theorem wellFormed_mmap_begin (s s2 : Pcm) (r : Nat) (res : MmapBegin) (h : WellFormed s)
    (hw : snd_pcm_mmap_begin s r = some (s2, res)) : WellFormed s2 := by
  obtain ⟨src, hsrc, hne, -, -⟩ := (wellFormed_iff s).mp h
  obtain ⟨hd, tl, hq⟩ : ∃ hd tl, src.buffer_queue = hd :: tl := by
    cases hb : src.buffer_queue with
    | nil => exact absurd hb hne
    | cons hd tl => exact ⟨hd, tl, rfl⟩
  obtain ⟨s3, res3, src3, ab, he, hsrc3, hq3, hi3, -⟩ := mmap_begin_transfer s src hd tl r hsrc hq
  rw [hw] at he
  simp only [Option.some.injEq, Prod.mk.injEq] at he
  rw [he.1]
  exact wellFormed_transfer s s3 src src3 hd ab tl h hsrc hq hsrc3 hq3 hi3

/-- Every event keeps the invariant of the data model. -/
theorem wellFormed_step (op : Op) (s s1 : Pcm) (h : WellFormed s)
    (hs : op.step s = some s1) : WellFormed s1 := by
  cases hop : op.queues with
  | false => exact wellFormed_tame s s1 h (tame_step op s s1 hop hs)
  | true =>
    cases op with
    | snd_pcm_open stream =>
      simp only [Op.step, Option.some.injEq] at hs
      by_cases hst : stream = SND_PCM_STREAM_PLAYBACK
      · rw [← hs, hst]
        exact wellFormed_open s
      · have : snd_pcm_open s stream = (s, -1) := by simp [snd_pcm_open, hst]
        rw [this] at hs
        rw [← hs]
        exact h
    | snd_pcm_writei sleeps buffer size =>
      simp only [Op.step, Option.map_eq_some'] at hs
      obtain ⟨⟨s2, v⟩, hw, rfl⟩ := hs
      exact wellFormed_writei sleeps s s2 buffer size v h hw
    | snd_pcm_mmap_begin frames =>
      simp only [Op.step, Option.map_eq_some'] at hs
      obtain ⟨⟨s2, res⟩, hw, rfl⟩ := hs
      exact wellFormed_mmap_begin s s2 frames res h hw
    | _ => simp [Op.queues] at hop

theorem wellFormed_run (ops : List Op) :
    ∀ (s s1 : Pcm), WellFormed s → run ops s = some s1 → WellFormed s1 := by
  induction ops with
  | nil =>
    intro s s1 h hr
    simp [run] at hr
    rw [← hr]
    exact h
  | cons op ops ih =>
    intro s s1 h hr
    simp only [run] at hr
    cases hst : op.step s with
    | none => simp [hst] at hr
    | some s2 =>
      simp only [hst] at hr
      exact ih s2 s1 (wellFormed_step op s s2 h hst) hr

/-- Claim C18: in every state reached from a successful `snd_pcm_open` by a sequence of
events (calls of the hooks with any arguments, and the other threads acting, the mixing
stage moving the cursor forward within the queue), the cursor is at least 0 and at most the
length of the queue; in particular after a call of `snd_pcm_writei` or
`snd_pcm_mmap_begin` in such a state, recycling or not, the cursor is not negative. -/
theorem cursor_within_queue (s0 s1 : Pcm) (ops : List Op)
    (hrun : run ops (snd_pcm_open s0 SND_PCM_STREAM_PLAYBACK).1 = some s1) :
    (snd_pcm_open s0 SND_PCM_STREAM_PLAYBACK).2 = 0 ∧
    (∃ src, s1.sourceAlsa = some src ∧ 0 ≤ src.queue_index ∧
      src.queue_index ≤ src.buffer_queue.length) ∧
    (∀ (sleeps : List Sleep) (buffer : Nat → Nat) (n : Nat) (s2 : Pcm) (v : Option Int),
      snd_pcm_writei sleeps s1 buffer n = some (s2, v) →
      ∃ src2, s2.sourceAlsa = some src2 ∧ 0 ≤ src2.queue_index ∧
        src2.queue_index ≤ src2.buffer_queue.length) ∧
    (∀ (r : Nat) (s2 : Pcm) (res : MmapBegin), snd_pcm_mmap_begin s1 r = some (s2, res) →
      ∃ src2, s2.sourceAlsa = some src2 ∧ 0 ≤ src2.queue_index ∧
        src2.queue_index ≤ src2.buffer_queue.length) := by
  have h1 : WellFormed s1 := wellFormed_run ops _ s1 (wellFormed_open s0) hrun
  refine ⟨rfl, ?_, ?_, ?_⟩
  · obtain ⟨src, hsrc, -, a, b⟩ := (wellFormed_iff s1).mp h1
    exact ⟨src, hsrc, a, b⟩
  · intro sleeps buffer n s2 v hw
    obtain ⟨src, hsrc, -, a, b⟩ :=
      (wellFormed_iff s2).mp (wellFormed_writei sleeps s1 s2 buffer n v h1 hw)
    exact ⟨src, hsrc, a, b⟩
  · intro r s2 res hw
    obtain ⟨src, hsrc, -, a, b⟩ :=
      (wellFormed_iff s2).mp (wellFormed_mmap_begin s1 s2 r res h1 hw)
    exact ⟨src, hsrc, a, b⟩

/-- Claim C18, witness: after open, a write, cursor advances and two recycling transfers
(the events of `roundTripOps`), the cursor is within the queue. -/
theorem cursor_within_queue_witness :
    ∃ s1, run roundTripOps (snd_pcm_open Pcm.init SND_PCM_STREAM_PLAYBACK).1 = some s1 ∧
      ∃ src, s1.sourceAlsa = some src ∧ 0 ≤ src.queue_index ∧
        src.queue_index ≤ src.buffer_queue.length := by
  have h : (run roundTripOps (snd_pcm_open Pcm.init SND_PCM_STREAM_PLAYBACK).1).isSome
      = true := by decide
  obtain ⟨s1, hs1⟩ := Option.isSome_iff_exists.mp h
  exact ⟨s1, hs1, (cursor_within_queue Pcm.init s1 roundTripOps hs1).2.1⟩

theorem activeSource_playing_iff (s : Pcm) (i : Nat) :
    activeSource s = some (i, SourceState.SOURCE_PLAYING) ↔
      ∃ src, s.sourceAlsa = some src ∧ src.id = i ∧ src.state = SourceState.SOURCE_PLAYING := by
  unfold activeSource
  cases s.sourceAlsa with
  | none => simp
  | some src => simp

theorem playing_tame (s s1 : Pcm) (i : Nat)
    (h : activeSource s = some (i, SourceState.SOURCE_PLAYING)) (ht : Tame s s1) :
    activeSource s1 = some (i, SourceState.SOURCE_PLAYING) := by
  obtain ⟨src, hsrc, hid, hst⟩ := (activeSource_playing_iff s i).mp h
  obtain ⟨-, src1, hsrc1, hid1, hst1, -⟩ := tame_source s s1 src ht hsrc
  rw [activeSource_playing_iff]
  refine ⟨src1, hsrc1, by rw [hid1, hid], ?_⟩
  rcases hst1 with h1 | h1
  · rw [h1, hst]
  · exact h1

theorem playing_writei (sleeps : List Sleep) (s s2 : Pcm) (buffer : Nat → Nat) (n : Nat)
    (v : Option Int) (i : Nat) (h : activeSource s = some (i, SourceState.SOURCE_PLAYING))
    (hw : snd_pcm_writei sleeps s buffer n = some (s2, v)) :
    activeSource s2 = some (i, SourceState.SOURCE_PLAYING) := by
  obtain ⟨src, hsrc, hid, hst⟩ := (activeSource_playing_iff s i).mp h
  cases hq : src.buffer_queue with
  | cons hd tl =>
    rcases writei_cases sleeps s s2 src hd tl buffer n v hsrc hq hw with
      ht | ⟨s1, src1, hl, hx, ht, hsrc1, hq1⟩
    · exact playing_tame s s2 i h ht
    · obtain ⟨s3, src3, ab, he, hsrc3, -, -, -, -, hid3, hst3, -⟩ :=
        writei_transfer sleeps s s1 src1 hd tl buffer n hl hx hsrc1 hq1
      rw [hw] at he
      simp only [Option.some.injEq, Prod.mk.injEq] at he
      rw [he.1]
      obtain ⟨x, hx1, hx2, hx3⟩ := (activeSource_playing_iff s1 i).mp (playing_tame s s1 i h ht)
      rw [hsrc1] at hx1
      cases hx1
      rw [activeSource_playing_iff]
      exact ⟨src3, hsrc3, by rw [hid3, hx2], by rw [hst3, hx3]⟩
  | nil =>
    cases hl : snd_pcm_writei_loop sleeps s with
    | none => simp [snd_pcm_writei, hl] at hw
    | some r =>
      obtain ⟨s1, b⟩ := r
      obtain ⟨k, -, hk⟩ := writei_loop_is_sleepThrough sleeps s s1 b hl
      have ht : Tame s s1 := by rw [hk]; exact tame_sleepThrough _ s
      have h1 := playing_tame s s1 i h ht
      obtain ⟨-, -, -, src1, hsrc1, hq1⟩ := writei_loop_frame sleeps s s1 b src hsrc hl
      rw [hq] at hq1
      cases b with
      | false =>
        simp [snd_pcm_writei, hl] at hw
        rw [← hw.1]
        exact h1
      | true =>
        cases hx : s1.is_exiting with
        | true =>
          simp [snd_pcm_writei, hl, hx] at hw
          rw [← hw.1]
          exact h1
        | false =>
          simp only [snd_pcm_writei, hl, hx, hsrc1, hq1, Bool.false_eq_true, ↓reduceIte] at hw
          split at hw
          · simp at hw
          · simp at hw
            rw [← hw.1]
            simpa [activeSource, hsrc1] using h1

theorem playing_mmap_begin (s s2 : Pcm) (r : Nat) (res : MmapBegin) (i : Nat)
    (h : activeSource s = some (i, SourceState.SOURCE_PLAYING))
    (hw : snd_pcm_mmap_begin s r = some (s2, res)) :
    activeSource s2 = some (i, SourceState.SOURCE_PLAYING) := by
  obtain ⟨src, hsrc, hid, hst⟩ := (activeSource_playing_iff s i).mp h
  cases hq : src.buffer_queue with
  | cons hd tl =>
    obtain ⟨s3, res3, src3, ab, he, hsrc3, -, -, -, -, -, -, hid3, hst3, -⟩ :=
      mmap_begin_transfer s src hd tl r hsrc hq
    rw [hw] at he
    simp only [Option.some.injEq, Prod.mk.injEq] at he
    rw [he.1, activeSource_playing_iff]
    exact ⟨src3, hsrc3, by rw [hid3, hid], by rw [hst3, hst]⟩
  | nil =>
    simp only [snd_pcm_mmap_begin, get_latency, hsrc, hq] at hw
    split at hw
    · simp at hw
    · simp at hw
      rw [← hw.1]
      simpa [activeSource, hsrc] using h

/-- One event from a state whose active source is Playing: the active source is the same
source, still Playing, unless the event is a successful `snd_pcm_open`, which installs a
newly created source. -/
theorem playing_step (op : Op) (s s1 : Pcm) (i : Nat)
    (h : activeSource s = some (i, SourceState.SOURCE_PLAYING))
    (hs : op.step s = some s1) :
    activeSource s1 = some (i, SourceState.SOURCE_PLAYING) ∨
      (op = Op.snd_pcm_open SND_PCM_STREAM_PLAYBACK ∧
        ∃ src1, s1.sourceAlsa = some src1 ∧ src1.id ∉ s.audiocontext.sources ∧
          src1.id ∈ s1.audiocontext.sources) := by
  cases hop : op.queues with
  | false => exact Or.inl (playing_tame s s1 i h (tame_step op s s1 hop hs))
  | true =>
    cases op with
    | snd_pcm_open stream =>
      simp only [Op.step, Option.some.injEq] at hs
      by_cases hst : stream = SND_PCM_STREAM_PLAYBACK
      · right
        subst hst
        refine ⟨rfl, ?_⟩
        rw [← hs]
        refine ⟨_, rfl, ?_, ?_⟩
        · exact (createSource_fresh s.audiocontext.createBuffer.1).1
        · have := (createSource_fresh s.audiocontext.createBuffer.1).2.1
          simp only [snd_pcm_open, ne_eq, not_true_eq_false, ↓reduceIte, this]
          simp only [AudioContext.getSource, List.mem_append, List.mem_singleton]
          exact Or.inr rfl
      · have : snd_pcm_open s stream = (s, -1) := by simp [snd_pcm_open, hst]
        rw [this] at hs
        rw [← hs]
        exact Or.inl h
    | snd_pcm_writei sleeps buffer size =>
      simp only [Op.step, Option.map_eq_some'] at hs
      obtain ⟨⟨s2, v⟩, hw, rfl⟩ := hs
      exact Or.inl (playing_writei sleeps s s2 buffer size v i h hw)
    | snd_pcm_mmap_begin frames =>
      simp only [Op.step, Option.map_eq_some'] at hs
      obtain ⟨⟨s2, res⟩, hw, rfl⟩ := hs
      exact Or.inl (playing_mmap_begin s s2 frames res i h hw)
    | _ => simp [Op.queues] at hop

theorem playing_run (ops : List Op) :
    ∀ (s s1 : Pcm) (i : Nat), activeSource s = some (i, SourceState.SOURCE_PLAYING) →
      (∀ op ∈ ops, op ≠ Op.snd_pcm_open SND_PCM_STREAM_PLAYBACK) → run ops s = some s1 →
      activeSource s1 = some (i, SourceState.SOURCE_PLAYING) := by
  induction ops with
  | nil =>
    intro s s1 i h _ hr
    simp [run] at hr
    rw [← hr]
    exact h
  | cons op ops ih =>
    intro s s1 i h hno hr
    simp only [run] at hr
    cases hst : op.step s with
    | none => simp [hst] at hr
    | some s2 =>
      simp only [hst] at hr
      rcases playing_step op s s2 i h hst with h2 | ⟨hopen, -⟩
      · exact ih s2 s1 i h2 (fun x hx => hno x (List.mem_cons_of_mem _ hx)) hr
      · exact absurd hopen (hno op (List.mem_cons_self _ _))

/-- Claim C17: each of `snd_pcm_start`, `snd_pcm_resume`, `snd_pcm_hw_params` and
`snd_pcm_sw_params` leaves the active source in state Playing (`snd_pcm_start` and
`snd_pcm_resume` change nothing when it is Playing already); and once the source is Playing,
no event returns it to Stopped: after every event the active source is the same source,
still Playing, unless the event is a successful `snd_pcm_open`, which does not touch the
source but makes a newly created one the active source. So the active source is Playing
after every sequence of events without a successful `snd_pcm_open`. -/
theorem play_state_machine (s : Pcm) (src : AudioSource) (hsrc : s.sourceAlsa = some src) :
    (∃ s1, snd_pcm_start s = some (s1, 0) ∧
      activeSource s1 = some (src.id, SourceState.SOURCE_PLAYING)) ∧
    (∃ s1, snd_pcm_resume s = some (s1, 0) ∧
      activeSource s1 = some (src.id, SourceState.SOURCE_PLAYING)) ∧
    (src.buffer_queue ≠ [] → ∃ s1, snd_pcm_hw_params s = some (s1, 0) ∧
      activeSource s1 = some (src.id, SourceState.SOURCE_PLAYING)) ∧
    (src.buffer_queue ≠ [] → ∃ s1, snd_pcm_sw_params s = some (s1, 0) ∧
      activeSource s1 = some (src.id, SourceState.SOURCE_PLAYING)) ∧
    (src.state = SourceState.SOURCE_PLAYING →
      snd_pcm_start s = some (s, 0) ∧ snd_pcm_resume s = some (s, 0)) ∧
    (src.state = SourceState.SOURCE_PLAYING → ∀ (op : Op) (s1 : Pcm), op.step s = some s1 →
      activeSource s1 = some (src.id, SourceState.SOURCE_PLAYING) ∨
        (op = Op.snd_pcm_open SND_PCM_STREAM_PLAYBACK ∧
          ∃ src1, s1.sourceAlsa = some src1 ∧ src1.id ∉ s.audiocontext.sources ∧
            src1.id ∈ s1.audiocontext.sources)) ∧
    (src.state = SourceState.SOURCE_PLAYING → ∀ (ops : List Op) (s1 : Pcm),
      (∀ op ∈ ops, op ≠ Op.snd_pcm_open SND_PCM_STREAM_PLAYBACK) → run ops s = some s1 →
      activeSource s1 = some (src.id, SourceState.SOURCE_PLAYING)) := by
  have hplay : src.state = SourceState.SOURCE_PLAYING →
      activeSource s = some (src.id, SourceState.SOURCE_PLAYING) := by
    intro h
    rw [activeSource_playing_iff]
    exact ⟨src, hsrc, rfl, h⟩
  have hsame : src.state = SourceState.SOURCE_PLAYING →
      ({ s with sourceAlsa := some { src with state := SourceState.SOURCE_PLAYING } } : Pcm)
        = s := by
    intro h
    cases s with
    | mk ctx sa bs p ex gi dt =>
      simp only at hsrc
      subst hsrc
      cases src with
      | mk id q qi k st =>
        simp only at h
        subst h
        rfl
  refine ⟨?_, ?_, ?_, ?_, ?_, ?_, ?_⟩
  · simp only [snd_pcm_start, hsrc]
    exact ⟨_, rfl, by simp [activeSource]⟩
  · simp only [snd_pcm_resume, hsrc]
    exact ⟨_, rfl, by simp [activeSource]⟩
  · intro hne
    cases hq : src.buffer_queue with
    | nil => exact absurd hq hne
    | cons b rest =>
      simp only [snd_pcm_hw_params, hsrc, hq]
      exact ⟨_, rfl, by simp [activeSource]⟩
  · intro hne
    cases hq : src.buffer_queue with
    | nil => exact absurd hq hne
    | cons b rest =>
      simp only [snd_pcm_sw_params, hsrc, hq]
      exact ⟨_, rfl, by simp [activeSource]⟩
  · intro h
    constructor
    · simp only [snd_pcm_start, hsrc, hsame h]
    · simp only [snd_pcm_resume, hsrc, hsame h]
  · intro h op s1 hs
    exact playing_step op s s1 src.id (hplay h) hs
  · intro h ops s1 hno hr
    exact playing_run ops s s1 src.id (hplay h) hno hr

/-- Claim C17, witness: on the device just opened, whose source is Stopped, `snd_pcm_start`
makes it Playing, and it is Playing after the events of `playingOps` that follow. -/
theorem play_state_machine_witness :
    activeSource opened = some (1, SourceState.SOURCE_STOPPED) ∧
    ∃ s1 s2, snd_pcm_start opened = some (s1, 0) ∧
      activeSource s1 = some (1, SourceState.SOURCE_PLAYING) ∧
      run playingOps s1 = some s2 ∧
      activeSource s2 = some (1, SourceState.SOURCE_PLAYING) := by
  refine ⟨rfl, ?_⟩
  obtain ⟨s1, h1, h2⟩ := (play_state_machine opened
    ⟨1, [⟨1, .SAMPLE_FMT_U8, 0, 0, 0, 0, 0, 0, []⟩], 0, .SOURCE_STREAMING, .SOURCE_STOPPED⟩
    rfl).1
  have hr : ∀ r ∈ snd_pcm_start opened, (run playingOps r.1).isSome = true := by decide
  obtain ⟨s2, hs2⟩ := Option.isSome_iff_exists.mp (hr _ h1)
  obtain ⟨src1, hsrc1, hid1, hst1⟩ := (activeSource_playing_iff s1 1).mp h2
  have := (play_state_machine s1 src1 hsrc1).2.2.2.2.2.2 hst1 playingOps s2
    (by
      intro op hop
      simp only [playingOps, List.mem_cons, List.mem_singleton, List.not_mem_nil,
        or_false] at hop
      rcases hop with h | h | h | h | h | h | h | h | h <;> rw [h] <;> simp
      decide) hs2
  rw [hid1] at this
  exact ⟨s1, s2, h1, h2, hs2, this⟩

/-- Claim C19, counterexample: once the cursor has moved past the empty placeholder the
position is 0 (no frame lies before the cursor), yet an accepted `snd_pcm_writei` recycles:
the queue still holds one buffer, the one with id 1, the cursor is back at 0 and the
registry still owns the single buffer 1. -/
theorem recycle_with_zero_position :
    (consumedPlaceholder.sourceAlsa.map
        (fun x => (x.getPosition, x.queue_index, x.buffer_queue.map AudioBuffer.id)),
      consumedPlaceholder.audiocontext.buffers) = (some (0, 1, [1]), [1]) ∧
    (snd_pcm_writei [Sleep.idle] consumedPlaceholder silence 4).map
        (fun r => (r.2,
          r.1.sourceAlsa.map (fun x => (x.queue_index, x.buffer_queue.map AudioBuffer.id)),
          r.1.audiocontext.buffers))
      = some (some 4, some (0, [1]), [1]) := by
  constructor <;> decide

/-- Claim C19, amended: for a state with a queue that is not empty, an accepted
`snd_pcm_writei` (its wait loop left in state `s1` with the shutdown signal not set)
recycles the oldest buffer (removes index 0, decrements the cursor by one, queue length
unchanged after the append, registry unchanged) if and only if `nbQueueProcessed() > 0`,
that is, the cursor is positive; otherwise it allocates a new registry buffer whose format,
channels and frequency equal those of the current first queue buffer, and the queue grows
by one. A positive position implies a positive cursor, but not the other way round. -/
theorem writei_recycles_iff_cursor_positive (sleeps : List Sleep) (s s1 : Pcm)
    (src1 : AudioSource) (hd : AudioBuffer) (tl : List AudioBuffer) (buffer : Nat → Nat)
    (n : Nat)
    (hloop : snd_pcm_writei_loop sleeps s = some (s1, true)) (hx : s1.is_exiting = false)
    (hsrc1 : s1.sourceAlsa = some src1) (hq : src1.buffer_queue = hd :: tl) :
    ∃ s2 src2 ab, snd_pcm_writei sleeps s buffer n = some (s2, some (n : Int)) ∧
      s2.sourceAlsa = some src2 ∧
      (0 < src1.queue_index →
        src2.buffer_queue = tl ++ [ab] ∧
        src2.buffer_queue.length = src1.buffer_queue.length ∧
        src2.queue_index = src1.queue_index - 1 ∧
        s2.audiocontext = s1.audiocontext ∧ ab.id = hd.id) ∧
      (¬ 0 < src1.queue_index →
        src2.buffer_queue = hd :: tl ++ [ab] ∧
        src2.buffer_queue.length = src1.buffer_queue.length + 1 ∧
        src2.queue_index = src1.queue_index ∧
        ab.id ∉ s1.audiocontext.buffers ∧
        s2.audiocontext.buffers = s1.audiocontext.buffers ++ [ab.id] ∧
        ab.format = hd.format ∧ ab.nbChannels = hd.nbChannels ∧
        ab.frequency = hd.frequency) ∧
      (0 < src1.getPosition → 0 < src1.queue_index) := by
  obtain ⟨s2, src2, ab, h1, h2, h3, h4, h5, h6, -, -, -, -, -, -, -, -, h15, h16, h17, -⟩ :=
    writei_transfer sleeps s s1 src1 hd tl buffer n hloop hx hsrc1 hq
  refine ⟨s2, src2, ab, h1, h2, ?_, ?_, ?_⟩
  · intro hpos
    rw [if_pos hpos] at h3 h4 h5 h6
    exact ⟨h3, by rw [h3, hq]; simp, h4, h5, h6⟩
  · intro hneg
    rw [if_neg hneg] at h3 h4 h5 h6
    obtain ⟨f1, f2, -⟩ := createBuffer_fresh s1.audiocontext
    exact ⟨h3, by rw [h3, hq]; simp, h4, by rw [h6]; exact f1, by rw [h5, h6, f2],
      h15, h16, h17⟩
  · intro hpos
    by_contra hneg
    have h0 : src1.queue_index.toNat = 0 := by omega
    simp [AudioSource.getPosition, h0] at hpos

/-- Claim C19, witness: on the device just opened (cursor 0) a write of 4 frames allocates
buffer 2; after the cursor has moved past the placeholder a write of 4 frames recycles
buffer 1. -/
theorem writei_recycles_iff_cursor_positive_witness :
    (∃ s2 src2, snd_pcm_writei [Sleep.idle] opened silence 4 = some (s2, some 4) ∧
      s2.sourceAlsa = some src2 ∧ src2.buffer_queue.length = 2 ∧
      s2.audiocontext.buffers = [1, 2]) ∧
    (∃ s2 src2, snd_pcm_writei [Sleep.idle] consumedPlaceholder silence 4 = some (s2, some 4) ∧
      s2.sourceAlsa = some src2 ∧ src2.buffer_queue.length = 1 ∧
      s2.audiocontext.buffers = [1]) := by
  constructor
  · obtain ⟨s2, src2, ab, h1, h2, -, h4, -⟩ :=
      writei_recycles_iff_cursor_positive [Sleep.idle] opened opened
        ⟨1, [⟨1, .SAMPLE_FMT_U8, 0, 0, 0, 0, 0, 0, []⟩], 0, .SOURCE_STREAMING, .SOURCE_STOPPED⟩
        ⟨1, .SAMPLE_FMT_U8, 0, 0, 0, 0, 0, 0, []⟩ [] silence 4 rfl rfl rfl rfl
    obtain ⟨-, a2, -, -, a5, -⟩ := h4 (by decide)
    have hid : ab.id = 2 := by
      have h6 : ∀ r ∈ snd_pcm_writei [Sleep.idle] opened silence 4,
          r.1.audiocontext.buffers = [1, 2] := by decide
      have h7 := h6 _ h1
      rw [a5] at h7
      simpa [opened, snd_pcm_open, AudioContext.createBuffer, AudioContext.createSource,
        Pcm.init] using h7
    exact ⟨s2, src2, h1, h2, a2, by rw [a5, hid]; rfl⟩
  · obtain ⟨s2, src2, ab, h1, h2, h3, -⟩ :=
      writei_recycles_iff_cursor_positive [Sleep.idle] consumedPlaceholder consumedPlaceholder
        ⟨1, [⟨1, .SAMPLE_FMT_U8, 0, 0, 0, 0, 0, 0, []⟩], 1, .SOURCE_STREAMING, .SOURCE_STOPPED⟩
        ⟨1, .SAMPLE_FMT_U8, 0, 0, 0, 0, 0, 0, []⟩ [] silence 4 rfl rfl rfl rfl
    obtain ⟨-, a2, -, a4, -⟩ := h3 (by decide)
    exact ⟨s2, src2, h1, h2, a2, by rw [a4]; rfl⟩

/-- The buffers of a queue `hd :: tl` not yet consumed (those from the cursor on) after a
transfer that takes `hd` off when the cursor is positive and appends `ab`: the ones not
yet consumed before, in the same order, followed by `ab`. -/
theorem unconsumed_transfer (hd ab : AudioBuffer) (tl : List AudioBuffer) (c : Int)
    (h0 : 0 ≤ c) (h1 : c ≤ ((hd :: tl).length : Int)) :
    ((if 0 < c then tl else hd :: tl) ++ [ab]).drop (if 0 < c then c - 1 else c).toNat
      = (hd :: tl).drop c.toNat ++ [ab] := by
  by_cases hc : 0 < c
  · obtain ⟨k, rfl⟩ : ∃ k : Nat, c = (k : Int) + 1 := ⟨(c - 1).toNat, by omega⟩
    simp only [List.length_cons, Nat.cast_add, Nat.cast_one] at h1
    have hk : k ≤ tl.length := by omega
    have e1 : ((k : Int) + 1 - 1).toNat = k := by simp
    have e2 : ((k : Int) + 1).toNat = k + 1 := by omega
    rw [if_pos hc, if_pos hc, e1, e2, List.drop_succ_cons, List.drop_append_of_le_length hk]
  · have : c = 0 := by omega
    subst this
    simp

/-- Claim C20: on a queue `hd :: tl`, after every accepted `snd_pcm_writei` (its wait loop
left in state `s1` with the shutdown signal not set; the queue in `s1` is still `hd :: tl`)
and after every `snd_pcm_mmap_begin`, which then succeeds, the queue is the queue before
with at most its first element removed (and only when the cursor is positive, so that this
element is already processed), followed by the newly filled buffer `ab` as last element.
With a cursor within the queue, the buffers not yet consumed afterwards are those not yet
consumed before, in the same order, followed by `ab`. The frame count of `ab` is the
accepted or granted count, and its byte size is frame count × align size. -/
theorem fifo_order (s : Pcm) (src : AudioSource) (hd : AudioBuffer) (tl : List AudioBuffer)
    (hsrc : s.sourceAlsa = some src) (hq : src.buffer_queue = hd :: tl) :
    (∀ (sleeps : List Sleep) (buffer : Nat → Nat) (n : Nat) (s1 : Pcm),
      snd_pcm_writei_loop sleeps s = some (s1, true) → s1.is_exiting = false →
      ∃ s2 src1 src2 ab, snd_pcm_writei sleeps s buffer n = some (s2, some (n : Int)) ∧
        s1.sourceAlsa = some src1 ∧ src1.buffer_queue = src.buffer_queue ∧
        s2.sourceAlsa = some src2 ∧
        (src2.buffer_queue = src1.buffer_queue ++ [ab] ∨
          (0 < src1.queue_index ∧ src2.buffer_queue = src1.buffer_queue.tail ++ [ab])) ∧
        (0 ≤ src1.queue_index → src1.queue_index ≤ src1.buffer_queue.length →
          src2.buffer_queue.drop src2.queue_index.toNat
            = src1.buffer_queue.drop src1.queue_index.toNat ++ [ab]) ∧
        ab.sampleSize = (n : Int) ∧ ab.size = ab.sampleSize * ab.alignSize) ∧
    (∀ r : Nat,
      ∃ s2 res src2 ab, snd_pcm_mmap_begin s r = some (s2, res) ∧ res.ret = 0 ∧
        s2.sourceAlsa = some src2 ∧
        (src2.buffer_queue = src.buffer_queue ++ [ab] ∨
          (0 < src.queue_index ∧ src2.buffer_queue = src.buffer_queue.tail ++ [ab])) ∧
        (0 ≤ src.queue_index → src.queue_index ≤ src.buffer_queue.length →
          src2.buffer_queue.drop src2.queue_index.toNat
            = src.buffer_queue.drop src.queue_index.toNat ++ [ab]) ∧
        ab.sampleSize = (res.frames : Int) ∧ ab.size = ab.sampleSize * ab.alignSize) := by
  constructor
  · intro sleeps buffer n s1 hloop hx
    obtain ⟨-, -, -, src1, hsrc1, hq1⟩ := writei_loop_frame sleeps s s1 true src hsrc hloop
    have hq1b : src1.buffer_queue = hd :: tl := by rw [hq1, hq]
    obtain ⟨s2, src2, ab, h1, h2, h3, h4, -, -, -, -, -, -, -, h12, h13, -⟩ :=
      writei_transfer sleeps s s1 src1 hd tl buffer n hloop hx hsrc1 hq1b
    refine ⟨s2, src1, src2, ab, h1, hsrc1, hq1, h2, ?_, ?_, h12, by rw [h13, h12]⟩
    · by_cases hc : 0 < src1.queue_index
      · rw [if_pos hc] at h3
        exact Or.inr ⟨hc, by rw [h3, hq1b]; rfl⟩
      · rw [if_neg hc] at h3
        exact Or.inl (by rw [h3, hq1b])
    · intro h0 hle
      rw [h3, h4, hq1b]
      rw [hq1b] at hle
      exact unconsumed_transfer hd ab tl src1.queue_index h0 hle
  · intro r
    obtain ⟨s2, res, src2, ab, h1, h2, h3, h4, -, -, h7, -, -, -, -, -, -, h14, h15, -⟩ :=
      mmap_begin_transfer s src hd tl r hsrc hq
    refine ⟨s2, res, src2, ab, h1, h7, h2, ?_, ?_, h14, by rw [h15, h14]⟩
    · by_cases hc : 0 < src.queue_index
      · rw [if_pos hc] at h3
        exact Or.inr ⟨hc, by rw [h3, hq]; rfl⟩
      · rw [if_neg hc] at h3
        exact Or.inl (by rw [h3, hq])
    · intro h0 hle
      rw [h3, h4, hq]
      rw [hq] at hle
      exact unconsumed_transfer hd ab tl src.queue_index h0 hle

/-- Claim C20, witness: on the device just opened (cursor 0) a write of 4 frames leaves the
placeholder in front of the new buffer of 4 frames; after the cursor has moved past the
placeholder, `snd_pcm_mmap_begin` for 3 frames leaves the new buffer of 3 frames as the only
one not yet consumed. -/
theorem fifo_order_witness :
    (∃ s2 src2 ab, snd_pcm_writei [Sleep.idle] opened silence 4 = some (s2, some 4) ∧
      s2.sourceAlsa = some src2 ∧
      src2.buffer_queue.drop src2.queue_index.toNat
        = [⟨1, .SAMPLE_FMT_U8, 0, 0, 0, 0, 0, 0, []⟩, ab] ∧
      ab.sampleSize = 4 ∧ ab.size = ab.sampleSize * ab.alignSize) ∧
    (∃ s2 res src2 ab, snd_pcm_mmap_begin consumedPlaceholder 3 = some (s2, res) ∧
      res.ret = 0 ∧ s2.sourceAlsa = some src2 ∧
      src2.buffer_queue.drop src2.queue_index.toNat = [ab] ∧
      ab.sampleSize = (res.frames : Int) ∧ ab.size = ab.sampleSize * ab.alignSize) := by
  constructor
  · obtain ⟨s2, src1, src2, ab, h1, h2, -, h4, -, h6, h7, h8⟩ :=
      (fifo_order opened
        ⟨1, [⟨1, .SAMPLE_FMT_U8, 0, 0, 0, 0, 0, 0, []⟩], 0, .SOURCE_STREAMING, .SOURCE_STOPPED⟩
        ⟨1, .SAMPLE_FMT_U8, 0, 0, 0, 0, 0, 0, []⟩ [] rfl rfl).1
        [Sleep.idle] silence 4 opened rfl rfl
    have e : src1 = ⟨1, [⟨1, .SAMPLE_FMT_U8, 0, 0, 0, 0, 0, 0, []⟩], 0, .SOURCE_STREAMING,
        .SOURCE_STOPPED⟩ := by
      have : some src1 = opened.sourceAlsa := h2.symm
      exact Option.some.inj this
    subst e
    exact ⟨s2, src2, ab, h1, h4, h6 (by decide) (by decide), h7, h8⟩
  · obtain ⟨s2, res, src2, ab, h1, h2, h3, -, h5, h6, h7⟩ :=
      (fifo_order consumedPlaceholder
        ⟨1, [⟨1, .SAMPLE_FMT_U8, 0, 0, 0, 0, 0, 0, []⟩], 1, .SOURCE_STREAMING, .SOURCE_STOPPED⟩
        ⟨1, .SAMPLE_FMT_U8, 0, 0, 0, 0, 0, 0, []⟩ [] rfl rfl).2 3
    exact ⟨s2, res, src2, ab, h1, h2, h3, h5 (by decide) (by decide), h6, h7⟩

/-- Claim C21, counterexample: on a device set to 16-bit samples and three channels,
`snd_pcm_mmap_begin` for 4 frames succeeds and queues a buffer of three channels (id 2), and
the areas it exposes are the two of `my_areas[2]`, for channels 0 and 1 (bit offsets 0 and
16, stride 48): there is no area for channel 2. -/
theorem areas_lack_third_channel :
    (threeChannels.bind (fun s => snd_pcm_mmap_begin s 4)).map
        (fun r => (r.2.ret,
          r.1.sourceAlsa.map (fun src => src.buffer_queue.map
            (fun b => (b.id, b.nbChannels, b.bitDepth)))))
      = some (0, some [(1, 3, 0), (2, 3, 16)]) ∧
    (threeChannels.bind (fun s => snd_pcm_mmap_begin s 4)).map
        (fun r => (r.2.areas, r.2.areas.map (fun a => a[2]?)))
      = some (some [⟨2, 0, 48⟩, ⟨2, 16, 48⟩], some none) := by
  constructor <;> decide

/-- Claim C21, amended: on a queue that is not empty `snd_pcm_mmap_begin` succeeds and
exposes exactly two areas, whatever the channel count of the buffer: for `i < 2` the area
for channel `i` has as base address the storage of the new buffer (the last of the queue),
first-sample bit offset `i` × bits per sample and bit stride align size × 8; so this holds
for every channel index below the channel count as long as it is below 2, and there is no
area for a channel index from 2 on. The returned offset is 0. -/
theorem mmap_begin_exposes_two_areas (s : Pcm) (src : AudioSource) (hd : AudioBuffer)
    (tl : List AudioBuffer) (r : Nat)
    (hsrc : s.sourceAlsa = some src) (hq : src.buffer_queue = hd :: tl) :
    ∃ s2 res src2 ab areas, snd_pcm_mmap_begin s r = some (s2, res) ∧ res.ret = 0 ∧
      s2.sourceAlsa = some src2 ∧ src2.buffer_queue.getLast? = some ab ∧
      ab.format = hd.format ∧ ab.nbChannels = hd.nbChannels ∧
      ab.bitDepth = 8 * ab.format.bytesPerSample ∧
      ab.alignSize = ab.format.bytesPerSample * ab.nbChannels ∧
      res.areas = some areas ∧ areas.length = 2 ∧
      (∀ i : Nat, i < 2 →
        areas[i]? = some ⟨ab.id, (i : Int) * ab.bitDepth, ab.alignSize * 8⟩) ∧
      (∀ i : Nat, (i : Int) < ab.nbChannels → i < 2 →
        areas[i]? = some ⟨ab.id, (i : Int) * ab.bitDepth, ab.alignSize * 8⟩) ∧
      (∀ i : Nat, 2 ≤ i → areas[i]? = none) ∧
      res.offset = some 0 := by
  obtain ⟨s2, res, src2, ab, h1, h2, h3, -, -, -, h7, -, -, -, -, -, -, -, -, h16, h17, h18, h19,
    -, -, h22, h23⟩ := mmap_begin_transfer s src hd tl r hsrc hq
  have hareas : ∀ i : Nat, i < 2 →
      [(⟨ab.id, 0, ab.alignSize * 8⟩ : snd_pcm_channel_area_t),
        ⟨ab.id, ab.bitDepth, ab.alignSize * 8⟩][i]?
        = some ⟨ab.id, (i : Int) * ab.bitDepth, ab.alignSize * 8⟩ := by
    intro i hi
    interval_cases i <;> simp
  refine ⟨s2, res, src2, ab, _, h1, h7, h2, by rw [h3]; simp, h18, h19, h17, h16, h23, rfl,
    hareas, fun i _ hi => hareas i hi, ?_, h22⟩
  intro i hi
  simp only [List.getElem?_eq_none_iff, List.length_cons, List.length_nil]
  omega

/-- Claim C21, witness: on a device just opened and set to 16-bit stereo,
`snd_pcm_mmap_begin` exposes the area of channel 0 at bit offset 0 and that of channel 1 at
bit offset 16, both with stride 32 and the same base address, no third area, and
offset 0. -/
theorem mmap_begin_exposes_two_areas_witness :
    ∃ s2 res areas i, snd_pcm_mmap_begin stereo16 4 = some (s2, res) ∧
      res.areas = some areas ∧ areas[0]? = some ⟨i, 0, 32⟩ ∧ areas[1]? = some ⟨i, 16, 32⟩ ∧
      areas[2]? = none ∧ res.offset = some 0 := by
  obtain ⟨s2, res, src2, ab, areas, h1, -, -, -, h4, h5, h6, h7, h8, -, h10, -, h12, h13⟩ :=
    mmap_begin_exposes_two_areas stereo16
      ⟨1, [⟨1, .SAMPLE_FMT_S16, 2, 0, 0, 0, 0, 0, []⟩], 0, .SOURCE_STREAMING, .SOURCE_STOPPED⟩
      ⟨1, .SAMPLE_FMT_S16, 2, 0, 0, 0, 0, 0, []⟩ [] 4 rfl rfl
  have hb : ab.bitDepth = 16 := by rw [h6, h4]; rfl
  have ha : ab.alignSize * 8 = 32 := by rw [h7, h4, h5]; rfl
  have a0 := h10 0 (by decide)
  have a1 := h10 1 (by decide)
  rw [ha, hb] at a0 a1
  exact ⟨s2, res, areas, ab.id, h1, h8, by simpa using a0, by simpa using a1,
    h12 2 (by decide), h13⟩

/-- With a source, the wait loop of `snd_pcm_writei` has no undefined behaviour. -/
theorem writei_loop_defined (sleeps : List Sleep) :
    ∀ (s : Pcm) (src : AudioSource), s.sourceAlsa = some src →
      ∃ s1 b, snd_pcm_writei_loop sleeps s = some (s1, b) := by
  induction sleeps with
  | nil =>
    intro s src _
    exact ⟨s, false, rfl⟩
  | cons e es ih =>
    intro s src hsrc
    have hn : (nanosleep e s).sourceAlsa = some (src.consume e.advance) := by
      simp [nanosleep, hsrc]
    rw [writei_loop_cons]
    split
    · exact ⟨_, _, rfl⟩
    · simp only [get_latency, hn]
      split
      · exact ih _ _ hn
      · exact ⟨_, _, rfl⟩

/-- Claim C22: in every state reached from a successful `snd_pcm_open` by a sequence of
events (calls of the hooks with any arguments, and the other threads acting, the mixing
stage moving the cursor forward), the queue of the active source is not empty. So a call of
`snd_pcm_writei` there never returns -1 (it is still waiting, returns 0 on shutdown, or
returns the frame count), `snd_pcm_mmap_begin` returns 0, and `buffer_queue[0]` exists in the
parameter operations: those that only read or write the reference buffer return, and the
two buffer-time operations find the reference buffer their arithmetic is about. -/
theorem queue_never_empty (s0 s1 : Pcm) (ops : List Op)
    (hrun : run ops (snd_pcm_open s0 SND_PCM_STREAM_PLAYBACK).1 = some s1) :
    (snd_pcm_open s0 SND_PCM_STREAM_PLAYBACK).2 = 0 ∧
    ∃ src hd tl, s1.sourceAlsa = some src ∧ src.buffer_queue = hd :: tl ∧
      refBuffer s1 = some hd ∧
      (∀ (sleeps : List Sleep) (buffer : Nat → Nat) (n : Nat),
        ∃ s2 v, snd_pcm_writei sleeps s1 buffer n = some (s2, v) ∧ v ≠ some (-1)) ∧
      (∀ r : Nat, ∃ s2 res, snd_pcm_mmap_begin s1 r = some (s2, res) ∧ res.ret = 0) ∧
      (snd_pcm_hw_params s1).isSome = true ∧ (snd_pcm_sw_params s1).isSome = true ∧
      (∀ val : Int, (snd_pcm_hw_params_set_format s1 val).isSome = true) ∧
      snd_pcm_hw_params_get_channels s1 = some (s1, 0, hd.nbChannels) ∧
      (∀ val : Nat, (snd_pcm_hw_params_set_channels s1 val).isSome = true) ∧
      (∀ (val : Nat) (dir : Int), (snd_pcm_hw_params_set_rate s1 val dir).isSome = true) ∧
      (∀ val : Nat, (snd_pcm_hw_params_set_rate_near s1 val).isSome = true) ∧
      (hd.frequency ≠ 0 → fitsInt (s1.buffer_size * 1000000) →
        (snd_pcm_hw_params_get_buffer_time_max s1).isSome = true) ∧
      (∀ val : Nat, val ≠ 0 ∨ (hd.frequency ≠ 0 ∧ fitsInt (s1.buffer_size * 1000000)) →
        (snd_pcm_hw_params_set_buffer_time_near s1 val).isSome = true) := by
  have h1 : WellFormed s1 := wellFormed_run ops _ s1 (wellFormed_open s0) hrun
  obtain ⟨src, hsrc, hne, -, -⟩ := (wellFormed_iff s1).mp h1
  obtain ⟨hd, tl, hq⟩ : ∃ hd tl, src.buffer_queue = hd :: tl := by
    cases hb : src.buffer_queue with
    | nil => exact absurd hb hne
    | cons hd tl => exact ⟨hd, tl, rfl⟩
  refine ⟨rfl, src, hd, tl, hsrc, hq, by simp [refBuffer, hsrc, hq], ?_, ?_, ?_, ?_, ?_, ?_, ?_,
    ?_, ?_, ?_, ?_⟩
  · intro sleeps buffer n
    obtain ⟨s2, b, hl⟩ := writei_loop_defined sleeps s1 src hsrc
    cases b with
    | false => exact ⟨s2, none, by simp [snd_pcm_writei, hl], by simp⟩
    | true =>
      cases hx : s2.is_exiting with
      | true => exact ⟨s2, some 0, by simp [snd_pcm_writei, hl, hx], by simp⟩
      | false =>
        obtain ⟨-, -, -, src2, hsrc2, hq2⟩ := writei_loop_frame sleeps s1 s2 true src hsrc hl
        obtain ⟨s3, src3, ab, he, -⟩ :=
          writei_transfer sleeps s1 s2 src2 hd tl buffer n hl hx hsrc2 (by rw [hq2, hq])
        refine ⟨s3, some (n : Int), he, ?_⟩
        simp only [ne_eq, Option.some.injEq]
        omega
  · intro r
    obtain ⟨s2, res, src2, ab, he, -, -, -, -, -, hret, -⟩ :=
      mmap_begin_transfer s1 src hd tl r hsrc hq
    exact ⟨s2, res, he, hret⟩
  · simp [snd_pcm_hw_params, hsrc, hq]
  · simp [snd_pcm_sw_params, hsrc, hq]
  · intro val
    simp only [snd_pcm_hw_params_set_format, hsrc, hq]
    split_ifs <;> rfl
  · simp [snd_pcm_hw_params_get_channels, hsrc, hq]
  · intro val
    simp [snd_pcm_hw_params_set_channels, hsrc, hq]
  · intro val dir
    simp [snd_pcm_hw_params_set_rate, hsrc, hq]
  · intro val
    simp [snd_pcm_hw_params_set_rate_near, hsrc, hq]
  · intro hf hfit
    simp [snd_pcm_hw_params_get_buffer_time_max, hsrc, hq, hf, hfit]
  · intro val hv
    simp only [snd_pcm_hw_params_set_buffer_time_near, hsrc, hq]
    rcases hv with hv | ⟨hf, hfit⟩
    · simp only [hv, ↓reduceIte]
      split_ifs <;> rfl
    · simp only [hf, hfit, not_true_eq_false, ↓reduceIte, ne_eq, not_false_eq_true]
      split_ifs <;> rfl

/-- Claim C22, witness: after open, a write, cursor advances and two recycling transfers
(the events of `roundTripOps`), the queue is not empty, a write of 2 frames does not return
-1 and `snd_pcm_mmap_begin` returns 0. -/
theorem queue_never_empty_witness :
    ∃ s1, run roundTripOps (snd_pcm_open Pcm.init SND_PCM_STREAM_PLAYBACK).1 = some s1 ∧
      (∃ src, s1.sourceAlsa = some src ∧ src.buffer_queue ≠ []) ∧
      (∃ s2 v, snd_pcm_writei [Sleep.idle] s1 silence 2 = some (s2, v) ∧ v ≠ some (-1)) ∧
      (∃ s2 res, snd_pcm_mmap_begin s1 3 = some (s2, res) ∧ res.ret = 0) := by
  have h : (run roundTripOps (snd_pcm_open Pcm.init SND_PCM_STREAM_PLAYBACK).1).isSome
      = true := by decide
  obtain ⟨s1, hs1⟩ := Option.isSome_iff_exists.mp h
  obtain ⟨-, src, hd, tl, hsrc, hq, -, hw, hm, -⟩ := queue_never_empty Pcm.init s1 roundTripOps hs1
  exact ⟨s1, hs1, ⟨src, hsrc, by rw [hq]; simp⟩, hw [Sleep.idle] silence 2, hm 3⟩

/-- Recycling: the frames of the buffer taken off the front leave the queued frames and the
position alike, and the frames of the buffer appended join the queued frames. -/
theorem recycle_amounts (src src1 : AudioSource) (hd : AudioBuffer) (tl : List AudioBuffer)
    (ab1 : AudioBuffer) (hq : src.buffer_queue = hd :: tl)
    (hq1 : src1.buffer_queue = tl ++ [ab1]) (hi : src1.queue_index = src.queue_index - 1)
    (hpos : 0 < src.queue_index) (hwf : src.queue_index ≤ src.buffer_queue.length) :
    src1.queueSize = src.queueSize - hd.sampleSize + ab1.sampleSize ∧
    src1.getPosition = src.getPosition - hd.sampleSize := by
  obtain ⟨k, hk⟩ : ∃ k : Nat, src.queue_index = (k : Int) + 1 :=
    ⟨(src.queue_index - 1).toNat, by omega⟩
  have hlen : k ≤ tl.length := by
    rw [hq, hk] at hwf
    simp only [List.length_cons, Nat.cast_add, Nat.cast_one] at hwf
    omega
  have h1 : src.queue_index.toNat = k + 1 := by omega
  have h2 : src1.queue_index.toNat = k := by omega
  simp only [AudioSource.queueSize, AudioSource.getPosition, hq, hq1, h1, h2,
    List.take_succ_cons, List.map_cons, List.sum_cons, List.map_append, List.sum_append,
    List.map_nil, List.sum_nil, List.take_append_of_le_length hlen]
  constructor <;> ring

/-- Allocating: with no processed buffer the position is 0 and stays 0, and the frames of the
buffer appended join the queued frames. -/
theorem allocate_amounts (src src1 : AudioSource) (ab1 : AudioBuffer)
    (hq1 : src1.buffer_queue = src.buffer_queue ++ [ab1])
    (hi : src1.queue_index = src.queue_index) (hpos : src.queue_index ≤ 0) :
    src1.queueSize = src.queueSize + ab1.sampleSize ∧
    src1.getPosition = src.getPosition := by
  have h1 : src.queue_index.toNat = 0 := by omega
  have h2 : src1.queue_index.toNat = 0 := by omega
  simp [AudioSource.queueSize, AudioSource.getPosition, hq1, h1, h2]

/-- Claim C23: on a queue that is not empty, with the cursor not beyond its end,
`snd_pcm_mmap_begin` succeeds and raises the latency by exactly the frame count it grants.
When it recycles (cursor positive) the frames of the buffer taken off the front leave the
queued frames and the position alike; when it allocates, the position is unchanged. So a
latency that was at most the capacity is at most the capacity afterwards. A grant of 0
(which is what a request of 0, or a latency that has reached the capacity, gets) still
appends a buffer, of zero frames, and leaves the latency unchanged. -/
theorem mmap_begin_never_overfills (s : Pcm) (src : AudioSource) (hd : AudioBuffer)
    (tl : List AudioBuffer) (r : Nat)
    (hsrc : s.sourceAlsa = some src) (hq : src.buffer_queue = hd :: tl)
    (hwf : src.queue_index ≤ src.buffer_queue.length) :
    ∃ s2 res src2 ab, snd_pcm_mmap_begin s r = some (s2, res) ∧ res.ret = 0 ∧
      s2.sourceAlsa = some src2 ∧ s2.buffer_size = s.buffer_size ∧
      get_latency s = some (src.queueSize - src.getPosition) ∧
      get_latency s2 = some (src.queueSize - src.getPosition + (res.frames : Int)) ∧
      (0 < src.queue_index →
        src2.buffer_queue = tl ++ [ab] ∧
        src2.queueSize = src.queueSize - hd.sampleSize + (res.frames : Int) ∧
        src2.getPosition = src.getPosition - hd.sampleSize) ∧
      (¬ 0 < src.queue_index →
        src2.buffer_queue = hd :: tl ++ [ab] ∧
        src2.queueSize = src.queueSize + (res.frames : Int) ∧
        src2.getPosition = src.getPosition) ∧
      (src.queueSize - src.getPosition ≤ s.buffer_size →
        src.queueSize - src.getPosition + (res.frames : Int) ≤ s2.buffer_size) ∧
      ab.sampleSize = (res.frames : Int) ∧
      (r = 0 ∨ s.buffer_size ≤ src.queueSize - src.getPosition → res.frames = 0) ∧
      (res.frames = 0 → ab.sampleSize = 0 ∧ get_latency s2 = get_latency s) := by
  obtain ⟨s2, res, src2, ab, h1, h2, h3, h4, -, -, h7, h8, -, -, h11, -, -, h14, -⟩ :=
    mmap_begin_transfer s src hd tl r hsrc hq
  have hl : get_latency s = some (src.queueSize - src.getPosition) := by
    simp [get_latency, hsrc]
  have hboth : src2.queueSize - src2.getPosition
      = src.queueSize - src.getPosition + (res.frames : Int) ∧
      (0 < src.queue_index →
        src2.buffer_queue = tl ++ [ab] ∧
        src2.queueSize = src.queueSize - hd.sampleSize + (res.frames : Int) ∧
        src2.getPosition = src.getPosition - hd.sampleSize) ∧
      (¬ 0 < src.queue_index →
        src2.buffer_queue = hd :: tl ++ [ab] ∧
        src2.queueSize = src.queueSize + (res.frames : Int) ∧
        src2.getPosition = src.getPosition) := by
    by_cases hc : 0 < src.queue_index
    · rw [if_pos hc] at h3 h4
      obtain ⟨a, b⟩ := recycle_amounts src src2 hd tl ab hq h3 h4 hc hwf
      rw [h14] at a
      exact ⟨by rw [a, b]; ring, fun _ => ⟨h3, a, b⟩, fun h => absurd hc h⟩
    · rw [if_neg hc] at h3 h4
      obtain ⟨a, b⟩ := allocate_amounts src src2 ab (by rw [h3, hq]) h4 (by omega)
      rw [h14] at a
      exact ⟨by rw [a, b]; ring, fun h => absurd h hc, fun _ => ⟨h3, a, b⟩⟩
  obtain ⟨hlat, hrec, hall⟩ := hboth
  have hl2 : get_latency s2
      = some (src.queueSize - src.getPosition + (res.frames : Int)) := by
    simp [get_latency, h2, hlat]
  refine ⟨s2, res, src2, ab, h1, h7, h2, h11, hl, hl2, hrec, hall, ?_, h14, ?_, ?_⟩
  · intro hle
    rw [h11, h8]
    have := min_le_right (r : Int) (max 0 (s.buffer_size - (src.queueSize - src.getPosition)))
    have hm : max 0 (s.buffer_size - (src.queueSize - src.getPosition))
        = s.buffer_size - (src.queueSize - src.getPosition) := max_eq_right (by omega)
    rw [hm] at this
    omega
  · intro h0
    have hge : (0 : Int) ≤ (res.frames : Int) := Int.ofNat_nonneg _
    have hle : (res.frames : Int) ≤ 0 := by
      rw [h8]
      rcases h0 with h0 | h0
      · rw [h0]
        exact min_le_left _ _
      · have hm : max 0 (s.buffer_size - (src.queueSize - src.getPosition)) = 0 :=
          max_eq_left (by omega)
        rw [hm]
        exact min_le_right _ _
    omega
  · intro h0
    rw [hl2, hl, h14, h0]
    simp

/-- Claim C23, witness: after the cursor has moved past the placeholder of the device just
opened (capacity 4096, latency 0), `snd_pcm_mmap_begin` for 3 frames recycles the
placeholder and the latency is 3; for 0 frames the latency stays 0. -/
theorem mmap_begin_never_overfills_witness :
    (∃ s2 res, snd_pcm_mmap_begin consumedPlaceholder 3 = some (s2, res) ∧ res.ret = 0 ∧
      get_latency consumedPlaceholder = some 0 ∧ get_latency s2 = some (0 + (res.frames : Int)) ∧
      0 + (res.frames : Int) ≤ s2.buffer_size) ∧
    (∃ s2 res, snd_pcm_mmap_begin consumedPlaceholder 0 = some (s2, res) ∧
      res.frames = 0 ∧ get_latency s2 = get_latency consumedPlaceholder) := by
  constructor
  · obtain ⟨s2, res, src2, ab, h1, h2, -, -, h5, h6, -, -, h9, -⟩ :=
      mmap_begin_never_overfills consumedPlaceholder
        ⟨1, [⟨1, .SAMPLE_FMT_U8, 0, 0, 0, 0, 0, 0, []⟩], 1, .SOURCE_STREAMING, .SOURCE_STOPPED⟩
        ⟨1, .SAMPLE_FMT_U8, 0, 0, 0, 0, 0, 0, []⟩ [] 3 rfl rfl (by decide)
    exact ⟨s2, res, h1, h2, h5, h6, h9 (by decide)⟩
  · obtain ⟨s2, res, src2, ab, h1, -, -, -, -, -, -, -, -, -, h11, h12⟩ :=
      mmap_begin_never_overfills consumedPlaceholder
        ⟨1, [⟨1, .SAMPLE_FMT_U8, 0, 0, 0, 0, 0, 0, []⟩], 1, .SOURCE_STREAMING, .SOURCE_STOPPED⟩
        ⟨1, .SAMPLE_FMT_U8, 0, 0, 0, 0, 0, 0, []⟩ [] 0 rfl rfl (by decide)
    exact ⟨s2, res, h1, h11 (Or.inl rfl), (h12 (h11 (Or.inl rfl))).2⟩

/-- The wait loop of `snd_pcm_wait` leaves the period count alone. -/
theorem periods_wait (sleeps : List Sleep) (s s1 : Pcm) (timeout : Int) (v : Option Int)
    (h : snd_pcm_wait sleeps s timeout = some (s1, v)) : s1.periods = s.periods := by
  obtain ⟨k, -, hk⟩ := wait_is_sleepThrough sleeps s s1 timeout v h
  rw [hk]
  exact (sleepThrough_frame _ s).2.2.1

/-- A call of `snd_pcm_writei` leaves the period count alone. -/
theorem periods_writei (sleeps : List Sleep) (s s2 : Pcm) (buffer : Nat → Nat) (n : Nat)
    (v : Option Int) (h : snd_pcm_writei sleeps s buffer n = some (s2, v)) :
    s2.periods = s.periods := by
  cases hl : snd_pcm_writei_loop sleeps s with
  | none => simp [snd_pcm_writei, hl] at h
  | some r =>
    obtain ⟨s1, b⟩ := r
    obtain ⟨k, -, hk⟩ := writei_loop_is_sleepThrough sleeps s s1 b hl
    have hp : s1.periods = s.periods := by
      rw [hk]
      exact (sleepThrough_frame _ s).2.2.1
    simp only [snd_pcm_writei, hl] at h
    rw [← hp]
    cases b with
    | false =>
      simp at h
      rw [← h.1]
    | true =>
      simp only at h
      repeat' split at h
      all_goals simp only [Option.some.injEq, Prod.mk.injEq, reduceCtorEq] at h
      all_goals rw [← h.1]

/-- A call of `snd_pcm_mmap_begin` leaves the period count alone. -/
theorem periods_mmap_begin (s s2 : Pcm) (r : Nat) (res : MmapBegin)
    (h : snd_pcm_mmap_begin s r = some (s2, res)) : s2.periods = s.periods := by
  simp only [snd_pcm_mmap_begin] at h
  repeat' split at h
  all_goals simp only [Option.some.injEq, Prod.mk.injEq, reduceCtorEq] at h
  all_goals rw [← h.1]

/-- The only event that changes the period count is `snd_pcm_hw_params_set_periods_near`,
which stores the value it is given. -/
theorem periods_step (op : Op) (s s1 : Pcm) (hs : op.step s = some s1) :
    s1.periods = s.periods ∨
      ∃ val, op = Op.snd_pcm_hw_params_set_periods_near val ∧ s1.periods = (val : Int) := by
  cases op with
  | snd_pcm_hw_params_set_periods_near val =>
    simp only [Op.step, snd_pcm_hw_params_set_periods_near, Option.some.injEq] at hs
    exact Or.inr ⟨val, rfl, by rw [← hs]⟩
  | snd_pcm_wait sleeps timeout =>
    simp only [Op.step, Option.map_eq_some'] at hs
    obtain ⟨⟨s2, v⟩, hw, rfl⟩ := hs
    exact Or.inl (periods_wait sleeps s s2 timeout v hw)
  | snd_pcm_writei sleeps buffer size =>
    simp only [Op.step, Option.map_eq_some'] at hs
    obtain ⟨⟨s2, v⟩, hw, rfl⟩ := hs
    exact Or.inl (periods_writei sleeps s s2 buffer size v hw)
  | snd_pcm_mmap_begin frames =>
    simp only [Op.step, Option.map_eq_some'] at hs
    obtain ⟨⟨s2, res⟩, hw, rfl⟩ := hs
    exact Or.inl (periods_mmap_begin s s2 frames res hw)
  | _ =>
    left
    simp only [Op.step, snd_pcm_open, snd_pcm_close,
      snd_pcm_nonblock, snd_pcm_start, snd_pcm_resume, snd_pcm_delay, snd_pcm_avail_update,
      snd_pcm_hw_params, snd_pcm_sw_params_current, snd_pcm_sw_params, snd_pcm_prepare,
      snd_pcm_readi, snd_pcm_mmap_commit, snd_pcm_hw_params_any, snd_pcm_hw_params_sizeof,
      snd_pcm_hw_params_malloc, snd_pcm_hw_params_free, snd_pcm_hw_params_copy,
      snd_pcm_hw_params_set_access, snd_pcm_hw_params_set_format,
      snd_pcm_hw_params_get_channels, snd_pcm_hw_params_get_channels_max,
      snd_pcm_hw_params_set_channels, snd_pcm_hw_params_set_rate,
      snd_pcm_hw_params_set_rate_near, snd_pcm_hw_params_set_rate_resample,
      snd_pcm_hw_params_get_period_size, snd_pcm_hw_params_get_period_time_min,
      snd_pcm_hw_params_set_period_size_near, snd_pcm_hw_params_get_buffer_size,
      snd_pcm_hw_params_get_buffer_time_max, snd_pcm_hw_params_set_buffer_size_near,
      snd_pcm_hw_params_set_buffer_time_near, snd_pcm_hw_params_test_rate,
      snd_pcm_sw_params_sizeof, snd_pcm_sw_params_set_start_threshold,
      snd_pcm_sw_params_set_avail_min, snd_pcm_get_chmap, nanosleep, get_latency] at hs
    repeat' split at hs
    all_goals simp only [Option.map_some', Option.map_none', Option.some.injEq,
      reduceCtorEq] at hs
    all_goals rw [← hs]

/-- The period count is not 0 after a sequence of events that started with a period count
other than 0 and holds no call of `snd_pcm_hw_params_set_periods_near` with `*val = 0`. -/
theorem periods_run (ops : List Op) :
    ∀ (s s1 : Pcm), s.periods ≠ 0 →
      (∀ op ∈ ops, op ≠ Op.snd_pcm_hw_params_set_periods_near 0) →
      run ops s = some s1 → s1.periods ≠ 0 := by
  induction ops with
  | nil =>
    intro s s1 h _ hr
    simp [run] at hr
    rw [← hr]
    exact h
  | cons op ops ih =>
    intro s s1 h hno hr
    simp only [run] at hr
    cases hst : op.step s with
    | none => simp [hst] at hr
    | some s2 =>
      simp only [hst] at hr
      refine ih s2 s1 ?_ (fun x hx => hno x (List.mem_cons_of_mem _ hx)) hr
      rcases periods_step op s s2 hst with h2 | ⟨val, hop, h2⟩
      · rw [h2]
        exact h
      · rw [h2]
        intro h0
        have hv : val = 0 := by exact_mod_cast h0
        rw [hv] at hop
        exact hno op (List.mem_cons_self _ _) hop

/-- Claim C24, the code at the failing input: on the device just opened,
`snd_pcm_hw_params_set_periods_near` called with `*val = 0` returns 0 and stores 0 as the
period count, and the division `buffer_size / periods` of
`snd_pcm_hw_params_get_period_size` in that state is a division by zero. -/
theorem periods_zero_after_set_periods_near :
    (snd_pcm_hw_params_set_periods_near opened 0).2 = 0 ∧
    (snd_pcm_hw_params_set_periods_near opened 0).1.periods = 0 ∧
    snd_pcm_hw_params_get_period_size (snd_pcm_hw_params_set_periods_near opened 0).1
      = none := by
  decide

end libtas
